import Mathlib

/-! # Lanthing worker, capturer, renderer and launcher: a shallow embedding

Definitions are transcribed from

* `lanthing/src/worker/worker.cpp` (options, codec negotiation, pipe messages,
  handler dispatch, keep-alive time-out),
* `lanthing/src/graphics/capturer/dxgi_video_capturer.cpp` (adapter selection,
  shared texture pool, frame capture),
* `lanthing/src/graphics/capturer/video_capturer.cpp` (capture loop, `stop`),
* `src/video/renderer/video_renderer.cpp` (cursor updates),
* `src/main.cpp` (option parsing, log flush cadence, log sink, roles and exit
  codes).

Calls into the platform (GPU, clock, pipe, other threads) are explicit inputs of
the embedded functions; effects that leave the object (log lines, posted tasks,
calls of `stop`) are recorded in fields of the state.
-/

namespace lt

/-! ## Enumerations -/

/-- The codec types of `lt::VideoCodecType` that `worker.cpp` distinguishes. -/
inductive VideoCodecType where
  | Unknown
  | H264
  | H265
  deriving DecidableEq, Repr, Inhabited

/-- The encoder backends of `lt::VideoEncoder::Backend`: the three that
`to_protobuf` names and one standing for its `default:` branch. -/
inductive Backend where
  | Unknown
  | NvEnc
  | IntelMediaSDK
  | Amf
  deriving DecidableEq, Repr, Inhabited

/-- An entry of `VideoEncoder::check_encode_abilities*`. -/
structure Ability where
  backend : Backend
  codec_type : VideoCodecType
  deriving DecidableEq, Repr, Inhabited

/-- Protobuf enum `ltproto::peer2peer::VideoCodecType`. -/
inductive PbVideoCodecType where
  | UnknownVCT
  | AVC
  | HEVC
  deriving DecidableEq, Repr, Inhabited

/-- Protobuf enum `StreamingParams::VideoEncodeBackend`. -/
inductive PbVideoEncodeBackend where
  | UnknownVideoEncode
  | NvEnc
  | IntelMediaSDK
  | AMF
  deriving DecidableEq, Repr, Inhabited

/-- Protobuf enum `StreamingParams::VideoCaptureBackend`. -/
inductive PbVideoCaptureBackend where
  | UnknownVideoCapture
  | Dxgi
  deriving DecidableEq, Repr, Inhabited

/-- Capture backends of `lt::VideoCapturer::Backend`. -/
inductive CaptureBackend where
  | Unknown
  | Dxgi
  deriving DecidableEq, Repr, Inhabited

/-- Function `to_protobuf(lt::VideoEncoder::Backend)`, worker.cpp 26-38. -/
def backend_to_protobuf : Backend → PbVideoEncodeBackend
  | .NvEnc => .NvEnc
  | .IntelMediaSDK => .IntelMediaSDK
  | .Amf => .AMF
  | _ => .UnknownVideoEncode

/-- Function `to_protobuf(lt::VideoCodecType)`, worker.cpp 40-49. -/
def codec_to_protobuf : VideoCodecType → PbVideoCodecType
  | .H264 => .AVC
  | .H265 => .HEVC
  | _ => .UnknownVCT

/-- Function `to_string(lt::VideoCodecType)`, worker.cpp 51-60. -/
def to_string : VideoCodecType → String
  | .H264 => "AVC"
  | .H265 => "HEVC"
  | _ => "Unknown Codec"

/-! ## Messages and worker state -/

/-- Message `StreamingParams::VideoCodec`. -/
structure VideoCodec where
  backend : PbVideoEncodeBackend
  codec_type : PbVideoCodecType
  deriving DecidableEq, Repr, Inhabited

/-- The fields of `ltproto::peer2peer::StreamingParams` that the worker sets;
a fresh message holds the protobuf defaults. -/
structure StreamingParams where
  audio_channels : Nat := 0
  audio_sample_rate : Nat := 0
  video_capture_backend : PbVideoCaptureBackend := .UnknownVideoCapture
  luid : Int := 0
  enable_driver_input : Bool := false
  enable_gamepad : Bool := false
  screen_refresh_rate : Nat := 0
  video_width : Nat := 0
  video_height : Nat := 0
  video_codecs : List VideoCodec := []
  deriving DecidableEq, Repr, Inhabited

/-- Struct `DisplaySetting` (the third field is spelt as in the source). -/
structure DisplaySetting where
  width : Nat
  height : Nat
  refrash_rate : Nat
  deriving DecidableEq, Repr, Inhabited

/-- What the worker reads from a created `AudioCapturer`. -/
structure AudioCapturerInfo where
  channels : Nat
  framesPerSec : Nat
  deriving DecidableEq, Repr, Inhabited

/-- What the worker reads from a created `VideoCapturer`. -/
structure VideoCapturerInfo where
  luid : Int
  deriving DecidableEq, Repr, Inhabited

/-- Severity of a g3log line. -/
inductive LogLevel where
  | DEBUG
  | INFO
  | WARNING
  | FATAL
  deriving DecidableEq, Repr, Inhabited

/-- A `lt::MessageHandler` (`std::function`): empty, one of the worker's own
bound methods, or a handler registered from outside (the input executor). -/
inductive MessageHandler where
  | null
  | on_start_working
  | on_stop_working
  | on_keep_alive
  | external (id : Nat)
  deriving DecidableEq, Repr, Inhabited

/-- Message `ltproto::peer2peer::CaptureVideoFrame`, as far as the capturer
fills it. -/
structure CaptureVideoFrame where
  name : String := ""
  capture_timestamp_us : Int := 0
  picture_id : Nat := 0
  deriving DecidableEq, Repr, Inhabited

/-- Enum `StartWorkingAck::ErrCode`, the two values `Worker::on_start_working`
writes. -/
inductive ErrCode where
  | Success
  | InputFailed
  deriving DecidableEq, Repr, Inhabited

/-- Message `ltproto::peer2peer::StartWorkingAck`: the error code and the
repeated field `msg_type`. -/
structure StartWorkingAck where
  err_code : ErrCode := .Success
  msg_type : List Nat := []
  deriving DecidableEq, Repr, Inhabited

/-- A `google::protobuf::MessageLite` travelling over the pipe: the messages the
worker builds or reads, and `other` for any further message, known by a
number. -/
inductive Message where
  | StreamingParams (params : StreamingParams)
  | StartWorking
  | StartWorkingAck (ack : StartWorkingAck)
  | StopWorking
  | KeepAlive
  | CaptureVideoFrame (frame : CaptureVideoFrame)
  | AudioData (data : Nat)
  | other (payload : Nat)
  deriving DecidableEq, Repr, Inhabited

/-- Calls the worker makes on its two capturers. -/
inductive CapturerCall where
  | video_start
  | audio_start
  | video_stop
  | audio_stop
  deriving DecidableEq, Repr, Inhabited

/-- Tasks the worker hands to `ioloop_->post_delay`. -/
inductive WorkerTask where
  | check_timeout
  deriving DecidableEq, Repr, Inhabited

/-- Struct `Worker::Params`. -/
structure Params where
  name : String
  width : Nat
  height : Nat
  refresh_rate : Nat
  codecs : List VideoCodecType
  deriving DecidableEq, Repr, Inhabited

/-- The members of `lt::worker::Worker` that the embedded methods touch.
`stop_calls` counts the calls of `Worker::stop` (`session_observer_->stop()`),
`posted` records the `ioloop_->post_delay` calls in order, `log` the lines
written through g3log, `sent` the calls of `pipe_client_->send` (type id and
message) in order, `handler_calls` the invocations of registered handlers with
their argument, `capturer_calls` the calls on the capturers; `input_` tells
whether the input executor is held. -/
structure Worker where
  client_width_ : Nat
  client_height_ : Nat
  client_refresh_rate_ : Nat
  client_codec_types_ : List VideoCodecType
  pipe_name_ : String
  last_time_received_from_service_ : Int
  connected_to_service_ : Bool := false
  session_observer_ : Bool := false
  ioloop_ : Bool := false
  pipe_client_ : Option String := none
  negotiated_display_setting_ : DisplaySetting := ⟨0, 0, 0⟩
  negotiated_params_ : Option StreamingParams := none
  negotiated_video_codec_beckend_ : Backend := .Unknown
  negotiated_video_codec_type_ : VideoCodecType := .Unknown
  video_capturer_ : Option VideoCapturerInfo := none
  audio_capturer_ : Option AudioCapturerInfo := none
  msg_handlers_ : List (Nat × MessageHandler) := []
  thread_ : Bool := false
  stop_calls : Nat := 0
  posted : List (Nat × WorkerTask) := []
  log : List (LogLevel × String) := []
  input_ : Bool := false
  sent : List (Nat × Message) := []
  handler_calls : List (MessageHandler × Message) := []
  capturer_calls : List CapturerCall := []
  deriving DecidableEq, Repr, Inhabited

/-- What the platform answers to the worker: whether each factory returns an
object, what the display negotiator and the encoder probe return, the message
type ids of `ltproto::type` (those `ltproto::id` gives for the messages the
worker sends included), whether `InputExecutor::create` returns an executor and
which handlers it registers through the callback it is given, and what
`pipe_client_->send` returns. -/
structure Host where
  session_observer_create : Bool
  ioloop_create : Bool
  pipe_client_create : Bool
  negotiate : DisplaySetting → DisplaySetting
  audio_capturer_create : Option AudioCapturerInfo
  video_capturer_create : Option VideoCapturerInfo
  check_encode_abilities_with_luid : Int → Nat → Nat → List Ability
  check_encode_abilities : Nat → Nat → List Ability
  kStartWorking : Nat
  kStopWorking : Nat
  kKeepAlive : Nat
  kStreamingParams : Nat
  kStartWorkingAck : Nat
  kCaptureVideoFrame : Nat
  kAudioData : Nat
  other_id : Nat → Nat
  input_executor_create : Bool
  input_registrations : List (Nat × MessageHandler)
  pipe_send : Nat → Message → Bool

/-- Constructor `Worker::Worker(const Params&)`, worker.cpp 122-128; `now` is
the value of `ltlib::steady_now_ms()` at construction. -/
def Worker.new (params : Params) (now : Int) : Worker :=
  { client_width_ := params.width
    client_height_ := params.height
    client_refresh_rate_ := params.refresh_rate
    client_codec_types_ := params.codecs
    pipe_name_ := params.name
    last_time_received_from_service_ := now }

/-! ## Codec negotiation (worker.cpp 216-297) -/

/-- Inner loop, worker.cpp 267-278: walk the client codec list and, at the first
codec equal to the ability's, append one entry, record backend and type, log,
and break. -/
def negotiate_client_loop (encode_ability : Ability) :
    List VideoCodecType → Worker × StreamingParams → Worker × StreamingParams
  | [], s => s
  | client_codec_type :: rest, (w, p) =>
    if client_codec_type = encode_ability.codec_type then
      ({ w with
          negotiated_video_codec_beckend_ := encode_ability.backend
          negotiated_video_codec_type_ := encode_ability.codec_type
          log := w.log ++
            [(LogLevel.INFO, "Negotiated video codec:" ++ to_string encode_ability.codec_type)] },
       { p with
          video_codecs := p.video_codecs ++
            [⟨backend_to_protobuf encode_ability.backend,
              codec_to_protobuf encode_ability.codec_type⟩] })
    else negotiate_client_loop encode_ability rest (w, p)

/-- Outer loop, worker.cpp 263-279: walk the host abilities in order, break as
soon as the negotiated list is non-empty. -/
def negotiate_ability_loop :
    List Ability → Worker × StreamingParams → Worker × StreamingParams
  | [], s => s
  | encode_ability :: rest, (w, p) =>
    if !p.video_codecs.isEmpty then (w, p)
    else
      negotiate_ability_loop rest
        (negotiate_client_loop encode_ability w.client_codec_types_ (w, p))

/-- The warning text built in worker.cpp 281-290. -/
def negotiate_failed_text (client : List VideoCodecType) (abilities : List Ability) : String :=
  "Negotiate video codec failed, client supports codec:["
    ++ String.join (client.map fun c => to_string c ++ " ")
    ++ "], host supports codec:["
    ++ String.join (abilities.map fun a => to_string a.codec_type ++ " ")
    ++ "]"

/-- Method `Worker::negotiate_parameters`, worker.cpp 216-297. The capture
backend requested is always `Dxgi` (line 235). Returns the `bool` result and the
worker afterwards. -/
def Worker.negotiate_parameters (h : Host) (w : Worker) : Bool × Worker :=
  let negotiated_params : StreamingParams := {}
  match h.audio_capturer_create with
  | none => (false, w)
  | some audio_capturer =>
    let negotiated_params := { negotiated_params with
      audio_channels := audio_capturer.channels
      audio_sample_rate := audio_capturer.framesPerSec }
    let video_params_backend := CaptureBackend.Dxgi
    match h.video_capturer_create with
    | none =>
      (false, { w with log := w.log ++ [(LogLevel.WARNING, "Create VideoCapturer with(backend) failed")] })
    | some video_capturer =>
      let (negotiated_params, encode_abilities) :=
        if video_params_backend = CaptureBackend.Dxgi then
          ({ negotiated_params with
              video_capture_backend := PbVideoCaptureBackend.Dxgi
              luid := video_capturer.luid },
           h.check_encode_abilities_with_luid video_capturer.luid
             w.negotiated_display_setting_.width w.negotiated_display_setting_.height)
        else
          ({ negotiated_params with
              video_capture_backend := PbVideoCaptureBackend.UnknownVideoCapture },
           h.check_encode_abilities w.client_width_ w.client_height_)
      let negotiated_params := { negotiated_params with
        enable_driver_input := false
        enable_gamepad := false
        screen_refresh_rate := w.negotiated_display_setting_.refrash_rate
        video_width := w.negotiated_display_setting_.width
        video_height := w.negotiated_display_setting_.height }
      let (w, negotiated_params) := negotiate_ability_loop encode_abilities (w, negotiated_params)
      let w :=
        if negotiated_params.video_codecs.isEmpty then
          { w with log := w.log ++
              [(LogLevel.WARNING, negotiate_failed_text w.client_codec_types_ encode_abilities)] }
        else w
      (true, { w with
        negotiated_params_ := some negotiated_params
        video_capturer_ := some video_capturer
        audio_capturer_ := some audio_capturer })

/-! ## Handler registration and `Worker::init` -/

/-- The `std::map::insert` of a key-ordered association list: the pair is added
at its place when the key is absent (second component `true`); when the key is
present the map is returned as it was (second component `false`). -/
def map_insert {β : Type} (k : Nat) (v : β) : List (Nat × β) → List (Nat × β) × Bool
  | [] => ([(k, v)], true)
  | (k0, v0) :: rest =>
    if k < k0 then ((k, v) :: (k0, v0) :: rest, true)
    else if k = k0 then ((k0, v0) :: rest, false)
    else ((k0, v0) :: (map_insert k v rest).1, (map_insert k v rest).2)

/-- Method `Worker::stop`, worker.cpp 304-306. -/
def Worker.stop (w : Worker) : Worker :=
  { w with stop_calls := w.stop_calls + 1 }

/-- Method `Worker::register_message_handler`, worker.cpp 308-317. -/
def Worker.register_message_handler (type : Nat) (handler : MessageHandler) (w : Worker) :
    Bool × Worker :=
  let r := map_insert type handler w.msg_handlers_
  if !r.2 then
    (false, { w with log := w.log ++ [(LogLevel.WARNING, "Register message handler failed")] })
  else
    (true, { w with msg_handlers_ := r.1 })

/-- The registration loop of `Worker::init`, worker.cpp 181-185. -/
def register_handlers : List (Nat × MessageHandler) → Worker → Worker
  | [], w => w
  | handler :: rest, w =>
    let r := w.register_message_handler handler.1 handler.2
    let w := r.2
    let w :=
      if !r.1 then { w with log := w.log ++ [(LogLevel.FATAL, "Register message handler failed")] }
      else w
    register_handlers rest w

/-- Method `Worker::init_pipe_client`, worker.cpp 201-214: `pipe_client_` holds
the endpoint name the client was created with, or nothing when
`ltlib::Client::create` returned no client. -/
def Worker.init_pipe_client (h : Host) (w : Worker) : Bool × Worker :=
  let params_pipe_name := "\\\\?\\pipe\\" ++ w.pipe_name_
  let w := { w with
    pipe_client_ := if h.pipe_client_create then some params_pipe_name else none }
  (w.pipe_client_.isSome, w)

/-- Method `Worker::init`, worker.cpp 143-199. -/
def Worker.init (h : Host) (w : Worker) : Bool × Worker :=
  if !h.session_observer_create then
    (false, { w with log := w.log ++ [(LogLevel.WARNING, "Create session observer failed")] })
  else
    let w := { w with session_observer_ := true }
    if !h.ioloop_create then
      (false, { w with log := w.log ++ [(LogLevel.WARNING, "Create IOLoop failed")] })
    else
      let w := { w with ioloop_ := true }
      let r := w.init_pipe_client h
      let w := r.2
      if !r.1 then
        (false, { w with log := w.log ++ [(LogLevel.WARNING, "Init pipe client failed")] })
      else
        let client_display_setting : DisplaySetting :=
          ⟨w.client_width_, w.client_height_, w.client_refresh_rate_⟩
        let w := { w with negotiated_display_setting_ := h.negotiate client_display_setting }
        let w :=
          if w.negotiated_display_setting_.width = 0 ∨ w.negotiated_display_setting_.height = 0 then
            { w with
              log := w.log ++ [(LogLevel.WARNING, "Negotiate display setting failed, fallback to default(width:1920, height:1080, refresh_rate:60)")]
              negotiated_display_setting_ :=
                { w.negotiated_display_setting_ with width := 1920, height := 1080 } }
          else
            { w with log := w.log ++ [(LogLevel.DEBUG, "Negotiate display setting")] }
        let r := w.negotiate_parameters h
        if !r.1 then (false, r.2)
        else
          let w := r.2
          let handlers : List (Nat × MessageHandler) :=
            [(h.kStartWorking, .on_start_working),
             (h.kStopWorking, .on_stop_working),
             (h.kKeepAlive, .on_keep_alive)]
          let w := register_handlers handlers w
          let w := { w with posted := w.posted ++ [(500, WorkerTask.check_timeout)] }
          (true, { w with thread_ := true })

/-! ## Keep-alive time-out (worker.cpp 339-348, 437-439)

Clock readings are the `int64_t` milliseconds of `ltlib::steady_now_ms()`; they
are taken as integers, the differences formed here being far from the ends of
the 64-bit range. -/

/-- Constant `kTimeout` of `Worker::check_timeout`. -/
def kTimeout : Int := 3000

/-- Method `Worker::check_timeout`, worker.cpp 339-348; `now` is the clock
reading it takes. -/
def Worker.check_timeout (now : Int) (w : Worker) : Worker :=
  if now - w.last_time_received_from_service_ > kTimeout then
    w.stop
  else
    { w with posted := w.posted ++ [(500, WorkerTask.check_timeout)] }

/-- Method `Worker::on_keep_alive`, worker.cpp 437-439. -/
def Worker.on_keep_alive (now : Int) (w : Worker) : Worker :=
  { w with last_time_received_from_service_ := now }

/-- One step of the worker's I/O thread as far as keep-alive is concerned: a
KeepAlive message is delivered, or a `check_timeout` task runs; each carries the
clock reading it takes. -/
inductive WorkerEvent where
  | keep_alive (now : Int)
  | check_timeout (now : Int)
  deriving DecidableEq, Repr, Inhabited

/-- The clock reading of an event. -/
def WorkerEvent.time : WorkerEvent → Int
  | .keep_alive now => now
  | .check_timeout now => now

/-- Run one event on the worker. -/
def Worker.handle (w : Worker) : WorkerEvent → Worker
  | .keep_alive now => w.on_keep_alive now
  | .check_timeout now => w.check_timeout now

/-- Run a sequence of events, first to last. -/
def Worker.run (w : Worker) (events : List WorkerEvent) : Worker :=
  events.foldl Worker.handle w

/-- The clock readings of the KeepAlive deliveries of a sequence, in order. -/
def keep_alive_times : List WorkerEvent → List Int
  | [] => []
  | .keep_alive now :: rest => now :: keep_alive_times rest
  | .check_timeout _ :: rest => keep_alive_times rest

/-- The reading of the latest KeepAlive of a sequence; the construction time
`t0` when the sequence has none. -/
def latest_keep_alive (t0 : Int) : List WorkerEvent → Int
  | [] => t0
  | .keep_alive now :: rest => latest_keep_alive now rest
  | .check_timeout _ :: rest => latest_keep_alive t0 rest

/-! ## Pipe messages and dispatch (worker.cpp 319-335, 350-435) -/

/-- The `std::map::find` of a key-ordered association list. -/
def map_find {β : Type} (k : Nat) : List (Nat × β) → Option β
  | [] => none
  | (k0, v0) :: rest => if k0 = k then some v0 else map_find k rest

/-- Function `ltproto::id(msg)`: the type id under which a message travels. -/
def ltproto_id (h : Host) : Message → Nat
  | .StreamingParams _ => h.kStreamingParams
  | .StartWorking => h.kStartWorking
  | .StartWorkingAck _ => h.kStartWorkingAck
  | .StopWorking => h.kStopWorking
  | .KeepAlive => h.kKeepAlive
  | .CaptureVideoFrame _ => h.kCaptureVideoFrame
  | .AudioData _ => h.kAudioData
  | .other n => h.other_id n

/-- Method `Worker::send_pipe_message`, worker.cpp 329-335. -/
def Worker.send_pipe_message (h : Host) (type : Nat) (msg : Message) (w : Worker) :
    Bool × Worker :=
  if !w.connected_to_service_ then (false, w)
  else (h.pipe_send type msg, { w with sent := w.sent ++ [(type, msg)] })

/-- Method `Worker::on_captured_video_frame`, worker.cpp 350-356, as it runs on
the I/O thread. -/
def Worker.on_captured_video_frame (h : Host) (frame : Message) (w : Worker) : Worker :=
  (w.send_pipe_message h h.kCaptureVideoFrame frame).2

/-- Method `Worker::on_captured_audio_data`, worker.cpp 358-364, as it runs on
the I/O thread. -/
def Worker.on_captured_audio_data (h : Host) (audio_data : Message) (w : Worker) : Worker :=
  (w.send_pipe_message h h.kAudioData audio_data).2

/-- Method `Worker::on_pipe_disconnected`, worker.cpp 370-373. -/
def Worker.on_pipe_disconnected (w : Worker) : Worker :=
  { w with
    log := w.log ++ [(LogLevel.WARNING, "Disconnected from service, won't reconnect again")]
    connected_to_service_ := false }

/-- Method `Worker::on_pipe_reconnecting`, worker.cpp 375-378. -/
def Worker.on_pipe_reconnecting (w : Worker) : Worker :=
  { w with
    log := w.log ++ [(LogLevel.INFO, "Reconnecting to service...")]
    connected_to_service_ := false }

/-- Method `Worker::on_pipe_connected`, worker.cpp 380-391. The negotiated
parameters are read through the pointer `negotiated_params_`; with no
parameters stored there is nothing to send. -/
def Worker.on_pipe_connected (h : Host) (w : Worker) : Worker :=
  let w :=
    if w.connected_to_service_ then
      { w with log := w.log ++ [(LogLevel.FATAL, "Logic error, connected to service twice")] }
    else
      { w with log := w.log ++ [(LogLevel.INFO, "Connected to service")] }
  let w := { w with connected_to_service_ := true }
  match w.negotiated_params_ with
  | none => w
  | some params =>
    (w.send_pipe_message h (ltproto_id h (.StreamingParams params)) (.StreamingParams params)).2

/-- The calls `InputExecutor::create` makes on the callback
`register_message_handler` it was given. -/
def register_input_handlers : List (Nat × MessageHandler) → Worker → Worker
  | [], w => w
  | handler :: rest, w =>
    register_input_handlers rest (w.register_message_handler handler.1 handler.2).2

/-- Method `Worker::on_start_working`, worker.cpp 393-428, up to the point
where the acknowledgement is complete: the acknowledgement built and the worker
at that point. -/
def Worker.on_start_working_ack (h : Host) (w : Worker) : StartWorkingAck × Worker :=
  let ack : StartWorkingAck := {}
  let w := { w with
    capturer_calls := w.capturer_calls ++ [CapturerCall.video_start, CapturerCall.audio_start] }
  let w := register_input_handlers h.input_registrations w
  let w := { w with input_ := h.input_executor_create }
  let ack :=
    if !w.input_ then { ack with err_code := ErrCode.InputFailed }
    else { ack with err_code := ErrCode.Success }
  let ack := { ack with msg_type := ack.msg_type ++ w.msg_handlers_.map Prod.fst }
  let w :=
    if ack.err_code ≠ ErrCode.Success then
      let w :=
        if w.video_capturer_.isSome then
          { w with capturer_calls := w.capturer_calls ++ [CapturerCall.video_stop] }
        else w
      let w :=
        if w.audio_capturer_.isSome then
          { w with capturer_calls := w.capturer_calls ++ [CapturerCall.audio_stop] }
        else w
      { w with input_ := false }
    else w
  (ack, w)

/-- Method `Worker::on_start_working`, worker.cpp 393-430. -/
def Worker.on_start_working (h : Host) (w : Worker) : Worker :=
  let r := w.on_start_working_ack h
  (r.2.send_pipe_message h (ltproto_id h (.StartWorkingAck r.1)) (.StartWorkingAck r.1)).2

/-- Method `Worker::on_stop_working`, worker.cpp 432-435. -/
def Worker.on_stop_working (w : Worker) : Worker :=
  { w with log := w.log ++ [(LogLevel.INFO, "Received StopWorking")] }.stop

/-- The call `iter->second(msg)` of `dispatch_service_message`: the invocation is
recorded and the handler's body runs; the body of a handler registered from
outside is not part of the worker. `now` is the clock reading `on_keep_alive`
would take. -/
def Worker.invoke_handler (h : Host) (now : Int) (handler : MessageHandler) (msg : Message)
    (w : Worker) : Worker :=
  let w := { w with handler_calls := w.handler_calls ++ [(handler, msg)] }
  match handler with
  | .on_start_working => w.on_start_working h
  | .on_stop_working => w.on_stop_working
  | .on_keep_alive => w.on_keep_alive now
  | .external _ => w
  | .null => w

/-- Method `Worker::dispatch_service_message`, worker.cpp 319-327. -/
def Worker.dispatch_service_message (h : Host) (now : Int) (type : Nat) (msg : Message)
    (w : Worker) : Worker :=
  match map_find type w.msg_handlers_ with
  | none => { w with log := w.log ++ [(LogLevel.WARNING, "Unknown message type")] }
  | some handler =>
    if handler = MessageHandler.null then
      { w with log := w.log ++ [(LogLevel.WARNING, "Unknown message type")] }
    else w.invoke_handler h now handler msg

/-- Method `Worker::on_pipe_message`, worker.cpp 366-368. -/
def Worker.on_pipe_message (h : Host) (now : Int) (type : Nat) (msg : Message) (w : Worker) :
    Worker :=
  w.dispatch_service_message h now type msg

/-- What the I/O thread of the worker runs, one at a time: the pipe client's
callbacks, the capturers' callbacks, the time-out check, and a call of
`send_pipe_message` by the input executor, which holds it as `send_message`. -/
inductive PipeEvent where
  | connected
  | disconnected
  | reconnecting
  | message (type : Nat) (msg : Message) (now : Int)
  | captured_video_frame (frame : Message)
  | captured_audio_data (audio_data : Message)
  | check_timeout (now : Int)
  | send_message (type : Nat) (msg : Message)
  deriving DecidableEq, Repr, Inhabited

/-- Run one event of the I/O thread. -/
def Worker.on_event (h : Host) (w : Worker) : PipeEvent → Worker
  | .connected => w.on_pipe_connected h
  | .disconnected => w.on_pipe_disconnected
  | .reconnecting => w.on_pipe_reconnecting
  | .message type msg now => w.on_pipe_message h now type msg
  | .captured_video_frame frame => w.on_captured_video_frame h frame
  | .captured_audio_data audio_data => w.on_captured_audio_data h audio_data
  | .check_timeout now => w.check_timeout now
  | .send_message type msg => (w.send_pipe_message h type msg).2

/-- Run a sequence of events of the I/O thread, first to last. -/
def Worker.on_events (h : Host) (w : Worker) (events : List PipeEvent) : Worker :=
  events.foldl (Worker.on_event h) w

/-! ## The shared texture pool (dxgi_video_capturer.cpp) -/

/-- Modelled from the spec: the constant `kDefaultPoolSize` is declared in the
header `dxgi_video_capturer.h`, which is not among the sources; the pool is
`A fixed-capacity array (default 8) of shareable textures`. -/
def kDefaultPoolSize : Nat := 8

/-- A slot of `texture_pool_`: `name`, the texture and the shared handle (each
absent or an opaque id), and the atomic flag `in_use`. -/
structure SharedTexture where
  name : String := ""
  texture : Option Nat := none
  handle : Option Nat := none
  in_use : Bool := false
  deriving DecidableEq, Repr, Inhabited

/-- Result codes of `DUPLICATIONMANAGER::GetFrame`. -/
inductive DUPL_RETURN where
  | DUPL_RETURN_SUCCESS
  | DUPL_RETURN_ERROR_EXPECTED
  | DUPL_RETURN_ERROR_UNEXPECTED
  deriving DecidableEq, Repr, Inhabited

/-- The outcomes of the GPU calls made during one `captureOneFrame`: the poll,
the three calls that create slot `i` of the pool, the keyed-mutex cast and
`AcquireSync`, and the clock reading stamped on the frame. -/
structure Gpu where
  GetFrame : DUPL_RETURN
  timeout : Bool
  CreateTexture2D : Nat → Option Nat
  As_IDXGIResource1 : Nat → Bool
  CreateSharedHandle : Nat → Option Nat
  As_IDXGIKeyedMutex : Bool
  AcquireSync : Bool
  steady_now_us : Int

/-- The members of `DxgiVideoCapturer` that the pool code and `initD3D11`
touch. `fatal` records that a `LOG(FATAL)` line was reached; `d3d11_dev_` holds
the index of the adapter the device was created on, or nothing. -/
structure DxgiVideoCapturer where
  texture_pool_ : List SharedTexture := List.replicate kDefaultPoolSize {}
  pool_inited_ : Bool := false
  luid_ : Int := 0
  fatal : Bool := false
  log : List (LogLevel × String) := []
  d3d11_dev_ : Option Nat := none
  deriving DecidableEq, Repr, Inhabited

/-- The loop of `DxgiVideoCapturer::getFreeSharedTexture`, lines 225-230, from
slot `index` on, over the slots not yet visited: the compare-exchange succeeds
on the first slot whose flag is `false`, sets it and returns the index. -/
def getFreeSharedTexture_loop (index : Nat) :
    List SharedTexture → Option Nat × List SharedTexture
  | [] => (none, [])
  | texture :: rest =>
    if texture.in_use = false then
      (some index, { texture with in_use := true } :: rest)
    else
      ((getFreeSharedTexture_loop (index + 1) rest).1,
       texture :: (getFreeSharedTexture_loop (index + 1) rest).2)

/-- Method `DxgiVideoCapturer::getFreeSharedTexture`, lines 224-232, on the
pool: the index returned, if any, and the pool afterwards. -/
def getFreeSharedTexture (texture_pool_ : List SharedTexture) :
    Option Nat × List SharedTexture :=
  getFreeSharedTexture_loop 0 texture_pool_

/-- The loop of `DxgiVideoCapturer::releaseFrame`, lines 155-160: `true` when a
slot of that name was found (the `return` inside the loop). -/
def releaseFrame_loop (name : String) : List SharedTexture → Bool × List SharedTexture
  | [] => (false, [])
  | texture :: rest =>
    if texture.name = name then
      (true, { texture with in_use := false } :: rest)
    else
      ((releaseFrame_loop name rest).1, texture :: (releaseFrame_loop name rest).2)

/-- Method `DxgiVideoCapturer::releaseFrame`, lines 154-162. -/
def DxgiVideoCapturer.releaseFrame (name : String) (c : DxgiVideoCapturer) :
    DxgiVideoCapturer :=
  let r := releaseFrame_loop name c.texture_pool_
  if r.1 then { c with texture_pool_ := r.2 }
  else
    { c with
      texture_pool_ := r.2
      fatal := true
      log := c.log ++ [(LogLevel.FATAL, "Should not reach here")] }

/-- The pool-creating loop of `shareTexture`, lines 172-197, with `n` rounds
left and `i` the slot being created: `false` when a GPU call failed (the
function then returns the empty name). -/
def create_pool_loop (gpu : Gpu) : Nat → Nat → DxgiVideoCapturer → Bool × DxgiVideoCapturer
  | 0, _, c => (true, c)
  | n + 1, i, c =>
    match gpu.CreateTexture2D i with
    | none =>
      (false, { c with log := c.log ++ [(LogLevel.WARNING, "failed to create shared texture")] })
    | some texture2 =>
      if !gpu.As_IDXGIResource1 i then
        (false, { c with log := c.log ++ [(LogLevel.WARNING, "Cast to IDXGIResource1 failed")] })
      else
        let name := "Global\\lanthing_dxgi_sharedTexture_" ++ toString i
        match gpu.CreateSharedHandle i with
        | none =>
          (false, { c with log := c.log ++ [(LogLevel.WARNING, "failed to create shared handle")] })
        | some handle =>
          let c := { c with
            texture_pool_ := c.texture_pool_.modify
              (fun t => { t with name := name, texture := some texture2, handle := some handle }) i }
          create_pool_loop gpu n (i + 1) c

/-- Method `DxgiVideoCapturer::shareTexture`, lines 164-222: the name returned
and the capturer afterwards. -/
def DxgiVideoCapturer.shareTexture (gpu : Gpu) (c : DxgiVideoCapturer) :
    String × DxgiVideoCapturer :=
  let r :=
    if !c.pool_inited_ then
      create_pool_loop gpu kDefaultPoolSize 0 { c with pool_inited_ := true }
    else (true, c)
  if !r.1 then ("", r.2)
  else
    let c := r.2
    let f := getFreeSharedTexture c.texture_pool_
    let c := { c with texture_pool_ := f.2 }
    match f.1 with
    | none => ("", { c with log := c.log ++ [(LogLevel.WARNING, "No free shared texture")] })
    | some index =>
      if !gpu.As_IDXGIKeyedMutex then
        ("", { c with log := c.log ++ [(LogLevel.WARNING, "Cast to IDXGIKeyedMutex failed")] })
      else if !gpu.AcquireSync then
        ("", { c with log := c.log ++ [(LogLevel.WARNING, "drop frame")] })
      else
        ((c.texture_pool_.getD index {}).name, c)

/-- Method `DxgiVideoCapturer::captureOneFrame`, lines 131-152: the frame
returned (`none` for `nullptr`) and the capturer afterwards. -/
def DxgiVideoCapturer.captureOneFrame (gpu : Gpu) (c : DxgiVideoCapturer) :
    Option CaptureVideoFrame × DxgiVideoCapturer :=
  if gpu.GetFrame = DUPL_RETURN.DUPL_RETURN_SUCCESS ∧ !gpu.timeout then
    let r := c.shareTexture gpu
    if r.1.isEmpty then (none, r.2)
    else
      (some { name := r.1, capture_timestamp_us := gpu.steady_now_us }, r.2)
  else (none, c)

/-- The indices of the slots marked `in_use`. -/
def in_use_slots (texture_pool_ : List SharedTexture) : List Nat :=
  (List.range texture_pool_.length).filter fun i => (texture_pool_.getD i {}).in_use

/-! ## Adapter selection (dxgi_video_capturer.cpp 83-129) -/

/-- Struct `LUID`: a signed 32-bit high part and an unsigned 32-bit low part. -/
structure LUID where
  HighPart : Int
  LowPart : Nat
  deriving DecidableEq, Repr, Inhabited

/-- The fields of `DXGI_ADAPTER_DESC` that `initD3D11` reads. -/
structure DXGI_ADAPTER_DESC where
  VendorId : Nat
  DeviceId : Nat
  AdapterLuid : LUID
  deriving DecidableEq, Repr, Inhabited

/-- An adapter returned by `EnumAdapters`: what its `GetDesc` answers (nothing
on failure) and whether `D3D11CreateDevice` succeeds on it. -/
structure Adapter where
  GetDesc : Option DXGI_ADAPTER_DESC
  D3D11CreateDevice : Bool
  deriving DecidableEq, Repr, Inhabited

/-- The results of `IDXGIFactory1::EnumAdapters` that `initD3D11` tells apart. -/
inductive EnumAdaptersResult where
  | S_OK (adapter : Adapter)
  | DXGI_ERROR_NOT_FOUND
  | DXGI_ERROR_INVALID_CALL
  deriving DecidableEq, Repr, Inhabited

/-- What DXGI answers to `initD3D11`: whether the factory is created, and the
result of `EnumAdapters` at each index. -/
structure Dxgi where
  CreateDXGIFactory1 : Bool
  EnumAdapters : Nat → EnumAdaptersResult

/-- The value stored in `luid_`, line 122-123:
`((uint64_t)HighPart << 32) + LowPart` in 64-bit unsigned arithmetic, read as
the `int64_t` that `luid()` returns. -/
def adapter_luid (desc : DXGI_ADAPTER_DESC) : Int :=
  let u : Int :=
    ((desc.AdapterLuid.HighPart % 2 ^ 64) * 2 ^ 32 + (desc.AdapterLuid.LowPart : Int)) % 2 ^ 64
  if u < 2 ^ 63 then u else u - 2 ^ 64

/-- The `while (true)` loop of `initD3D11`, lines 91-127, about to examine
adapter `index`, with `fuel` rounds allowed; `none` when the rounds allowed run
out before the loop ends. -/
def initD3D11_loop (d : Dxgi) : Nat → Nat → DxgiVideoCapturer →
    Option (Bool × DxgiVideoCapturer)
  | 0, _, _ => none
  | fuel + 1, index, c =>
    match d.EnumAdapters index with
    | .DXGI_ERROR_NOT_FOUND =>
      some (false, { c with log := c.log ++ [(LogLevel.WARNING, "Failed to find adapter")] })
    | .DXGI_ERROR_INVALID_CALL =>
      some (false, { c with
        fatal := true
        log := c.log ++ [(LogLevel.FATAL, "DXGI Factory == nullptr")] })
    | .S_OK adapter =>
      match adapter.GetDesc with
      | none =>
        initD3D11_loop d fuel (index + 1)
          { c with log := c.log ++ [(LogLevel.WARNING, "Adapter GetDesc failed")] }
      | some adapter_desc =>
        if !adapter.D3D11CreateDevice then
          initD3D11_loop d fuel (index + 1)
            { c with log := c.log ++
                [(LogLevel.WARNING, "Adapter failed to create d3d11 device")] }
        else
          some (true, { c with
            d3d11_dev_ := some index
            luid_ := adapter_luid adapter_desc
            log := c.log ++ [(LogLevel.INFO, "DxgiVideoCapturer using adapter")] })

/-- Method `DxgiVideoCapturer::initD3D11`, lines 83-129, with `fuel` rounds of
its loop allowed. -/
def DxgiVideoCapturer.initD3D11 (d : Dxgi) (fuel : Nat) (c : DxgiVideoCapturer) :
    Option (Bool × DxgiVideoCapturer) :=
  if !d.CreateDXGIFactory1 then
    some (false, { c with log := c.log ++ [(LogLevel.WARNING, "Failed to create dxgi factory")] })
  else initD3D11_loop d fuel 0 c

/-- An adapter that `initD3D11` can use: its description is read and the
device is created on it. -/
def usable_adapter : EnumAdaptersResult → Bool
  | .S_OK adapter => adapter.GetDesc.isSome && adapter.D3D11CreateDevice
  | _ => false

/-! ## The capture loop (video_capturer.cpp) -/

/-- The members of the base class `VideoCapturer` that `main_loop` and `stop`
touch. `stop_promise_set` tells that `stop_promise_->set_value()` was called,
`stop_promise_waits` counts the calls `stop_promise_->get_future().get()`,
`alive_calls` the calls of `i_am_alive`, `vblank_waits` those of
`wait_for_vblank`. -/
structure VideoCapturer where
  stoped_ : Bool
  frame_no_ : Nat := 0
  stop_promise_set : Bool := false
  stop_promise_waits : Nat := 0
  alive_calls : Nat := 0
  vblank_waits : Nat := 0
  deriving DecidableEq, Repr, Inhabited

/-- What one round of the capture loop meets: the result of the virtual
`capture_one_frame()` and whether another thread sets `stoped_` (by calling
`stop()`) before the loop tests the flag again. -/
structure Tick where
  frame : Option CaptureVideoFrame
  stop_requested : Bool
  deriving DecidableEq, Repr, Inhabited

/-- The `while (!stoped_)` loop of `VideoCapturer::main_loop`, lines 53-63, run
over the rounds supplied; returns the capturer and the frames passed to
`on_frame_`, in order. The counter `frame_no_` lives in an unsigned type of
`range` values. When the rounds run out while the flag is still clear the loop
is still running and the promise is not yet set. -/
def main_loop_rounds (range : Nat) :
    List Tick → VideoCapturer → VideoCapturer × List CaptureVideoFrame
  | [], v =>
    if v.stoped_ then ({ v with stop_promise_set := true }, []) else (v, [])
  | tick :: rest, v =>
    if v.stoped_ then ({ v with stop_promise_set := true }, [])
    else
      let v := { v with alive_calls := v.alive_calls + 1 }
      match tick.frame with
      | some frame =>
        let sent := { frame with picture_id := v.frame_no_ }
        let v := { v with frame_no_ := (v.frame_no_ + 1) % range }
        let v := { v with vblank_waits := v.vblank_waits + 1 }
        let v := if tick.stop_requested then { v with stoped_ := true } else v
        ((main_loop_rounds range rest v).1, sent :: (main_loop_rounds range rest v).2)
      | none =>
        let v := { v with vblank_waits := v.vblank_waits + 1 }
        let v := if tick.stop_requested then { v with stoped_ := true } else v
        main_loop_rounds range rest v

/-- Method `VideoCapturer::main_loop`, lines 49-64. -/
def VideoCapturer.main_loop (range : Nat) (ticks : List Tick) (v : VideoCapturer) :
    VideoCapturer × List CaptureVideoFrame :=
  main_loop_rounds range ticks { v with stoped_ := false }

/-- Method `VideoCapturer::stop`, lines 66-73. -/
def VideoCapturer.stop (v : VideoCapturer) : VideoCapturer :=
  if !v.stoped_ then
    { v with stoped_ := true, stop_promise_waits := v.stop_promise_waits + 1 }
  else v

/-! ## The capture loop of the DXGI capturer -/

/-- What one round of the DXGI capturer's loop meets: the answers of the GPU
calls of that round's `captureOneFrame` and whether another thread calls
`stop()` before the loop tests the flag again. -/
structure DxgiTick where
  gpu : Gpu
  stop_requested : Bool

/-- The rounds of `main_loop` as the DXGI capturer runs them: each round run
polls once through `captureOneFrame` and hands its result to the loop; `stoped`
is the flag as the loop's test sees it, and once it is set no round is run. -/
def dxgi_capture_rounds :
    List DxgiTick → Bool → DxgiVideoCapturer → List Tick × DxgiVideoCapturer
  | [], _, c => ([], c)
  | tick :: rest, stoped, c =>
    if stoped then ([], c)
    else
      let r := c.captureOneFrame tick.gpu
      (⟨r.1, tick.stop_requested⟩ ::
          (dxgi_capture_rounds rest tick.stop_requested r.2).1,
        (dxgi_capture_rounds rest tick.stop_requested r.2).2)

/-- The outcome of a run of the capture loop: the base-class members, the
frames passed to `on_frame_`, the DXGI capturer, and the number of polls
(`GetFrame` calls) made. -/
structure CaptureRun where
  capturer : VideoCapturer
  frames : List CaptureVideoFrame
  dxgi : DxgiVideoCapturer
  polls : Nat
  deriving DecidableEq, Repr

/-- Method `VideoCapturer::main_loop` on a `DxgiVideoCapturer`, whose
`capture_one_frame` is `captureOneFrame`. -/
def DxgiVideoCapturer.main_loop (range : Nat) (ticks : List DxgiTick) (v : VideoCapturer)
    (c : DxgiVideoCapturer) : CaptureRun :=
  let r := dxgi_capture_rounds ticks false c
  { capturer := (v.main_loop range r.1).1
    frames := (v.main_loop range r.1).2
    dxgi := r.2
    polls := r.1.length }

/-! ## The renderer's cursor (video_renderer.cpp 104-121) -/

/-- Modelled from the spec: the struct `lt::CursorInfo` is declared in a header
that is not among the sources; its fields are those of
`CursorInfo - {screen_w, screen_h, x, y, visible, data (optional pixmap), hotspot}`,
and `other` stands for whatever further members it has. A value-initialised
`CursorInfo{}` holds zeros and no pixels. -/
structure CursorInfo where
  screen_w : Nat := 0
  screen_h : Nat := 0
  x : Int := 0
  y : Int := 0
  visible : Bool := false
  data : List Nat := []
  hotspot : Nat × Nat := (0, 0)
  other : Nat := 0
  deriving DecidableEq, Repr, Inhabited

/-- The members of `lt::video::Renderer` that `updateCursor` and
`switchMouseMode` touch. -/
structure Renderer where
  absolute_mouse_ : Bool
  cursor_info_ : Option CursorInfo := none
  deriving DecidableEq, Repr, Inhabited

/-- Method `Renderer::updateCursor`, video_renderer.cpp 104-121. -/
def Renderer.updateCursor (cursor_info : Option CursorInfo) (r : Renderer) : Renderer :=
  match cursor_info with
  | none => r
  | some info =>
    if info.data.isEmpty then
      let stored : CursorInfo :=
        match r.cursor_info_ with
        | none => {}
        | some c => c
      { r with cursor_info_ := some { stored with
          screen_h := info.screen_h
          screen_w := info.screen_w
          x := info.x
          y := info.y
          visible := info.visible } }
    else
      { r with cursor_info_ := some info }

/-! ## Command-line options (main.cpp, worker.cpp 68-120) -/

/-- A `std::map<std::string, std::string>` of options, as the list of its
entries; the embedded code only looks keys up and inserts, it never walks the
map. -/
abbrev Options := List (String × String)

/-- The `std::map::insert` of an options map: an entry whose key is present is
not replaced. -/
def options_insert (key value : String) (options : Options) : Options :=
  match options.lookup key with
  | some _ => options
  | none => options ++ [(key, value)]

/-- Function `isspace` of the C locale. -/
def isspace (c : Char) : Bool :=
  c = ' ' || (9 ≤ c.toNat && c.toNat ≤ 13)

/-- The digit loop of `atoi`: the value of the leading decimal digits. -/
def atoi_digits (acc : Nat) : List Char → Nat
  | [] => acc
  | c :: rest =>
    if c.isDigit then atoi_digits (acc * 10 + (c.toNat - 48)) rest else acc

/-- The number that `std::atoi` reads in a string: leading white space is
skipped, an optional sign is read, then the decimal digits that follow; 0 when
there are none. -/
def atoi_value (s : String) : Int :=
  match s.toList.dropWhile isspace with
  | '-' :: rest => - (atoi_digits 0 rest : Int)
  | '+' :: rest => (atoi_digits 0 rest : Int)
  | rest => (atoi_digits 0 rest : Int)

/-- The largest value of the 32-bit `int`. -/
def INT_MAX : Int := 2147483647

/-- The least value of the 32-bit `int`. -/
def INT_MIN : Int := -2147483648

/-- The largest value of the 64-bit `long`. -/
def LONG_MAX : Int := 9223372036854775807

/-- The least value of the 64-bit `long`. -/
def LONG_MIN : Int := -9223372036854775808

/-- Function `std::atoi`, whose result the callers store in an `int32_t`
(worker.cpp 76-78) and an `int` (main.cpp 103): the number read, as an `int`.
It is that number whenever it lies in [`INT_MIN`, `INT_MAX`]. Outside that range
C leaves the result undefined; the value taken here is the one of
`(int)strtol(s, nullptr, 10)`, the way glibc computes `atoi`: the number
saturated to the 64-bit `long`, of which the low 32 bits are kept. (The
Microsoft C library saturates to `INT_MIN` and `INT_MAX` instead.) -/
def atoi (s : String) : Int :=
  let l := max LONG_MIN (min LONG_MAX (atoi_value s))
  let u := l % 4294967296
  if u < 2147483648 then u else u - 4294967296

/-- The tokens that `while (std::getline(ss, codec, ','))` reads from a stream
holding the given characters; `cur` holds, last first, the characters of the
token being read. A read that finds the stream at its end yields no token. -/
def getline_tokens (cur : List Char) : List Char → List String
  | [] => if cur.isEmpty then [] else [String.mk cur.reverse]
  | c :: rest =>
    if c = ',' then String.mk cur.reverse :: getline_tokens [] rest
    else getline_tokens (c :: cur) rest

/-- The loop of `Worker::create`, worker.cpp 102-109, over the tokens read. -/
def create_codecs_loop : List String → List VideoCodecType → List VideoCodecType
  | [], codecs => codecs
  | codec :: rest, codecs =>
    if codec = "avc" then create_codecs_loop rest (codecs ++ [VideoCodecType.H264])
    else if codec = "hevc" then create_codecs_loop rest (codecs ++ [VideoCodecType.H265])
    else create_codecs_loop rest codecs

/-- The part of `Worker::create` that reads the options, worker.cpp 69-113:
the `Params` the worker is constructed with, or nothing where the function
returns `nullptr`. -/
def Worker.create_params (options : Options) : Option Params :=
  if options.lookup "-width" = none ∨ options.lookup "-height" = none ∨
      options.lookup "-freq" = none ∨ options.lookup "-codecs" = none ∨
      options.lookup "-name" = none then
    none
  else
    let width := atoi ((options.lookup "-width").getD "")
    let height := atoi ((options.lookup "-height").getD "")
    let freq := atoi ((options.lookup "-freq").getD "")
    let ss := ((options.lookup "-codecs").getD "").toList
    let name := (options.lookup "-name").getD ""
    if name.isEmpty then none
    else if width ≤ 0 then none
    else if height ≤ 0 then none
    else if freq ≤ 0 then none
    else
      let codecs := create_codecs_loop (getline_tokens [] ss) []
      if codecs.isEmpty then none
      else some ⟨name, width.toNat, height.toNat, freq.toNat, codecs⟩

/-- Function `Worker::create`, worker.cpp 68-120; `now` is the clock reading the
constructor takes. -/
def Worker.create (h : Host) (now : Int) (options : Options) : Option Worker :=
  match Worker.create_params options with
  | none => none
  | some params =>
    let r := (Worker.new params now).init h
    if !r.1 then none else some r.2

/-- Function `setFlushLogLines`, main.cpp 97-113: the value it leaves in the
global `gFlushLogLines`. -/
def setFlushLogLines (options : Options) : Option Int :=
  match options.lookup "-flushlog" with
  | none => some 30
  | some value =>
    let lines := atoi value
    if lines ≤ 0 then some 30
    else if lines > 100 then some 100
    else some lines

/-- Function `getLtFlushLogLines`, main.cpp 335-337, on the value of the global
`gFlushLogLines`. -/
def getLtFlushLogLines (gFlushLogLines : Option Int) : Int :=
  gFlushLogLines.getD 30

/-- The test `'-' != args[i][0]` of `parseOptions`, negated: the first character
of the argument is a dash (the empty string has none). -/
def starts_with_dash (arg : String) : Bool :=
  arg.toList.head? = some '-'

/-- The second loop of `parseOptions`, main.cpp 236-247, from position `i` on,
over the arguments not yet visited: a lone last argument ends the loop (by
`continue` or, for a flag, by `break`); a flag followed by a value is inserted
and both are passed over; a flag followed by a flag is passed over alone. -/
def parseOptions_loop : List String → Options → Options
  | [], options => options
  | [arg], options =>
    if !starts_with_dash arg then parseOptions_loop [] options
    else options
  | arg :: next :: rest, options =>
    if !starts_with_dash arg then parseOptions_loop (next :: rest) options
    else if !starts_with_dash next then
      parseOptions_loop rest (options_insert arg next options)
    else parseOptions_loop (next :: rest) options

/-- Function `parseOptions`, main.cpp 230-249, on the argument vector. -/
def parseOptions (argv : List String) : Options :=
  parseOptions_loop argv []

/-! ## The log sink (main.cpp 148-228) -/

/-- Enum `Role` of main.cpp. -/
inductive Role where
  | App
  | Service
  | Client
  | Worker
  deriving DecidableEq, Repr, Inhabited

/-- The arguments `initLogAndMinidump` constructs `ltlib::LogSink` with: the
file name stem, the directory (as its path components) and
`flush_every_x_lines`. -/
structure LogSink where
  stem : String
  log_dir : List String
  flush_every_x_lines : Int
  deriving DecidableEq, Repr, Inhabited

/-- Function `initLogAndMinidump`, main.cpp 148-194, as far as the log sink:
the sink added to the log worker. `appdata_dir` and `bin_dir` are what
`ltlib::getConfigPath` and `ltlib::getProgramPath` return; `gFlushLogLines` is
the global that `getLtFlushLogLines()` would read. -/
def initLogAndMinidump (role : Role) (appdata_dir bin_dir : String)
    (_gFlushLogLines : Option Int) : LogSink :=
  let stem :=
    match role with
    | .App => "app"
    | .Client => "client"
    | .Service => "service"
    | .Worker => "worker"
  let log_dir :=
    if !appdata_dir.isEmpty then [appdata_dir, "log", stem]
    else [bin_dir, "log"]
  { stem := stem, log_dir := log_dir, flush_every_x_lines := 1 }

/-! ## Process roles and exit codes (main.cpp 251-365) -/

/-- The build configuration `main.cpp` is compiled under. -/
structure Platform where
  LT_WINDOWS : Bool
  LT_LINUX : Bool
  LT_RUN_AS_SERVICE : Bool
  deriving DecidableEq, Repr, Inhabited

/-- What the process meets when it starts its role: the answers of the
elevation and single-instance checks, whether each role object is created or
initialised, and the value its run returns. The `Worker::create` called by
`main.cpp` returns the worker together with an exit code. -/
structure Launch where
  selfElevateAndNeedExit : Bool
  makeSingletonProcess : String → Bool
  App_create : Bool
  app_exec : Int
  Client_create : Bool
  client_loop : Int
  Service_init : Bool
  Worker_create : Bool × Int
  worker_wait : Int

/-- Function `runAsClient`, main.cpp 251-261. -/
def runAsClient (l : Launch) : Option Int :=
  if l.Client_create then some l.client_loop else some 1

/-- Function `runAsService`, main.cpp 263-292; `none` where the function never
returns (the endless sleep loop after a successful `svc.init()`). -/
def runAsService (pf : Platform) (l : Launch) : Option Int :=
  if pf.LT_WINDOWS then
    if !l.makeSingletonProcess "lanthing" then some (-1)
    else if pf.LT_RUN_AS_SERVICE then some 0
    else if !l.Service_init then some 1
    else none
  else some 1

/-- Function `runAsWorker`, main.cpp 294-313. -/
def runAsWorker (pf : Platform) (l : Launch) : Option Int :=
  if pf.LT_WINDOWS || pf.LT_LINUX then
    if l.Worker_create.1 then some l.worker_wait
    else some l.Worker_create.2
  else some (-1)

/-- Function `runAsApp`, main.cpp 315-331. -/
def runAsApp (l : Launch) : Option Int :=
  if l.selfElevateAndNeedExit then some 0
  else if !l.makeSingletonProcess "lanthing_app" then some 0
  else if !l.App_create then some (-1)
  else some l.app_exec

/-- Function `main`, main.cpp 339-365: the value left in `gFlushLogLines` and
the exit code (`none` where the role never returns). -/
def main (pf : Platform) (l : Launch) (argv : List String) : Option Int × Option Int :=
  let options := parseOptions argv
  let gFlushLogLines := setFlushLogLines options
  match options.lookup "-type" with
  | none => (gFlushLogLines, runAsApp l)
  | some type =>
    if type = "app" then (gFlushLogLines, runAsApp l)
    else if type = "service" then (gFlushLogLines, runAsService pf l)
    else if type = "client" then (gFlushLogLines, runAsClient l)
    else if type = "worker" then (gFlushLogLines, runAsWorker pf l)
    else (gFlushLogLines, some (-1))

/-! ## Reference definitions and sample inputs -/

/-- The codec the client's preference order would select: the earliest codec of
the client's list that some host ability has. This follows the wording
`picks the first host ability matching a client codec in the client's
preference order`; it is not what the code computes. -/
def client_preferred_codec (client : List VideoCodecType) (abilities : List Ability) :
    Option VideoCodecType :=
  client.find? fun c => abilities.any fun a => decide (a.codec_type = c)

/-- A host on which every factory succeeds and whose encoder probe returns
`abilities`. -/
def sample_host (abilities : List Ability) : Host :=
  { session_observer_create := true
    ioloop_create := true
    pipe_client_create := true
    negotiate := fun d => d
    audio_capturer_create := some ⟨2, 48000⟩
    video_capturer_create := some ⟨1⟩
    check_encode_abilities_with_luid := fun _ _ _ => abilities
    check_encode_abilities := fun _ _ => abilities
    kStartWorking := 1
    kStopWorking := 2
    kKeepAlive := 3
    kStreamingParams := 4
    kStartWorkingAck := 5
    kCaptureVideoFrame := 6
    kAudioData := 7
    other_id := fun n => 100 + n
    input_executor_create := true
    input_registrations := [(20, .external 0), (10, .external 1)]
    pipe_send := fun _ _ => true }

/-- A worker for a 1920x1080@60 client with the given codec list, built at
clock reading 0. -/
def sample_worker (codecs : List VideoCodecType) : Worker :=
  Worker.new ⟨"worker", 1920, 1080, 60, codecs⟩ 0

/-- A run of the worker's I/O thread: KeepAlives at 400, 800 and 1200 ms,
time-out checks at 500, 1000, 1500, 2000 and 4200 ms. -/
def sample_events : List WorkerEvent :=
  [.keep_alive 400, .check_timeout 500, .keep_alive 800, .check_timeout 1000,
    .keep_alive 1200, .check_timeout 1500, .check_timeout 2000, .check_timeout 4200]

/-- The codec a token of `-codecs` stands for: `avc` for H264, `hevc` for H265,
none for any other token. -/
def codec_of_token (token : String) : Option VideoCodecType :=
  if token = "avc" then some VideoCodecType.H264
  else if token = "hevc" then some VideoCodecType.H265
  else none

/-- The sample host with a display negotiator that finds no mode and answers
0x0@0. -/
def sample_host_no_display (abilities : List Ability) : Host :=
  { sample_host abilities with negotiate := fun _ => ⟨0, 0, 0⟩ }

/-- A start in which no role object can be created or initialised; the
`Worker::create` of `main.cpp` reports exit code 7. -/
def sample_launch : Launch :=
  { selfElevateAndNeedExit := false
    makeSingletonProcess := fun _ => true
    App_create := false
    app_exec := 0
    Client_create := false
    client_loop := 0
    Service_init := false
    Worker_create := (false, 7)
    worker_wait := 0 }

/-- A complete set of worker options. -/
def sample_options : Options :=
  [("-type", "worker"), ("-name", "lanthing"), ("-width", "1920"), ("-height", "1080"),
    ("-freq", "60"), ("-codecs", "hevc,vp9,avc")]

/-- GPU answers of a round whose poll ends with an unexpected error. -/
def sample_gpu_error : Gpu :=
  { GetFrame := DUPL_RETURN.DUPL_RETURN_ERROR_UNEXPECTED
    timeout := false
    CreateTexture2D := fun i => some i
    As_IDXGIResource1 := fun _ => true
    CreateSharedHandle := fun i => some (100 + i)
    As_IDXGIKeyedMutex := true
    AcquireSync := true
    steady_now_us := 7 }

/-- A machine with three adapters: the first gives no description, no device
can be created on the second, the third is usable and has the LUID of high
part 3 and low part 4660. -/
def sample_dxgi : Dxgi :=
  { CreateDXGIFactory1 := true
    EnumAdapters := fun index =>
      match index with
      | 0 => .S_OK ⟨none, true⟩
      | 1 => .S_OK ⟨some ⟨1, 1, ⟨0, 1⟩⟩, false⟩
      | 2 => .S_OK ⟨some ⟨2, 2, ⟨3, 4660⟩⟩, true⟩
      | _ => .DXGI_ERROR_NOT_FOUND }

/-- The connection state after a sequence of events: the last connect,
disconnect or reconnecting event decides, `connected` before any. -/
def connection_state (connected : Bool) : List PipeEvent → Bool
  | [] => connected
  | .connected :: rest => connection_state true rest
  | .disconnected :: rest => connection_state false rest
  | .reconnecting :: rest => connection_state false rest
  | _ :: rest => connection_state connected rest

/-- The arguments of a command line made of flag/value pairs, in order. -/
def flatten_pairs : List (String × String) → List String
  | [] => []
  | (flag, value) :: rest => flag :: value :: flatten_pairs rest

/-- A stored cursor with pixels, on a 1920x1080 screen. -/
def sample_cursor : CursorInfo :=
  { screen_w := 1920
    screen_h := 1080
    data := [1, 2, 3]
    hotspot := (4, 4)
    other := 9 }

/-- A pixel-less cursor update that reports a 1280x720 screen. -/
def sample_cursor_move : CursorInfo :=
  { screen_w := 1280
    screen_h := 720
    x := 5
    y := 6
    visible := true }

/-- GPU answers of a round in which the poll and the pool creation succeed and
the keyed-mutex cast and `AcquireSync` answer as given. -/
def sample_gpu (cast_ok acquire_ok : Bool) : Gpu :=
  { GetFrame := DUPL_RETURN.DUPL_RETURN_SUCCESS
    timeout := false
    CreateTexture2D := fun i => some i
    As_IDXGIResource1 := fun _ => true
    CreateSharedHandle := fun i => some (100 + i)
    As_IDXGIKeyedMutex := cast_ok
    AcquireSync := acquire_ok
    steady_now_us := 7 }

end lt

/-! ## Codec negotiation: theorems -/

namespace lt

/-- The protobuf entry written for an ability. -/
theorem negotiate_client_loop_codecs (a : Ability) (client : List VideoCodecType)
    (w : Worker) (p : StreamingParams) :
    (negotiate_client_loop a client (w, p)).2.video_codecs =
      if a.codec_type ∈ client then
        p.video_codecs ++ [⟨backend_to_protobuf a.backend, codec_to_protobuf a.codec_type⟩]
      else p.video_codecs := by
  induction client with
  | nil => simp [negotiate_client_loop]
  | cons c rest ih =>
    by_cases hc : c = a.codec_type
    · simp [negotiate_client_loop, hc]
    · have hc2 : ¬ a.codec_type = c := fun h => hc h.symm
      simp [negotiate_client_loop, hc, hc2, ih]

theorem negotiate_client_loop_client (a : Ability) (client : List VideoCodecType)
    (w : Worker) (p : StreamingParams) :
    (negotiate_client_loop a client (w, p)).1.client_codec_types_ = w.client_codec_types_ := by
  induction client with
  | nil => simp [negotiate_client_loop]
  | cons c rest ih =>
    by_cases hc : c = a.codec_type
    · simp [negotiate_client_loop, hc]
    · simp [negotiate_client_loop, hc, ih]

theorem negotiate_client_loop_fields (a : Ability) (client : List VideoCodecType)
    (w : Worker) (p : StreamingParams) :
    ((negotiate_client_loop a client (w, p)).1.negotiated_video_codec_type_,
      (negotiate_client_loop a client (w, p)).1.negotiated_video_codec_beckend_) =
      if a.codec_type ∈ client then (a.codec_type, a.backend)
      else (w.negotiated_video_codec_type_, w.negotiated_video_codec_beckend_) := by
  induction client with
  | nil => simp [negotiate_client_loop]
  | cons c rest ih =>
    by_cases hc : c = a.codec_type
    · simp [negotiate_client_loop, hc]
    · have hc2 : ¬ a.codec_type = c := fun h => hc h.symm
      simp [negotiate_client_loop, hc, hc2, ih]

theorem negotiate_ability_loop_nonempty (abilities : List Ability) (w : Worker)
    (p : StreamingParams) (hp : p.video_codecs ≠ []) :
    negotiate_ability_loop abilities (w, p) = (w, p) := by
  cases abilities with
  | nil => rfl
  | cons a rest => simp [negotiate_ability_loop, hp]

theorem negotiate_ability_loop_fields (abilities : List Ability) (w : Worker)
    (p : StreamingParams) (hp : p.video_codecs = []) :
    ((negotiate_ability_loop abilities (w, p)).1.negotiated_video_codec_type_,
      (negotiate_ability_loop abilities (w, p)).1.negotiated_video_codec_beckend_) =
      match abilities.find? (fun a => decide (a.codec_type ∈ w.client_codec_types_)) with
      | none => (w.negotiated_video_codec_type_, w.negotiated_video_codec_beckend_)
      | some a => (a.codec_type, a.backend) := by
  induction abilities generalizing w p with
  | nil => simp [negotiate_ability_loop]
  | cons a rest ih =>
    have hc := negotiate_client_loop_codecs a w.client_codec_types_ w p
    have hcl := negotiate_client_loop_client a w.client_codec_types_ w p
    have hf := negotiate_client_loop_fields a w.client_codec_types_ w p
    simp only [negotiate_ability_loop, hp, List.isEmpty_nil, Bool.not_true, Bool.false_eq_true,
      if_false]
    generalize negotiate_client_loop a w.client_codec_types_ (w, p) = q at hc hcl hf
    obtain ⟨w1, p1⟩ := q
    simp only at hc hcl hf
    by_cases hmem : a.codec_type ∈ w.client_codec_types_
    · rw [if_pos hmem, hp] at hc
      rw [if_pos hmem] at hf
      have hne : p1.video_codecs ≠ [] := by rw [hc]; simp
      rw [negotiate_ability_loop_nonempty rest w1 p1 hne]
      simp [List.find?, hmem, hf]
    · rw [if_neg hmem, hp] at hc
      rw [if_neg hmem] at hf
      rw [ih w1 p1 hc, hcl]
      simp only [List.find?, hmem, decide_False]
      cases List.find? (fun a => decide (a.codec_type ∈ w.client_codec_types_)) rest with
      | none => simpa using hf
      | some b => rfl

/-- C2, the code at the failing input: with client `[H265]` and host `[H264]`
the negotiated list is empty and the warning is logged, yet
`negotiate_parameters` returns `true`, and so does `Worker::init`. -/
theorem negotiate_parameters_no_common_codec_succeeds :
    ((sample_worker [.H265]).negotiate_parameters (sample_host [⟨.NvEnc, .H264⟩])).1 = true ∧
    ((sample_worker [.H265]).negotiate_parameters
        (sample_host [⟨.NvEnc, .H264⟩])).2.negotiated_params_.map (fun p => p.video_codecs)
      = some [] ∧
    (LogLevel.WARNING,
        "Negotiate video codec failed, client supports codec:[HEVC ], host supports codec:[AVC ]")
      ∈ ((sample_worker [.H265]).negotiate_parameters (sample_host [⟨.NvEnc, .H264⟩])).2.log ∧
    ((sample_worker [.H265]).init (sample_host [⟨.NvEnc, .H264⟩])).1 = true := by
  decide

/-- C3, counterexample: with client `[H265, H264]` and host abilities
`[H264, H265]` the client's preference order selects H265, the code negotiates
H264. -/
theorem negotiate_parameters_not_client_order :
    client_preferred_codec [.H265, .H264] [⟨.NvEnc, .H264⟩, ⟨.NvEnc, .H265⟩] = some .H265 ∧
    ((sample_worker [.H265, .H264]).negotiate_parameters
        (sample_host [⟨.NvEnc, .H264⟩, ⟨.NvEnc, .H265⟩])).2.negotiated_video_codec_type_
      = .H264 ∧
    some ((sample_worker [.H265, .H264]).negotiate_parameters
        (sample_host [⟨.NvEnc, .H264⟩, ⟨.NvEnc, .H265⟩])).2.negotiated_video_codec_type_
      ≠ client_preferred_codec [.H265, .H264] [⟨.NvEnc, .H264⟩, ⟨.NvEnc, .H265⟩] := by
  decide

theorem negotiate_parameters_fields (h : Host) (w : Worker)
    (audio : AudioCapturerInfo) (video : VideoCapturerInfo)
    (ha : h.audio_capturer_create = some audio)
    (hv : h.video_capturer_create = some video) :
    ((w.negotiate_parameters h).2.negotiated_video_codec_type_,
      (w.negotiate_parameters h).2.negotiated_video_codec_beckend_) =
      match (h.check_encode_abilities_with_luid video.luid
          w.negotiated_display_setting_.width w.negotiated_display_setting_.height).find?
          (fun a => decide (a.codec_type ∈ w.client_codec_types_)) with
      | none => (w.negotiated_video_codec_type_, w.negotiated_video_codec_beckend_)
      | some a => (a.codec_type, a.backend) := by
  have key := negotiate_ability_loop_fields
    (h.check_encode_abilities_with_luid video.luid
      w.negotiated_display_setting_.width w.negotiated_display_setting_.height) w
    { audio_channels := audio.channels
      audio_sample_rate := audio.framesPerSec
      video_capture_backend := PbVideoCaptureBackend.Dxgi
      luid := video.luid
      enable_driver_input := false
      enable_gamepad := false
      screen_refresh_rate := w.negotiated_display_setting_.refrash_rate
      video_width := w.negotiated_display_setting_.width
      video_height := w.negotiated_display_setting_.height } rfl
  simp only [Worker.negotiate_parameters, ha, hv, if_true]
  rw [← key]
  split <;> rfl

/-- C3, amended. When the client's list and the host's abilities have a codec in
common, the negotiated codec type (and backend) is that of the first host
ability, in host order, whose codec type occurs in the client's list; the order
of the client's list plays no part: a client list with the same members
negotiates the same codec. -/
theorem negotiate_parameters_host_order (h : Host) (w : Worker)
    (audio : AudioCapturerInfo) (video : VideoCapturerInfo)
    (ha : h.audio_capturer_create = some audio)
    (hv : h.video_capturer_create = some video)
    (hcommon : ∃ a ∈ h.check_encode_abilities_with_luid video.luid
        w.negotiated_display_setting_.width w.negotiated_display_setting_.height,
      a.codec_type ∈ w.client_codec_types_) :
    (some ((w.negotiate_parameters h).2.negotiated_video_codec_type_,
        (w.negotiate_parameters h).2.negotiated_video_codec_beckend_) =
      ((h.check_encode_abilities_with_luid video.luid
          w.negotiated_display_setting_.width w.negotiated_display_setting_.height).find?
          (fun a => decide (a.codec_type ∈ w.client_codec_types_))).map
        (fun a => (a.codec_type, a.backend))) ∧
    ∀ client : List VideoCodecType, (∀ c, c ∈ client ↔ c ∈ w.client_codec_types_) →
      (({ w with client_codec_types_ := client }).negotiate_parameters h).2.negotiated_video_codec_type_
        = (w.negotiate_parameters h).2.negotiated_video_codec_type_ := by
  obtain ⟨a, hmem, hcl⟩ := hcommon
  have hsome : ((h.check_encode_abilities_with_luid video.luid
      w.negotiated_display_setting_.width w.negotiated_display_setting_.height).find?
      (fun a => decide (a.codec_type ∈ w.client_codec_types_))).isSome := by
    rw [List.find?_isSome]
    exact ⟨a, hmem, by simpa using hcl⟩
  have hw := negotiate_parameters_fields h w audio video ha hv
  constructor
  · rw [hw]
    cases hf : (h.check_encode_abilities_with_luid video.luid
      w.negotiated_display_setting_.width w.negotiated_display_setting_.height).find?
      (fun a => decide (a.codec_type ∈ w.client_codec_types_)) with
    | none => rw [hf] at hsome; simp at hsome
    | some b => rfl
  · intro client hsame
    have hw2 := negotiate_parameters_fields h { w with client_codec_types_ := client }
      audio video ha hv
    have hpred : (fun a : Ability => decide (a.codec_type ∈ client)) =
        (fun a : Ability => decide (a.codec_type ∈ w.client_codec_types_)) := by
      funext b
      simp [hsame]
    simp only [hpred] at hw2
    have e1 := congrArg Prod.fst hw
    have e2 := congrArg Prod.fst hw2
    simp only at e1 e2
    rw [e1, e2]

/-- C3, amended, at client `[H265, H264]` and host `[H264, H265]`: the first
host ability decides. -/
theorem negotiate_parameters_host_order_witness :
    ((sample_worker [.H265, .H264]).negotiate_parameters
        (sample_host [⟨.NvEnc, .H264⟩, ⟨.Amf, .H265⟩])).2.negotiated_video_codec_type_ = .H264 ∧
    ((sample_worker [.H264, .H265]).negotiate_parameters
        (sample_host [⟨.NvEnc, .H264⟩, ⟨.Amf, .H265⟩])).2.negotiated_video_codec_type_ = .H264 := by
  have hw := negotiate_parameters_host_order (sample_host [⟨.NvEnc, .H264⟩, ⟨.Amf, .H265⟩])
    (sample_worker [.H265, .H264]) ⟨2, 48000⟩ ⟨1⟩ rfl rfl
    ⟨⟨.NvEnc, .H264⟩, by decide, by decide⟩
  have h1 : ((sample_worker [.H265, .H264]).negotiate_parameters
      (sample_host [⟨.NvEnc, .H264⟩, ⟨.Amf, .H265⟩])).2.negotiated_video_codec_type_ = .H264 := by
    have := congrArg (Option.map Prod.fst) hw.1
    exact Option.some.inj (this.trans (by decide))
  refine ⟨h1, ?_⟩
  have h2 := hw.2 [.H264, .H265] (fun c => by cases c <;> decide)
  exact h2.trans h1

end lt

/-! ## Texture pool: theorems -/

namespace lt

theorem getFreeSharedTexture_loop_none (k : Nat) (pool : List SharedTexture) :
    (getFreeSharedTexture_loop k pool).1 = none ↔ ∀ t ∈ pool, t.in_use = true := by
  induction pool generalizing k with
  | nil => simp [getFreeSharedTexture_loop]
  | cons t rest ih =>
    by_cases ht : t.in_use = false
    · simp [getFreeSharedTexture_loop, ht]
    · have ht2 : t.in_use = true := by simpa using ht
      simp [getFreeSharedTexture_loop, ht2, ih]

theorem getFreeSharedTexture_loop_spec (k : Nat) (pool : List SharedTexture) :
    match (getFreeSharedTexture_loop k pool).1 with
    | some r =>
      ∃ i, r = k + i ∧ i < pool.length ∧ (pool.getD i {}).in_use = false ∧
        (∀ j, j < i → (pool.getD j {}).in_use = true) ∧
        (getFreeSharedTexture_loop k pool).2 =
          pool.modify (fun t => { t with in_use := true }) i
    | none => (getFreeSharedTexture_loop k pool).2 = pool := by
  induction pool generalizing k with
  | nil => simp [getFreeSharedTexture_loop]
  | cons t rest ih =>
    by_cases ht : t.in_use = false
    · simp only [getFreeSharedTexture_loop, ht, if_true]
      exact ⟨0, rfl, by simp, by simpa using ht, by intro j hj; omega, rfl⟩
    · have ht2 : t.in_use = true := by simpa using ht
      have := ih (k + 1)
      simp only [getFreeSharedTexture_loop, ht2, Bool.true_eq_false, if_false]
      cases hr : (getFreeSharedTexture_loop (k + 1) rest).1 with
      | none =>
        rw [hr] at this
        simp only at this ⊢
        rw [this]
      | some r =>
        rw [hr] at this
        obtain ⟨i, hri, hlt, hfree, hbelow, hpool⟩ := this
        refine ⟨i + 1, by omega, by simpa using hlt, by simpa using hfree, ?_, ?_⟩
        · intro j hj
          cases j with
          | zero => simpa using ht2
          | succ j => simpa using hbelow j (by omega)
        · simp only [hpool, List.modify_succ_cons]

/-- C4. `getFreeSharedTexture` returns the lowest index whose `in_use` flag is
`false`, sets the flag of that slot and changes nothing else; it returns no
index, leaving the pool as it was, exactly when every slot is in use. -/
theorem getFreeSharedTexture_spec (pool : List SharedTexture) :
    (match (getFreeSharedTexture pool).1 with
      | some i =>
        i < pool.length ∧ (pool.getD i {}).in_use = false ∧
          (∀ j, j < i → (pool.getD j {}).in_use = true) ∧
          (getFreeSharedTexture pool).2 = pool.modify (fun t => { t with in_use := true }) i
      | none => (getFreeSharedTexture pool).2 = pool) ∧
    ((getFreeSharedTexture pool).1 = none ↔ ∀ t ∈ pool, t.in_use = true) := by
  refine ⟨?_, getFreeSharedTexture_loop_none 0 pool⟩
  have := getFreeSharedTexture_loop_spec 0 pool
  unfold getFreeSharedTexture
  cases hr : (getFreeSharedTexture_loop 0 pool).1 with
  | none => rw [hr] at this; exact this
  | some r =>
    rw [hr] at this
    obtain ⟨i, hri, rest⟩ := this
    have : r = i := by omega
    subst this
    exact rest

end lt

namespace lt

/-- C5, the code at failing inputs. On a fresh capturer, a round whose
`AcquireSync` fails (or whose keyed-mutex cast fails) returns no frame and
leaves slot 0 marked `in_use`; after eight such rounds every slot is marked and
a round in which every GPU call succeeds returns no frame either. -/
theorem captureOneFrame_failed_round_keeps_slot :
    in_use_slots ({} : DxgiVideoCapturer).texture_pool_ = [] ∧
    (DxgiVideoCapturer.captureOneFrame (sample_gpu true false) {}).1 = none ∧
    in_use_slots (DxgiVideoCapturer.captureOneFrame (sample_gpu true false) {}).2.texture_pool_
      = [0] ∧
    (DxgiVideoCapturer.captureOneFrame (sample_gpu false true) {}).1 = none ∧
    in_use_slots (DxgiVideoCapturer.captureOneFrame (sample_gpu false true) {}).2.texture_pool_
      = [0] ∧
    in_use_slots
        ((fun c => (DxgiVideoCapturer.captureOneFrame (sample_gpu true false) c).2)^[8]
          {}).texture_pool_
      = [0, 1, 2, 3, 4, 5, 6, 7] ∧
    (DxgiVideoCapturer.captureOneFrame (sample_gpu true true)
        ((fun c => (DxgiVideoCapturer.captureOneFrame (sample_gpu true false) c).2)^[8] {})).1
      = none := by
  decide

theorem releaseFrame_loop_spec (name : String) (pool : List SharedTexture) :
    releaseFrame_loop name pool =
      (decide (name ∈ pool.map (fun t => t.name)),
        pool.modify (fun t => { t with in_use := false })
          ((pool.map (fun t => t.name)).indexOf name)) := by
  induction pool with
  | nil => simp [releaseFrame_loop]
  | cons t rest ih =>
    by_cases ht : t.name = name
    · simp [releaseFrame_loop, ht]
    · have ht2 : ¬ name = t.name := fun h => ht h.symm
      simp [releaseFrame_loop, ht, ht2, ih, List.indexOf_cons]

/-- C6. `releaseFrame(name)`: when some slot has that name, the first such slot
gets `in_use = false`, no other slot and no other field changes, and the fatal
branch is not reached; when no slot has that name, the pool is unchanged and
the fatal branch is reached. -/
theorem releaseFrame_spec (name : String) (c : DxgiVideoCapturer) :
    if name ∈ c.texture_pool_.map (fun t => t.name) then
      ((c.texture_pool_.getD ((c.texture_pool_.map (fun t => t.name)).indexOf name) {}).name
          = name) ∧
        (c.releaseFrame name).texture_pool_ =
          c.texture_pool_.modify (fun t => { t with in_use := false })
            ((c.texture_pool_.map (fun t => t.name)).indexOf name) ∧
        (c.releaseFrame name).fatal = c.fatal
    else
      (c.releaseFrame name).texture_pool_ = c.texture_pool_ ∧
        (c.releaseFrame name).fatal = true := by
  have hl := releaseFrame_loop_spec name c.texture_pool_
  split
  · rename_i hmem
    refine ⟨?_, ?_, ?_⟩
    · have hlt : (c.texture_pool_.map (fun t => t.name)).indexOf name < c.texture_pool_.length := by
        simpa using List.indexOf_lt_length.2 hmem
      have := List.indexOf_get (l := c.texture_pool_.map (fun t => t.name)) (a := name)
        (by simpa using hlt)
      rw [List.getD_eq_getElem _ _ hlt]
      simp only [List.get_eq_getElem, List.getElem_map] at this
      exact this
    · simp [DxgiVideoCapturer.releaseFrame, hl, hmem]
    · simp [DxgiVideoCapturer.releaseFrame, hl, hmem]
  · rename_i hmem
    have hidx : (c.texture_pool_.map (fun t => t.name)).indexOf name = c.texture_pool_.length := by
      simpa using List.indexOf_eq_length.2 hmem
    refine ⟨?_, ?_⟩
    · simp only [DxgiVideoCapturer.releaseFrame, hl, hmem, decide_False, Bool.false_eq_true,
        if_false, hidx]
      apply List.ext_getElem?
      intro n
      rw [List.getElem?_modify]
      by_cases hn : c.texture_pool_.length = n
      · subst hn; simp
      · simp [hn]
    · simp [DxgiVideoCapturer.releaseFrame, hl, hmem]

end lt

/-! ## Capture loop: theorems -/

namespace lt

theorem main_loop_rounds_stopped (range : Nat) (ticks : List Tick) (v : VideoCapturer)
    (hs : v.stoped_ = true) : (main_loop_rounds range ticks v).2 = [] := by
  cases ticks <;> simp [main_loop_rounds, hs]

theorem main_loop_rounds_frame (range : Nat) (tick : Tick) (rest : List Tick)
    (v : VideoCapturer) (frame : CaptureVideoFrame)
    (hs : v.stoped_ = false) (hf : tick.frame = some frame) :
    ∃ u : VideoCapturer, u.frame_no_ = (v.frame_no_ + 1) % range ∧
      (main_loop_rounds range (tick :: rest) v).2 =
        { frame with picture_id := v.frame_no_ } :: (main_loop_rounds range rest u).2 := by
  refine ⟨VideoCapturer.mk tick.stop_requested ((v.frame_no_ + 1) % range)
    v.stop_promise_set v.stop_promise_waits (v.alive_calls + 1) (v.vblank_waits + 1), rfl, ?_⟩
  cases hreq : tick.stop_requested <;> simp [main_loop_rounds, hs, hf, hreq]

theorem main_loop_rounds_no_frame (range : Nat) (tick : Tick) (rest : List Tick)
    (v : VideoCapturer) (hs : v.stoped_ = false) (hf : tick.frame = none) :
    ∃ u : VideoCapturer, u.frame_no_ = v.frame_no_ ∧
      (main_loop_rounds range (tick :: rest) v).2 = (main_loop_rounds range rest u).2 := by
  refine ⟨VideoCapturer.mk tick.stop_requested v.frame_no_
    v.stop_promise_set v.stop_promise_waits (v.alive_calls + 1) (v.vblank_waits + 1), rfl, ?_⟩
  cases hreq : tick.stop_requested <;> simp [main_loop_rounds, hs, hf, hreq]

theorem main_loop_rounds_ids (range : Nat) (ticks : List Tick) (v : VideoCapturer)
    (hk : v.frame_no_ + (main_loop_rounds range ticks v).2.length ≤ range) :
    (main_loop_rounds range ticks v).2.map (fun f => f.picture_id) =
      List.range' v.frame_no_ (main_loop_rounds range ticks v).2.length := by
  induction ticks generalizing v with
  | nil =>
    by_cases hs : v.stoped_ = true <;> simp [main_loop_rounds, hs]
  | cons tick rest ih =>
    by_cases hs : v.stoped_ = true
    · simp [main_loop_rounds_stopped range _ v hs]
    · have hs2 : v.stoped_ = false := by simpa using hs
      cases hf : tick.frame with
      | none =>
        obtain ⟨u, hu, heq⟩ := main_loop_rounds_no_frame range tick rest v hs2 hf
        rw [heq] at hk ⊢
        rw [← hu] at hk ⊢
        exact ih u hk
      | some frame =>
        obtain ⟨u, hu, heq⟩ := main_loop_rounds_frame range tick rest v frame hs2 hf
        rw [heq] at hk ⊢
        simp only [List.length_cons] at hk
        simp only [List.map_cons, List.length_cons, List.range'_succ]
        congr 1
        by_cases hwrap : v.frame_no_ + 1 = range
        · have hlen : (main_loop_rounds range rest u).2.length = 0 := by omega
          rw [List.length_eq_zero] at hlen
          simp [hlen]
        · have hmod : (v.frame_no_ + 1) % range = v.frame_no_ + 1 :=
            Nat.mod_eq_of_lt (by omega)
          rw [hmod] at hu
          rw [← hu]
          exact ih u (by omega)

/-- C7. In a run of `VideoCapturer::main_loop` that does not use up the range of
the frame counter (the counter's value at entry plus the number of frames
emitted stays within the range), the `picture_id` values passed to `on_frame`
are strictly increasing, hence without repeats, whatever the order of
successful and failed captures and wherever the stop request falls. -/
theorem main_loop_picture_id_increasing (range : Nat) (ticks : List Tick) (v : VideoCapturer)
    (hk : v.frame_no_ + (v.main_loop range ticks).2.length ≤ range) :
    ((v.main_loop range ticks).2.map (fun f => f.picture_id)).Pairwise (· < ·) ∧
    ((v.main_loop range ticks).2.map (fun f => f.picture_id)).Nodup := by
  have hids := main_loop_rounds_ids range ticks { v with stoped_ := false } hk
  have hp : ((v.main_loop range ticks).2.map (fun f => f.picture_id)).Pairwise (· < ·) := by
    unfold VideoCapturer.main_loop
    rw [hids]
    exact List.pairwise_lt_range' _ _
  exact ⟨hp, hp.imp (fun h => Nat.ne_of_lt h)⟩

/-- C7 on a run of five rounds over a counter of 2^32 values: captures succeed,
fail, succeed, succeed, and the stop request comes in the fourth round. -/
theorem main_loop_picture_id_increasing_witness :
    (({ stoped_ := true } : VideoCapturer).main_loop (2 ^ 32)
        [⟨some {}, false⟩, ⟨none, false⟩, ⟨some {}, false⟩, ⟨some {}, true⟩,
          ⟨some {}, false⟩]).2.map (fun f => f.picture_id) = [0, 1, 2] ∧
    ((({ stoped_ := true } : VideoCapturer).main_loop (2 ^ 32)
        [⟨some {}, false⟩, ⟨none, false⟩, ⟨some {}, false⟩, ⟨some {}, true⟩,
          ⟨some {}, false⟩]).2.map (fun f => f.picture_id)).Pairwise (· < ·) :=
  ⟨by decide,
    (main_loop_picture_id_increasing (2 ^ 32)
      [⟨some {}, false⟩, ⟨none, false⟩, ⟨some {}, false⟩, ⟨some {}, true⟩, ⟨some {}, false⟩]
      { stoped_ := true } (by decide)).1⟩

end lt

/-! ## Keep-alive: theorems -/

namespace lt

/-- C8. `Worker::check_timeout` at clock reading `now`: when more than 3000 ms
have passed since the last reception it calls `stop()` once and posts nothing;
otherwise, a gap of exactly 3000 ms included, it does not call `stop()` and
posts exactly one further `check_timeout` with a delay of 500 ms. Nothing else
of the worker changes. -/
theorem check_timeout_spec (now : Int) (w : Worker) :
    (if now - w.last_time_received_from_service_ > 3000 then
        (w.check_timeout now).stop_calls = w.stop_calls + 1 ∧
          (w.check_timeout now).posted = w.posted
      else
        (w.check_timeout now).stop_calls = w.stop_calls ∧
          (w.check_timeout now).posted = w.posted ++ [(500, WorkerTask.check_timeout)]) ∧
    ((w.on_keep_alive (now - 3000)).check_timeout now).stop_calls = w.stop_calls ∧
    ((w.on_keep_alive (now - 3000)).check_timeout now).posted =
      w.posted ++ [(500, WorkerTask.check_timeout)] ∧
    { w.check_timeout now with stop_calls := w.stop_calls, posted := w.posted } = w := by
  refine ⟨?_, ?_, ?_, ?_⟩
  · split <;> rename_i hgap
    · simp [Worker.check_timeout, kTimeout, hgap, Worker.stop]
    · simp [Worker.check_timeout, kTimeout, hgap]
  · simp [Worker.check_timeout, kTimeout, Worker.on_keep_alive]
  · simp [Worker.check_timeout, kTimeout, Worker.on_keep_alive]
  · unfold Worker.check_timeout Worker.stop
    split <;> rfl

theorem check_timeout_last_time (now : Int) (w : Worker) :
    (w.check_timeout now).last_time_received_from_service_ =
      w.last_time_received_from_service_ := by
  unfold Worker.check_timeout Worker.stop
  split <;> rfl

theorem run_last_time (events : List WorkerEvent) (w : Worker) :
    (w.run events).last_time_received_from_service_ =
      latest_keep_alive w.last_time_received_from_service_ events := by
  induction events generalizing w with
  | nil => rfl
  | cons e rest ih =>
    cases e with
    | keep_alive t =>
      simp only [Worker.run, List.foldl_cons, Worker.handle, latest_keep_alive]
      exact ih (w.on_keep_alive t)
    | check_timeout t =>
      simp only [Worker.run, List.foldl_cons, Worker.handle, latest_keep_alive]
      have := ih (w.check_timeout t)
      rw [check_timeout_last_time] at this
      exact this

theorem chain_le_weaken (c d : Int) (times : List Int) (hcd : c ≤ d)
    (h : List.Chain (· ≤ ·) d times) : List.Chain (· ≤ ·) c times := by
  cases times with
  | nil => exact List.Chain.nil
  | cons t rest =>
    rw [List.chain_cons] at h ⊢
    exact ⟨le_trans hcd h.1, h.2⟩

/-- A reading `c` not later than the events that follow, which is within
3000 ms of the latest KeepAlive of those events, is within 3000 ms of the
last-seen time `last` as well. -/
theorem within_window_of_later (post : List WorkerEvent) (last c : Int)
    (hclock : List.Chain (· ≤ ·) c (post.map WorkerEvent.time))
    (hgap : List.Chain (fun a b => b - a ≤ 3000) last (keep_alive_times post))
    (hwin : c ≤ latest_keep_alive last post + 3000) : c - last ≤ 3000 := by
  induction post generalizing c with
  | nil => simp only [latest_keep_alive] at hwin; omega
  | cons e rest ih =>
    cases e with
    | keep_alive t =>
      simp only [List.map_cons, WorkerEvent.time, List.chain_cons] at hclock
      simp only [keep_alive_times, List.chain_cons] at hgap
      omega
    | check_timeout t =>
      simp only [List.map_cons, WorkerEvent.time, List.chain_cons] at hclock
      simp only [keep_alive_times] at hgap
      simp only [latest_keep_alive] at hwin
      exact ih c (chain_le_weaken c t _ hclock.1 hclock.2) hgap hwin

theorem run_check_within_window (pre post : List WorkerEvent) (now c : Int) (w : Worker)
    (hclock : List.Chain (· ≤ ·) c
      ((pre ++ WorkerEvent.check_timeout now :: post).map WorkerEvent.time))
    (hgap : List.Chain (fun a b => b - a ≤ 3000) w.last_time_received_from_service_
      (keep_alive_times (pre ++ WorkerEvent.check_timeout now :: post)))
    (hwin : now ≤ latest_keep_alive w.last_time_received_from_service_
      (pre ++ WorkerEvent.check_timeout now :: post) + 3000) :
    now - (w.run pre).last_time_received_from_service_ ≤ 3000 := by
  induction pre generalizing w c with
  | nil =>
    simp only [List.nil_append, List.map_cons, WorkerEvent.time, List.chain_cons] at hclock
    simp only [List.nil_append, keep_alive_times] at hgap
    simp only [List.nil_append, latest_keep_alive] at hwin
    exact within_window_of_later post _ now hclock.2 hgap hwin
  | cons e rest ih =>
    cases e with
    | keep_alive t =>
      simp only [List.cons_append, List.map_cons, WorkerEvent.time, List.chain_cons] at hclock
      simp only [List.cons_append, keep_alive_times, List.chain_cons] at hgap
      simp only [List.cons_append, latest_keep_alive] at hwin
      simp only [Worker.run, List.foldl_cons, Worker.handle]
      exact ih t (w.on_keep_alive t) hclock.2 hgap.2 hwin
    | check_timeout t =>
      simp only [List.cons_append, List.map_cons, WorkerEvent.time, List.chain_cons] at hclock
      simp only [List.cons_append, keep_alive_times] at hgap
      simp only [List.cons_append, latest_keep_alive] at hwin
      simp only [Worker.run, List.foldl_cons, Worker.handle]
      refine ih t (w.check_timeout t) hclock.2 ?_ ?_
      · rw [check_timeout_last_time]; exact hgap
      · rw [check_timeout_last_time]; exact hwin

/-- C9. On a non-decreasing clock, let KeepAlive deliveries and `check_timeout`
runs follow the construction of the worker at `t0` in any order, the first
KeepAlive at most 3000 ms after `t0` and consecutive KeepAlives at most 3000 ms
apart. Then no `check_timeout` run that takes place up to 3000 ms after the
latest KeepAlive of the sequence calls `stop()`: it leaves the count of `stop`
calls as it found it and posts the next check. And a KeepAlive sets the
last-seen time to the current clock reading. -/
theorem keep_alive_prevents_stop (params : Params) (t0 : Int) (events : List WorkerEvent)
    (hclock : List.Chain (· ≤ ·) t0 (events.map WorkerEvent.time))
    (hgap : List.Chain (fun a b => b - a ≤ 3000) t0 (keep_alive_times events)) :
    (∀ (pre post : List WorkerEvent) (now : Int),
      events = pre ++ WorkerEvent.check_timeout now :: post →
      now ≤ latest_keep_alive t0 events + 3000 →
      (((Worker.new params t0).run pre).check_timeout now).stop_calls =
          ((Worker.new params t0).run pre).stop_calls ∧
        (((Worker.new params t0).run pre).check_timeout now).posted =
          ((Worker.new params t0).run pre).posted ++ [(500, WorkerTask.check_timeout)]) ∧
    (∀ (w : Worker) (now : Int),
      (w.on_keep_alive now).last_time_received_from_service_ = now) := by
  refine ⟨?_, fun _ _ => rfl⟩
  intro pre post now hev hwin
  subst hev
  have h := run_check_within_window pre post now t0 (Worker.new params t0) hclock hgap hwin
  have hnot : ¬ now - ((Worker.new params t0).run pre).last_time_received_from_service_
      > kTimeout := by
    simp only [kTimeout]; omega
  simp [Worker.check_timeout, hnot]

end lt

namespace lt

/-- C9 on a sample run: KeepAlives at 400, 800 and 1200 ms, checks in between
and after, the last one at 4200 ms, exactly 3000 ms after the latest KeepAlive:
that check does not call `stop()`. -/
theorem keep_alive_prevents_stop_witness :
    List.Chain (· ≤ ·) (0 : Int) (sample_events.map WorkerEvent.time) ∧
    List.Chain (fun a b : Int => b - a ≤ 3000) 0 (keep_alive_times sample_events) ∧
    (((sample_worker [.H264]).run (sample_events.take 7)).check_timeout 4200).stop_calls = 0 :=
  ⟨by simp [sample_events, WorkerEvent.time], by simp [sample_events, keep_alive_times],
    ((keep_alive_prevents_stop ⟨"worker", 1920, 1080, 60, [.H264]⟩ 0 sample_events
      (by simp [sample_events, WorkerEvent.time])
      (by simp [sample_events, keep_alive_times])).1 (sample_events.take 7) [] 4200
        (by decide) (by decide)).1.trans (by decide)⟩

/-! ## `VideoCapturer::stop`: theorems -/

theorem stop_stop (v : VideoCapturer) : v.stop.stop = v.stop := by
  cases hs : v.stoped_ <;> simp [VideoCapturer.stop, hs]

theorem stop_iterate (n : Nat) (v : VideoCapturer) :
    VideoCapturer.stop^[n + 1] v = v.stop := by
  induction n with
  | zero => rfl
  | succ k ih =>
    rw [Function.iterate_succ_apply', ih, stop_stop]

/-- C10. `VideoCapturer::stop` is idempotent: calling it `n >= 1` times leaves
the state that one call leaves. The first call on a capturer whose flag is clear
sets the flag and waits on the promise once; a call on a capturer whose flag is
set changes nothing, so no later call touches the promise. -/
theorem stop_idempotent (n : Nat) (v : VideoCapturer) (hn : 1 ≤ n) :
    VideoCapturer.stop^[n] v = v.stop ∧
    v.stop.stoped_ = true ∧
    v.stop.stop_promise_waits =
      (if v.stoped_ then v.stop_promise_waits else v.stop_promise_waits + 1) ∧
    (VideoCapturer.stop^[n] v).stop_promise_waits = v.stop.stop_promise_waits ∧
    v.stop.stop = v.stop ∧
    (if v.stoped_ then v.stop = v
      else v.stop = { v with stoped_ := true, stop_promise_waits := v.stop_promise_waits + 1 }) := by
  obtain ⟨k, rfl⟩ : ∃ k, n = k + 1 := ⟨n - 1, by omega⟩
  have hit := stop_iterate k v
  refine ⟨hit, ?_, ?_, by rw [hit], stop_stop v, ?_⟩
  · cases hs : v.stoped_ <;> simp [VideoCapturer.stop, hs]
  · cases hs : v.stoped_ <;> simp [VideoCapturer.stop, hs]
  · cases hs : v.stoped_ <;> simp [VideoCapturer.stop, hs]

/-- C10 on a running capturer stopped three times: one wait on the promise. -/
theorem stop_idempotent_witness :
    (1 ≤ 3) ∧
    VideoCapturer.stop^[3] { stoped_ := false } = { stoped_ := true, stop_promise_waits := 1 } :=
  ⟨by decide, (stop_idempotent 3 { stoped_ := false } (by decide)).1.trans (by decide)⟩

end lt

/-! ## Cursor updates: theorems -/

namespace lt

/-- C11, counterexample: a pixel-less update with another screen size changes
the stored `screen_w` and `screen_h`, not only position and visibility. -/
theorem updateCursor_changes_screen_size :
    ((Renderer.updateCursor (some sample_cursor_move)
        { absolute_mouse_ := true, cursor_info_ := some sample_cursor }).cursor_info_.map
      fun c => (c.screen_w, c.screen_h)) = some (1280, 720) ∧
    sample_cursor_move.data = [] ∧
    ((Renderer.updateCursor (some sample_cursor_move)
        { absolute_mouse_ := true, cursor_info_ := some sample_cursor }).cursor_info_.map
      fun c => (c.screen_w, c.screen_h)) ≠
      some (sample_cursor.screen_w, sample_cursor.screen_h) := by
  decide

/-- C11, amended. `Renderer::updateCursor` with an update whose pixel data is
empty changes only `x`, `y`, `visible`, `screen_w` and `screen_h` of the stored
cursor, which take the update's values; the pixel data, the hotspot and every
other stored member keep their previous value, and so does the rest of the
renderer. -/
theorem updateCursor_without_pixels (r : Renderer) (stored update : CursorInfo)
    (hstored : r.cursor_info_ = some stored) (hdata : update.data = []) :
    r.updateCursor (some update) =
      { r with
        cursor_info_ := some ({
          screen_w := update.screen_w
          screen_h := update.screen_h
          x := update.x
          y := update.y
          visible := update.visible
          data := stored.data
          hotspot := stored.hotspot
          other := stored.other } : CursorInfo) } := by
  simp [Renderer.updateCursor, hstored, hdata]

/-- C11, amended, on a stored cursor with pixels and a pixel-less update. -/
theorem updateCursor_without_pixels_witness :
    Renderer.updateCursor (some sample_cursor_move)
        { absolute_mouse_ := true, cursor_info_ := some sample_cursor } =
      { absolute_mouse_ := true
        cursor_info_ := some ({
          screen_w := 1280
          screen_h := 720
          x := 5
          y := 6
          visible := true
          data := [1, 2, 3]
          hotspot := (4, 4)
          other := 9 } : CursorInfo) } :=
  updateCursor_without_pixels _ sample_cursor sample_cursor_move rfl rfl

end lt

/-! ## Dispatch and pipe messages: theorems -/

namespace lt

theorem send_pipe_message_frame (h : Host) (type : Nat) (msg : Message) (w : Worker) :
    (w.send_pipe_message h type msg).2.connected_to_service_ = w.connected_to_service_ ∧
    (w.send_pipe_message h type msg).2.negotiated_params_ = w.negotiated_params_ ∧
    (w.send_pipe_message h type msg).2.handler_calls = w.handler_calls ∧
    (w.send_pipe_message h type msg).2.msg_handlers_ = w.msg_handlers_ ∧
    (w.send_pipe_message h type msg).2.sent =
      (if w.connected_to_service_ then w.sent ++ [(type, msg)] else w.sent) := by
  cases hc : w.connected_to_service_ <;> simp [Worker.send_pipe_message, hc]

theorem register_message_handler_frame (type : Nat) (handler : MessageHandler) (w : Worker) :
    (w.register_message_handler type handler).2.connected_to_service_ = w.connected_to_service_ ∧
    (w.register_message_handler type handler).2.negotiated_params_ = w.negotiated_params_ ∧
    (w.register_message_handler type handler).2.handler_calls = w.handler_calls ∧
    (w.register_message_handler type handler).2.sent = w.sent ∧
    (w.register_message_handler type handler).2.video_capturer_ = w.video_capturer_ ∧
    (w.register_message_handler type handler).2.audio_capturer_ = w.audio_capturer_ := by
  unfold Worker.register_message_handler
  simp only []
  split <;> simp

theorem register_input_handlers_frame (handlers : List (Nat × MessageHandler)) (w : Worker) :
    (register_input_handlers handlers w).connected_to_service_ = w.connected_to_service_ ∧
    (register_input_handlers handlers w).negotiated_params_ = w.negotiated_params_ ∧
    (register_input_handlers handlers w).handler_calls = w.handler_calls ∧
    (register_input_handlers handlers w).sent = w.sent ∧
    (register_input_handlers handlers w).video_capturer_ = w.video_capturer_ ∧
    (register_input_handlers handlers w).audio_capturer_ = w.audio_capturer_ := by
  induction handlers generalizing w with
  | nil => simp [register_input_handlers]
  | cons handler rest ih =>
    have h1 := register_message_handler_frame handler.1 handler.2 w
    have h2 := ih (w.register_message_handler handler.1 handler.2).2
    simp only [register_input_handlers]
    obtain ⟨a1, a2, a3, a4, a5, a6⟩ := h1
    obtain ⟨b1, b2, b3, b4, b5, b6⟩ := h2
    exact ⟨b1.trans a1, b2.trans a2, b3.trans a3, b4.trans a4, b5.trans a5, b6.trans a6⟩

theorem on_start_working_ack_frame (h : Host) (w : Worker) :
    (w.on_start_working_ack h).2.connected_to_service_ = w.connected_to_service_ ∧
    (w.on_start_working_ack h).2.negotiated_params_ = w.negotiated_params_ ∧
    (w.on_start_working_ack h).2.handler_calls = w.handler_calls ∧
    (w.on_start_working_ack h).2.sent = w.sent := by
  have hr := register_input_handlers_frame h.input_registrations
    { w with capturer_calls :=
        w.capturer_calls ++ [CapturerCall.video_start, CapturerCall.audio_start] }
  obtain ⟨a1, a2, a3, a4, _, _⟩ := hr
  simp only at a1 a2 a3 a4
  unfold Worker.on_start_working_ack
  simp only []
  generalize register_input_handlers h.input_registrations
    { w with capturer_calls :=
        w.capturer_calls ++ [CapturerCall.video_start, CapturerCall.audio_start] } = w1
    at a1 a2 a3 a4 ⊢
  cases hi : h.input_executor_create <;> cases hv : w1.video_capturer_ <;>
    cases hu : w1.audio_capturer_ <;> simp [hi, hv, hu, a1, a2, a3, a4]

theorem on_start_working_frame (h : Host) (w : Worker) :
    (w.on_start_working h).connected_to_service_ = w.connected_to_service_ ∧
    (w.on_start_working h).negotiated_params_ = w.negotiated_params_ ∧
    (w.on_start_working h).handler_calls = w.handler_calls ∧
    (w.on_start_working h).sent =
      (if w.connected_to_service_ then
        w.sent ++ [(h.kStartWorkingAck, Message.StartWorkingAck (w.on_start_working_ack h).1)]
      else w.sent) := by
  obtain ⟨a1, a2, a3, a4⟩ := on_start_working_ack_frame h w
  obtain ⟨b1, b2, b3, _, b5⟩ := send_pipe_message_frame h
    (ltproto_id h (.StartWorkingAck (w.on_start_working_ack h).1))
    (.StartWorkingAck (w.on_start_working_ack h).1) (w.on_start_working_ack h).2
  unfold Worker.on_start_working
  simp only []
  refine ⟨b1.trans a1, b2.trans a2, b3.trans a3, ?_⟩
  rw [b5, a1, a4]
  rfl

theorem map_insert_unchanged {β : Type} (k : Nat) (v : β) (l : List (Nat × β))
    (hfail : (map_insert k v l).2 = false) : (map_insert k v l).1 = l := by
  induction l with
  | nil => simp [map_insert] at hfail
  | cons p rest ih =>
    obtain ⟨k0, v0⟩ := p
    by_cases h1 : k < k0
    · simp [map_insert, h1] at hfail
    · by_cases h2 : k = k0
      · simp [map_insert, h2]
      · simp only [map_insert, h1, h2, if_false] at hfail ⊢
        rw [ih hfail]

theorem map_insert_keys_mem {β : Type} (k : Nat) (v : β) (l : List (Nat × β)) (t : Nat) :
    t ∈ (map_insert k v l).1.map Prod.fst ↔ t = k ∨ t ∈ l.map Prod.fst := by
  induction l with
  | nil => simp [map_insert]
  | cons p rest ih =>
    obtain ⟨k0, v0⟩ := p
    by_cases h1 : k < k0
    · simp [map_insert, h1]
    · by_cases h2 : k = k0
      · subst h2
        simp [map_insert]
      · simp only [map_insert, h1, h2, if_false, List.map_cons, List.mem_cons, ih]
        tauto

theorem map_insert_keys_sorted {β : Type} (k : Nat) (v : β) (l : List (Nat × β))
    (hs : (l.map Prod.fst).Pairwise (· < ·)) :
    ((map_insert k v l).1.map Prod.fst).Pairwise (· < ·) := by
  induction l with
  | nil => simp [map_insert]
  | cons p rest ih =>
    obtain ⟨k0, v0⟩ := p
    simp only [List.map_cons, List.pairwise_cons] at hs
    by_cases h1 : k < k0
    · simp only [map_insert, h1, if_true, List.map_cons, List.pairwise_cons]
      refine ⟨?_, hs⟩
      intro t ht
      rcases List.mem_cons.1 ht with rfl | ht
      · exact h1
      · exact lt_trans h1 (hs.1 t ht)
    · by_cases h2 : k = k0
      · subst h2
        simp only [map_insert, lt_self_iff_false, if_false, if_true, List.map_cons,
          List.pairwise_cons]
        exact hs
      · simp only [map_insert, h1, h2, if_false, List.map_cons, List.pairwise_cons]
        refine ⟨?_, ih hs.2⟩
        intro t ht
        rcases (map_insert_keys_mem k v rest t).1 ht with rfl | ht
        · omega
        · exact hs.1 t ht

theorem register_message_handler_handlers (type : Nat) (handler : MessageHandler) (w : Worker) :
    (w.register_message_handler type handler).2.msg_handlers_ =
      (map_insert type handler w.msg_handlers_).1 := by
  unfold Worker.register_message_handler
  simp only []
  split
  · rename_i hfail
    simp only
    exact (map_insert_unchanged type handler w.msg_handlers_ (by simpa using hfail)).symm
  · rfl

theorem register_input_handlers_keys (handlers : List (Nat × MessageHandler)) (w : Worker)
    (hs : (w.msg_handlers_.map Prod.fst).Pairwise (· < ·)) :
    ((register_input_handlers handlers w).msg_handlers_.map Prod.fst).Pairwise (· < ·) ∧
    ∀ t, t ∈ (register_input_handlers handlers w).msg_handlers_.map Prod.fst ↔
      t ∈ w.msg_handlers_.map Prod.fst ∨ t ∈ handlers.map Prod.fst := by
  induction handlers generalizing w with
  | nil => simp [register_input_handlers, hs]
  | cons handler rest ih =>
    have hreg := register_message_handler_handlers handler.1 handler.2 w
    have hs1 : ((w.register_message_handler handler.1 handler.2).2.msg_handlers_.map
        Prod.fst).Pairwise (· < ·) := by
      rw [hreg]; exact map_insert_keys_sorted _ _ _ hs
    obtain ⟨i1, i2⟩ := ih (w.register_message_handler handler.1 handler.2).2 hs1
    simp only [register_input_handlers]
    refine ⟨i1, ?_⟩
    intro t
    rw [i2 t, hreg, map_insert_keys_mem]
    simp only [List.map_cons, List.mem_cons]
    tauto

/-- C13. The `StartWorkingAck` built by `Worker::on_start_working` carries
`Success` exactly when `InputExecutor::create` returned an executor and
`InputFailed` otherwise; in both cases its `msg_type` list is the list of the
type ids registered in `msg_handlers_` at that moment (those registered before
and those the input executor registered), each once, in ascending order. When
the worker is connected this acknowledgement is the one message sent. -/
theorem on_start_working_ack_spec (h : Host) (w : Worker)
    (hsorted : (w.msg_handlers_.map Prod.fst).Pairwise (· < ·)) :
    (w.on_start_working_ack h).1.err_code =
      (if h.input_executor_create then ErrCode.Success else ErrCode.InputFailed) ∧
    (w.on_start_working_ack h).1.msg_type =
      (w.on_start_working_ack h).2.msg_handlers_.map Prod.fst ∧
    (w.on_start_working_ack h).1.msg_type.Pairwise (· < ·) ∧
    (w.on_start_working_ack h).1.msg_type.Nodup ∧
    (∀ t, t ∈ (w.on_start_working_ack h).1.msg_type ↔
      t ∈ w.msg_handlers_.map Prod.fst ∨ t ∈ h.input_registrations.map Prod.fst) ∧
    (w.on_start_working h).sent =
      (if w.connected_to_service_ then
        w.sent ++ [(h.kStartWorkingAck, Message.StartWorkingAck (w.on_start_working_ack h).1)]
      else w.sent) := by
  have hk := register_input_handlers_keys h.input_registrations
    { w with capturer_calls :=
        w.capturer_calls ++ [CapturerCall.video_start, CapturerCall.audio_start] } hsorted
  obtain ⟨k1, k2⟩ := hk
  simp only at k2
  have hmsg : (w.on_start_working_ack h).1.msg_type =
      (register_input_handlers h.input_registrations
        { w with capturer_calls :=
            w.capturer_calls ++ [CapturerCall.video_start, CapturerCall.audio_start] }
        ).msg_handlers_.map Prod.fst := by
    unfold Worker.on_start_working_ack
    cases hi : h.input_executor_create <;> simp [hi]
  have hhand : (w.on_start_working_ack h).2.msg_handlers_ =
      (register_input_handlers h.input_registrations
        { w with capturer_calls :=
            w.capturer_calls ++ [CapturerCall.video_start, CapturerCall.audio_start] }
        ).msg_handlers_ := by
    unfold Worker.on_start_working_ack
    simp only []
    generalize register_input_handlers h.input_registrations
      { w with capturer_calls :=
          w.capturer_calls ++ [CapturerCall.video_start, CapturerCall.audio_start] } = w1
    cases hi : h.input_executor_create <;> cases hv : w1.video_capturer_ <;>
      cases hu : w1.audio_capturer_ <;> simp [hi, hv, hu]
  refine ⟨?_, ?_, ?_, ?_, ?_, (on_start_working_frame h w).2.2.2⟩
  · unfold Worker.on_start_working_ack
    cases hi : h.input_executor_create <;> simp [hi]
  · rw [hmsg, hhand]
  · rw [hmsg]; exact k1
  · rw [hmsg]; exact k1.imp (fun hlt => Nat.ne_of_lt hlt)
  · intro t; rw [hmsg]; exact k2 t

/-- C13 on the worker that `init` leaves on the sample host, whose input
executor registers the types 20 and 10: the acknowledgement lists 1, 2, 3, 10,
20 and carries `Success`. -/
theorem on_start_working_ack_spec_witness :
    ((((sample_worker [.H264]).init (sample_host [⟨.NvEnc, .H264⟩])).2.msg_handlers_.map
        Prod.fst).Pairwise (· < ·)) ∧
    ((((sample_worker [.H264]).init (sample_host [⟨.NvEnc, .H264⟩])).2.on_start_working_ack
        (sample_host [⟨.NvEnc, .H264⟩])).1.msg_type = [1, 2, 3, 10, 20]) ∧
    ((((sample_worker [.H264]).init (sample_host [⟨.NvEnc, .H264⟩])).2.on_start_working_ack
        (sample_host [⟨.NvEnc, .H264⟩])).1.msg_type.Nodup) :=
  ⟨by decide, by decide,
    (on_start_working_ack_spec (sample_host [⟨.NvEnc, .H264⟩])
      ((sample_worker [.H264]).init (sample_host [⟨.NvEnc, .H264⟩])).2 (by decide)).2.2.2.1⟩

theorem invoke_handler_frame (h : Host) (now : Int) (handler : MessageHandler)
    (msg : Message) (w : Worker) :
    (w.invoke_handler h now handler msg).connected_to_service_ = w.connected_to_service_ ∧
    (w.invoke_handler h now handler msg).negotiated_params_ = w.negotiated_params_ ∧
    ∃ added, (w.invoke_handler h now handler msg).sent = w.sent ++ added ∧
      (w.connected_to_service_ = false → added = []) := by
  cases handler with
  | on_start_working =>
    obtain ⟨a1, a2, _, a4⟩ := on_start_working_frame h
      { w with handler_calls :=
          w.handler_calls ++ [(MessageHandler.on_start_working, msg)] }
    simp only [] at a1 a2 a4
    simp only [Worker.invoke_handler]
    refine ⟨a1, a2, ?_⟩
    rw [a4]
    cases hc : w.connected_to_service_
    · exact ⟨[], by simp, fun _ => rfl⟩
    · exact ⟨_, rfl, fun hf => by simp at hf⟩
  | on_stop_working =>
    exact ⟨rfl, rfl, [], by simp [Worker.invoke_handler, Worker.on_stop_working, Worker.stop],
      fun _ => rfl⟩
  | on_keep_alive =>
    exact ⟨rfl, rfl, [], by simp [Worker.invoke_handler, Worker.on_keep_alive], fun _ => rfl⟩
  | external id =>
    exact ⟨rfl, rfl, [], by simp [Worker.invoke_handler], fun _ => rfl⟩
  | null =>
    exact ⟨rfl, rfl, [], by simp [Worker.invoke_handler], fun _ => rfl⟩

theorem dispatch_service_message_frame (h : Host) (now : Int) (type : Nat) (msg : Message)
    (w : Worker) :
    (w.dispatch_service_message h now type msg).connected_to_service_ =
      w.connected_to_service_ ∧
    (w.dispatch_service_message h now type msg).negotiated_params_ = w.negotiated_params_ ∧
    ∃ added, (w.dispatch_service_message h now type msg).sent = w.sent ++ added ∧
      (w.connected_to_service_ = false → added = []) := by
  cases hf : map_find type w.msg_handlers_ with
  | none =>
    simp only [Worker.dispatch_service_message, hf]
    exact ⟨trivial, trivial, [], by simp, fun _ => rfl⟩
  | some handler =>
    by_cases hn : handler = MessageHandler.null
    · simp only [Worker.dispatch_service_message, hf, hn, if_true]
      exact ⟨trivial, trivial, [], by simp, fun _ => rfl⟩
    · simp only [Worker.dispatch_service_message, hf, hn, if_false]
      exact invoke_handler_frame h now handler msg w

theorem on_event_negotiated_params (h : Host) (w : Worker) (e : PipeEvent) :
    (w.on_event h e).negotiated_params_ = w.negotiated_params_ := by
  cases e with
  | connected =>
    simp only [Worker.on_event, Worker.on_pipe_connected]
    cases hp : w.negotiated_params_ <;> cases hc : w.connected_to_service_ <;>
      simp [hp, hc, Worker.send_pipe_message]
  | disconnected => rfl
  | reconnecting => rfl
  | message type msg now =>
    exact (dispatch_service_message_frame h now type msg w).2.1
  | captured_video_frame frame => exact (send_pipe_message_frame h _ _ w).2.1
  | captured_audio_data audio_data => exact (send_pipe_message_frame h _ _ w).2.1
  | check_timeout now =>
    simp only [Worker.on_event, Worker.check_timeout, Worker.stop]
    split <;> rfl
  | send_message type msg => exact (send_pipe_message_frame h _ _ w).2.1

theorem on_events_negotiated_params (h : Host) (events : List PipeEvent) (w : Worker) :
    (w.on_events h events).negotiated_params_ = w.negotiated_params_ := by
  induction events generalizing w with
  | nil => rfl
  | cons e rest ih =>
    simp only [Worker.on_events, List.foldl_cons]
    exact (ih (w.on_event h e)).trans (on_event_negotiated_params h w e)

theorem on_event_sent_grows (h : Host) (w : Worker) (e : PipeEvent) :
    ∃ added, (w.on_event h e).sent = w.sent ++ added := by
  cases e with
  | connected =>
    simp only [Worker.on_event, Worker.on_pipe_connected]
    cases hp : w.negotiated_params_ <;> cases hc : w.connected_to_service_ <;>
      simp [hp, hc, Worker.send_pipe_message]
  | disconnected => exact ⟨[], by simp [Worker.on_event, Worker.on_pipe_disconnected]⟩
  | reconnecting => exact ⟨[], by simp [Worker.on_event, Worker.on_pipe_reconnecting]⟩
  | message type msg now =>
    obtain ⟨_, _, added, hs, _⟩ := dispatch_service_message_frame h now type msg w
    exact ⟨added, hs⟩
  | captured_video_frame frame =>
    simp only [Worker.on_event, Worker.on_captured_video_frame,
      (send_pipe_message_frame h _ _ w).2.2.2.2]
    split
    · exact ⟨_, rfl⟩
    · exact ⟨[], by simp⟩
  | captured_audio_data audio_data =>
    simp only [Worker.on_event, Worker.on_captured_audio_data,
      (send_pipe_message_frame h _ _ w).2.2.2.2]
    split
    · exact ⟨_, rfl⟩
    · exact ⟨[], by simp⟩
  | check_timeout now =>
    refine ⟨[], ?_⟩
    simp only [Worker.on_event, Worker.check_timeout, Worker.stop, List.append_nil]
    split <;> rfl
  | send_message type msg =>
    simp only [Worker.on_event, (send_pipe_message_frame h _ _ w).2.2.2.2]
    split
    · exact ⟨_, rfl⟩
    · exact ⟨[], by simp⟩

theorem on_events_sent_grows (h : Host) (events : List PipeEvent) (w : Worker) :
    ∃ added, (w.on_events h events).sent = w.sent ++ added := by
  induction events generalizing w with
  | nil => exact ⟨[], by simp [Worker.on_events]⟩
  | cons e rest ih =>
    obtain ⟨a1, h1⟩ := on_event_sent_grows h w e
    obtain ⟨a2, h2⟩ := ih (w.on_event h e)
    refine ⟨a1 ++ a2, ?_⟩
    simp only [Worker.on_events, List.foldl_cons] at h2 ⊢
    rw [h2, h1, List.append_assoc]

theorem on_event_while_disconnected (h : Host) (w : Worker) (e : PipeEvent)
    (he : e ≠ PipeEvent.connected) (hd : w.connected_to_service_ = false) :
    (w.on_event h e).connected_to_service_ = false ∧ (w.on_event h e).sent = w.sent := by
  cases e with
  | connected => exact absurd rfl he
  | disconnected => exact ⟨rfl, rfl⟩
  | reconnecting => exact ⟨rfl, rfl⟩
  | message type msg now =>
    obtain ⟨c, _, added, hs, hnone⟩ := dispatch_service_message_frame h now type msg w
    refine ⟨c.trans hd, ?_⟩
    simp only [Worker.on_event, Worker.on_pipe_message]
    rw [hs, hnone hd, List.append_nil]
  | captured_video_frame frame =>
    simp [Worker.on_event, Worker.on_captured_video_frame, Worker.send_pipe_message, hd]
  | captured_audio_data audio_data =>
    simp [Worker.on_event, Worker.on_captured_audio_data, Worker.send_pipe_message, hd]
  | check_timeout now =>
    simp only [Worker.on_event, Worker.check_timeout, Worker.stop]
    split <;> exact ⟨hd, rfl⟩
  | send_message type msg =>
    simp [Worker.on_event, Worker.send_pipe_message, hd]

theorem on_events_while_disconnected (h : Host) (events : List PipeEvent) (w : Worker)
    (he : PipeEvent.connected ∉ events) (hd : w.connected_to_service_ = false) :
    (w.on_events h events).connected_to_service_ = false ∧
      (w.on_events h events).sent = w.sent := by
  induction events generalizing w with
  | nil => exact ⟨hd, rfl⟩
  | cons e rest ih =>
    simp only [List.mem_cons, not_or] at he
    obtain ⟨c1, s1⟩ := on_event_while_disconnected h w e (fun heq => he.1 heq.symm) hd
    obtain ⟨c2, s2⟩ := ih (w.on_event h e) he.2 c1
    simp only [Worker.on_events, List.foldl_cons] at c2 s2 ⊢
    exact ⟨c2, s2.trans s1⟩

/-- C14. `Worker::on_pipe_connected` marks the worker connected and sends
exactly one pipe message, the negotiated `StreamingParams` under its own type
id. Hence in a sequence of events that starts disconnected, nothing is written
to the pipe before the first connect, and the first message written is the
negotiated parameters. -/
theorem on_pipe_connected_spec (h : Host) (w : Worker) (params : StreamingParams)
    (hparams : w.negotiated_params_ = some params) :
    (w.on_pipe_connected h).connected_to_service_ = true ∧
    (w.on_pipe_connected h).sent =
      w.sent ++ [(h.kStreamingParams, Message.StreamingParams params)] ∧
    ∀ pre post : List PipeEvent,
      w.connected_to_service_ = false → PipeEvent.connected ∉ pre →
      (w.on_events h pre).sent = w.sent ∧
        ((w.on_events h pre).on_pipe_connected h).sent =
          w.sent ++ [(h.kStreamingParams, Message.StreamingParams params)] ∧
        ∃ later, (w.on_events h (pre ++ PipeEvent.connected :: post)).sent =
          w.sent ++ (h.kStreamingParams, Message.StreamingParams params) :: later := by
  have hone : ∀ u : Worker, u.negotiated_params_ = some params →
      (u.on_pipe_connected h).connected_to_service_ = true ∧
      (u.on_pipe_connected h).sent =
        u.sent ++ [(h.kStreamingParams, Message.StreamingParams params)] := by
    intro u hu
    cases hc : u.connected_to_service_ <;>
      simp [Worker.on_pipe_connected, hu, hc, Worker.send_pipe_message, ltproto_id]
  refine ⟨(hone w hparams).1, (hone w hparams).2, ?_⟩
  intro pre post hd hpre
  obtain ⟨_, s1⟩ := on_events_while_disconnected h pre w hpre hd
  have hp1 : (w.on_events h pre).negotiated_params_ = some params :=
    (on_events_negotiated_params h pre w).trans hparams
  have s2 := (hone (w.on_events h pre) hp1).2
  rw [s1] at s2
  refine ⟨s1, s2, ?_⟩
  obtain ⟨later, hl⟩ := on_events_sent_grows h post ((w.on_events h pre).on_pipe_connected h)
  refine ⟨later, ?_⟩
  have hsplit : w.on_events h (pre ++ PipeEvent.connected :: post) =
      ((w.on_events h pre).on_pipe_connected h).on_events h post := by
    simp [Worker.on_events, List.foldl_append, Worker.on_event]
  rw [hsplit, hl, s2]
  simp

/-- C14 on the worker that `init` leaves on the sample host: a frame captured
before the connect is not written, the connect writes the parameters, the
`StartWorking` that follows is acknowledged after them. -/
theorem on_pipe_connected_spec_witness :
    (((sample_worker [.H264]).init (sample_host [⟨.NvEnc, .H264⟩])).2.on_events
        (sample_host [⟨.NvEnc, .H264⟩])
        [.captured_video_frame (.CaptureVideoFrame {}), .connected,
          .message 1 .StartWorking 5]).sent.map Prod.fst = [4, 5] ∧
    (((sample_worker [.H264]).init (sample_host [⟨.NvEnc, .H264⟩])).2.on_pipe_connected
        (sample_host [⟨.NvEnc, .H264⟩])).sent.map Prod.fst = [4] :=
  ⟨by decide,
    (congrArg (List.map Prod.fst)
      (on_pipe_connected_spec (sample_host [⟨.NvEnc, .H264⟩])
        ((sample_worker [.H264]).init (sample_host [⟨.NvEnc, .H264⟩])).2
        { audio_channels := 2, audio_sample_rate := 48000,
          video_capture_backend := PbVideoCaptureBackend.Dxgi, luid := 1,
          screen_refresh_rate := 60, video_width := 1920, video_height := 1080,
          video_codecs := [⟨.NvEnc, .AVC⟩] } (by decide)).2.1).trans (by decide)⟩

end lt

/-! ## Worker options: theorems -/

namespace lt

theorem create_codecs_loop_eq (tokens : List String) (codecs : List VideoCodecType) :
    create_codecs_loop tokens codecs = codecs ++ tokens.filterMap codec_of_token := by
  induction tokens generalizing codecs with
  | nil => simp [create_codecs_loop]
  | cons token rest ih =>
    by_cases h1 : token = "avc"
    · simp [create_codecs_loop, codec_of_token, h1, ih]
    · by_cases h2 : token = "hevc"
      · simp [create_codecs_loop, codec_of_token, h2, ih]
      · simp [create_codecs_loop, codec_of_token, h1, h2, ih]

theorem filterMap_codec_of_token_nil (tokens : List String) :
    tokens.filterMap codec_of_token = [] ↔
      ∀ token ∈ tokens, token ≠ "avc" ∧ token ≠ "hevc" := by
  induction tokens with
  | nil => simp
  | cons token rest ih =>
    by_cases h1 : token = "avc"
    · simp [codec_of_token, h1]
    · by_cases h2 : token = "hevc"
      · simp [codec_of_token, h2]
      · simp [List.filterMap_cons, codec_of_token, h1, h2, ih]

theorem digitChar_isDigit (k : Nat) (hk : k < 10) :
    (Nat.digitChar k).isDigit = true ∧ (Nat.digitChar k).toNat - 48 = k ∧
      isspace (Nat.digitChar k) = false ∧ Nat.digitChar k ≠ '-' ∧ Nat.digitChar k ≠ '+' := by
  have : k = 0 ∨ k = 1 ∨ k = 2 ∨ k = 3 ∨ k = 4 ∨ k = 5 ∨ k = 6 ∨ k = 7 ∨ k = 8 ∨ k = 9 := by
    omega
  rcases this with rfl | rfl | rfl | rfl | rfl | rfl | rfl | rfl | rfl | rfl <;> decide

theorem atoi_digits_toDigitsCore (fuel : Nat) : ∀ (n acc : Nat) (ds : List Char),
    n < fuel →
    ∃ p, atoi_digits acc (Nat.toDigitsCore 10 fuel n ds) = atoi_digits (acc * 10 ^ p + n) ds := by
  induction fuel with
  | zero => intro n acc ds h; omega
  | succ fuel ih =>
    intro n acc ds h
    have hd := digitChar_isDigit (n % 10) (Nat.mod_lt n (by decide))
    by_cases h0 : n / 10 = 0
    · refine ⟨1, ?_⟩
      simp only [Nat.toDigitsCore, h0, if_true, atoi_digits, hd.1, hd.2.1, pow_one]
      congr 1
      omega
    · obtain ⟨p, hp⟩ := ih (n / 10) acc (Nat.digitChar (n % 10) :: ds) (by omega)
      refine ⟨p + 1, ?_⟩
      simp only [Nat.toDigitsCore, h0, if_false]
      rw [hp]
      simp only [atoi_digits, hd.1, hd.2.1, if_true]
      congr 1
      rw [pow_succ]
      nlinarith [Nat.div_add_mod n 10]

theorem toDigitsCore_head (fuel : Nat) : ∀ (n : Nat) (ds : List Char), n < fuel →
    ∃ k tl, k < 10 ∧ Nat.toDigitsCore 10 fuel n ds = Nat.digitChar k :: tl := by
  induction fuel with
  | zero => intro n ds h; omega
  | succ fuel ih =>
    intro n ds h
    by_cases h0 : n / 10 = 0
    · exact ⟨n % 10, ds, Nat.mod_lt n (by decide), by simp [Nat.toDigitsCore, h0]⟩
    · obtain ⟨k, tl, hk, e⟩ := ih (n / 10) (Nat.digitChar (n % 10) :: ds) (by omega)
      exact ⟨k, tl, hk, by simp only [Nat.toDigitsCore, h0, if_false]; exact e⟩

theorem atoi_digits_repr (n : Nat) : atoi_digits 0 (Nat.repr n).toList = n := by
  obtain ⟨p, hp⟩ := atoi_digits_toDigitsCore (n + 1) n 0 [] (by omega)
  simpa [Nat.repr, Nat.toDigits, List.asString, atoi_digits] using hp

theorem atoi_value_repr (n : Nat) : atoi_value (Nat.repr n) = n := by
  obtain ⟨k, tl, hk, e⟩ := toDigitsCore_head (n + 1) n [] (by omega)
  have hd := digitChar_isDigit k hk
  have hl : (Nat.repr n).toList = Nat.digitChar k :: tl := by
    simpa [Nat.repr, Nat.toDigits, List.asString] using e
  have hv := atoi_digits_repr n
  unfold atoi_value
  rw [hl] at hv ⊢
  rw [List.dropWhile_cons_of_neg (by simp [hd.2.2.1])]
  split
  · rename_i rest heq
    exact absurd (List.cons.inj heq).1 hd.2.2.2.1
  · rename_i rest heq
    exact absurd (List.cons.inj heq).1 hd.2.2.2.2
  · exact_mod_cast hv

/-- The number that `atoi` reads in the decimal writing of an integer is that
integer. -/
theorem atoi_value_toString (N : Int) : atoi_value (toString N) = N := by
  cases N with
  | ofNat n => exact atoi_value_repr n
  | negSucc n =>
    have hv := atoi_digits_repr (n + 1)
    show atoi_value ("-" ++ Nat.repr (n + 1)) = _
    unfold atoi_value
    have hl : ("-" ++ Nat.repr (n + 1)).toList = '-' :: (Nat.repr (n + 1)).toList := by
      simp
    rw [hl, List.dropWhile_cons_of_neg (by decide)]
    simp only [hv]
    rfl

/-- The result of `atoi` is an `int`. -/
theorem atoi_bounds (s : String) : INT_MIN ≤ atoi s ∧ atoi s ≤ INT_MAX := by
  unfold atoi INT_MIN INT_MAX
  generalize max LONG_MIN (min LONG_MAX (atoi_value s)) = l
  simp only []
  split <;> omega

/-- Where the number read fits an `int`, `atoi` returns it. -/
theorem atoi_eq_value (s : String) (h1 : INT_MIN ≤ atoi_value s)
    (h2 : atoi_value s ≤ INT_MAX) : atoi s = atoi_value s := by
  unfold INT_MIN at h1
  unfold INT_MAX at h2
  unfold atoi LONG_MIN LONG_MAX
  rw [min_eq_right (by omega), max_eq_right (by omega)]
  simp only []
  split <;> omega

/-- C15. `Worker::create` returns no worker when one of `-width`, `-height`,
`-freq`, `-codecs`, `-name` is missing, when `-name` is empty, when the integer
value of `-width`, `-height` or `-freq` is not positive, or when no token of
`-codecs` is `avc` or `hevc`. Otherwise the worker is constructed with that
name, those three values and the recognised tokens in their order (`avc` as
H264, `hevc` as H265, other tokens skipped), and `create` returns it when
`init` succeeds. The integer value of an option is the number written in it,
for every number that fits the 32-bit `int` the code stores it in (beyond that
C leaves `atoi` undefined); whatever the three options hold, an empty name or a
codec list without `avc` and `hevc` gives no worker, and the width, height and
refresh rate of a worker that is constructed are positive `int` values. The
number written in the decimal form of an integer is that integer. -/
theorem create_spec (h : Host) (now : Int) (options : Options) :
    (match options.lookup "-width", options.lookup "-height", options.lookup "-freq",
      options.lookup "-codecs", options.lookup "-name" with
    | some width, some height, some freq, some codecs, some name =>
      ((name = "" ∨
          (∀ token ∈ getline_tokens [] codecs.toList, token ≠ "avc" ∧ token ≠ "hevc")) →
        Worker.create_params options = none ∧ Worker.create h now options = none) ∧
      ((INT_MIN ≤ atoi_value width ∧ atoi_value width ≤ INT_MAX) →
        (INT_MIN ≤ atoi_value height ∧ atoi_value height ≤ INT_MAX) →
        (INT_MIN ≤ atoi_value freq ∧ atoi_value freq ≤ INT_MAX) →
        if name = "" ∨ atoi_value width ≤ 0 ∨ atoi_value height ≤ 0 ∨ atoi_value freq ≤ 0 ∨
            (∀ token ∈ getline_tokens [] codecs.toList, token ≠ "avc" ∧ token ≠ "hevc") then
          Worker.create_params options = none ∧ Worker.create h now options = none
        else
          Worker.create_params options =
            some ⟨name, (atoi_value width).toNat, (atoi_value height).toNat,
              (atoi_value freq).toNat,
              (getline_tokens [] codecs.toList).filterMap codec_of_token⟩ ∧
          ((atoi_value width).toNat : Int) = atoi_value width ∧
          ((atoi_value height).toNat : Int) = atoi_value height ∧
          ((atoi_value freq).toNat : Int) = atoi_value freq ∧
          Worker.create h now options =
            (if ((Worker.new ⟨name, (atoi_value width).toNat, (atoi_value height).toNat,
                (atoi_value freq).toNat,
                (getline_tokens [] codecs.toList).filterMap codec_of_token⟩ now).init h).1 then
              some ((Worker.new ⟨name, (atoi_value width).toNat, (atoi_value height).toNat,
                (atoi_value freq).toNat,
                (getline_tokens [] codecs.toList).filterMap codec_of_token⟩ now).init h).2
            else none))
    | _, _, _, _, _ =>
      Worker.create_params options = none ∧ Worker.create h now options = none) ∧
    (∀ params, Worker.create_params options = some params →
      params.name ≠ "" ∧ params.codecs ≠ [] ∧
      0 < params.width ∧ (params.width : Int) ≤ INT_MAX ∧
      0 < params.height ∧ (params.height : Int) ≤ INT_MAX ∧
      0 < params.refresh_rate ∧ (params.refresh_rate : Int) ≤ INT_MAX) ∧
    (∀ N : Int, atoi_value (toString N) = N) := by
  have hnone : Worker.create_params options = none → Worker.create h now options = none := by
    intro hp; simp [Worker.create, hp]
  refine ⟨?_, ?_, atoi_value_toString⟩
  · split
    · rename_i width height freq codecs name hw hh hf hc hn
      have hempty : name.isEmpty = true ↔ name = "" := by
        simp [String.isEmpty_iff]
      have hcodecs := filterMap_codec_of_token_nil (getline_tokens [] codecs.toList)
      have hbadnone : (name = "" ∨ atoi width ≤ 0 ∨ atoi height ≤ 0 ∨ atoi freq ≤ 0 ∨
          (∀ token ∈ getline_tokens [] codecs.toList, token ≠ "avc" ∧ token ≠ "hevc")) →
          Worker.create_params options = none := by
        intro hbad
        simp only [Worker.create_params, hw, hh, hf, hc, hn, create_codecs_loop_eq]
        simp only [Option.getD_some, List.nil_append, List.isEmpty_iff, hcodecs, hempty]
        rcases hbad with hb | hb | hb | hb | hb
        · simp [hb]
        · simp [hb]
        · simp [hb]
        · simp [hb]
        · rw [if_pos hb]
          simp
      refine ⟨?_, ?_⟩
      · intro hbad
        have hp : Worker.create_params options = none := by
          rcases hbad with hb | hb
          · exact hbadnone (Or.inl hb)
          · exact hbadnone (Or.inr (Or.inr (Or.inr (Or.inr hb))))
        exact ⟨hp, hnone hp⟩
      · intro rw_ rh_ rf_
        have ew := atoi_eq_value width rw_.1 rw_.2
        have eh := atoi_eq_value height rh_.1 rh_.2
        have ef := atoi_eq_value freq rf_.1 rf_.2
        split
        · rename_i hbad
          have hp : Worker.create_params options = none := by
            apply hbadnone
            rw [ew, eh, ef]
            exact hbad
          exact ⟨hp, hnone hp⟩
        · rename_i hgood
          simp only [not_or] at hgood
          obtain ⟨g1, g2, g3, g4, g5⟩ := hgood
          have hp : Worker.create_params options =
              some ⟨name, (atoi_value width).toNat, (atoi_value height).toNat,
                (atoi_value freq).toNat,
                (getline_tokens [] codecs.toList).filterMap codec_of_token⟩ := by
            simp only [Worker.create_params, hw, hh, hf, hc, hn, create_codecs_loop_eq]
            simp only [Option.getD_some, List.nil_append, List.isEmpty_iff, hcodecs, hempty]
            simp only [reduceCtorEq, or_self, if_false, ew, eh, ef]
            rw [if_neg g1, if_neg g2, if_neg g3, if_neg g4, if_neg g5]
          refine ⟨hp, ?_, ?_, ?_, ?_⟩
          · exact Int.toNat_of_nonneg (by omega)
          · exact Int.toNat_of_nonneg (by omega)
          · exact Int.toNat_of_nonneg (by omega)
          · simp only [Worker.create, hp]
            split <;> simp_all
    · rename_i hmiss
      have hp : Worker.create_params options = none := by
        unfold Worker.create_params
        rw [if_pos]
        by_contra hall
        simp only [not_or] at hall
        obtain ⟨a1, a2, a3, a4, a5⟩ := hall
        obtain ⟨w, hw⟩ := Option.ne_none_iff_exists'.1 a1
        obtain ⟨hh, hhh⟩ := Option.ne_none_iff_exists'.1 a2
        obtain ⟨f, hf⟩ := Option.ne_none_iff_exists'.1 a3
        obtain ⟨c, hc⟩ := Option.ne_none_iff_exists'.1 a4
        obtain ⟨n, hn⟩ := Option.ne_none_iff_exists'.1 a5
        exact hmiss w hh f c n hw hhh hf hc hn
      exact ⟨hp, hnone hp⟩
  · intro params hparams
    unfold Worker.create_params at hparams
    split at hparams
    · cases hparams
    · simp only [] at hparams
      have bw := atoi_bounds ((options.lookup "-width").getD "")
      have bh := atoi_bounds ((options.lookup "-height").getD "")
      have bf := atoi_bounds ((options.lookup "-freq").getD "")
      split at hparams
      · cases hparams
      · rename_i hname
        split at hparams
        · cases hparams
        · rename_i hwpos
          split at hparams
          · cases hparams
          · rename_i hhpos
            split at hparams
            · cases hparams
            · rename_i hfpos
              split at hparams
              · cases hparams
              · rename_i hcod
                cases hparams
                refine ⟨?_, ?_, ?_, ?_, ?_, ?_, ?_, ?_⟩
                · intro he
                  apply hname
                  simp only [] at he
                  rw [he]
                  rfl
                · intro he
                  apply hcod
                  simp only [] at he
                  rw [he]
                  rfl
                · simp only []; omega
                · simp only []; omega
                · simp only []; omega
                · simp only []; omega
                · simp only []; omega
                · simp only []; omega

/-- C15 on the options `-name lanthing -width 1920 -height 1080 -freq 60
-codecs hevc,vp9,avc`: the three numbers fit an `int`, and the worker is
constructed with that name, 1920, 1080, 60 and the codecs H265, H264. -/
theorem create_spec_witness :
    (INT_MIN ≤ atoi_value "1920" ∧ atoi_value "1920" ≤ INT_MAX) ∧
    (INT_MIN ≤ atoi_value "1080" ∧ atoi_value "1080" ≤ INT_MAX) ∧
    (INT_MIN ≤ atoi_value "60" ∧ atoi_value "60" ≤ INT_MAX) ∧
    atoi_value "1920" = 1920 ∧ atoi_value "1080" = 1080 ∧ atoi_value "60" = 60 ∧
    Worker.create_params sample_options =
      some ⟨"lanthing", 1920, 1080, 60, [.H265, .H264]⟩ :=
  ⟨by decide, by decide, by decide, by decide, by decide, by decide,
    ((create_spec (sample_host []) 0 sample_options).1.2
      ⟨by decide, by decide⟩ ⟨by decide, by decide⟩ ⟨by decide, by decide⟩).1⟩

/-- The values of `atoi`: white space, sign and trailing characters; no
digits; and numbers beyond `int`, for which the low 32 bits of the number
saturated to 64 bits are kept. -/
theorem atoi_samples :
    atoi " -12abc" = -12 ∧ atoi "+7" = 7 ∧ atoi "abc" = 0 ∧ atoi "" = 0 ∧
    atoi "\t 42 7" = 42 ∧ atoi "- 5" = 0 ∧
    atoi "2147483647" = 2147483647 ∧ atoi "-2147483648" = -2147483648 ∧
    atoi "2147483648" = -2147483648 ∧ atoi "4294967297" = 1 ∧
    atoi "-2147483649" = 2147483647 ∧ atoi "99999999999999999999" = -1 ∧
    atoi "-99999999999999999999" = 0 := by
  decide

/-- The option sets of a worker started with `hevc,vp9,avc`, without a name,
with width 0 and with no known codec. -/
theorem create_params_samples :
    Worker.create_params sample_options =
      some ⟨"lanthing", 1920, 1080, 60, [.H265, .H264]⟩ ∧
    Worker.create_params (sample_options.filter fun o => o.1 != "-name") = none ∧
    Worker.create_params (("-width", "0") :: sample_options) = none ∧
    Worker.create_params (("-codecs", "vp9,av1") :: sample_options) = none := by
  decide

/-- C16, counterexample: for the pipe name `worker` the endpoint the pipe
client is created with begins `\\?\pipe\` (third character 63, a question
mark), not `\\.\pipe\` (third character 46, a dot). -/
theorem init_pipe_client_not_dot_endpoint :
    ((sample_worker [.H264]).init_pipe_client (sample_host [])).2.pipe_client_ =
      some ("\\\\?\\pipe\\" ++ "worker") ∧
    ((sample_worker [.H264]).init_pipe_client (sample_host [])).2.pipe_client_ ≠
      some ("\\\\.\\pipe\\" ++ "worker") ∧
    ((sample_worker [.H264]).init_pipe_client (sample_host [])).2.pipe_client_.map
        (fun s => (s.toList.take 9).map Char.toNat) =
      some [92, 92, 63, 92, 112, 105, 112, 101, 92] ∧
    ("\\\\.\\pipe\\".toList.map Char.toNat) = [92, 92, 46, 92, 112, 105, 112, 101, 92] := by
  decide

/-- C16, amended. For every pipe name, `Worker::init_pipe_client` creates the
pipe client for the endpoint made of the prefix `\\?\pipe\` (backslash,
backslash, question mark, backslash, `pipe`, backslash) followed by the name,
and returns whether the client was created. -/
theorem init_pipe_client_endpoint (h : Host) (w : Worker) :
    (w.init_pipe_client h).2.pipe_client_ =
      (if h.pipe_client_create then some ("\\\\?\\pipe\\" ++ w.pipe_name_) else none) ∧
    (w.init_pipe_client h).1 = h.pipe_client_create ∧
    ("\\\\?\\pipe\\".toList.map Char.toNat) = [92, 92, 63, 92, 112, 105, 112, 101, 92] ∧
    { (w.init_pipe_client h).2 with pipe_client_ := w.pipe_client_ } = w := by
  refine ⟨rfl, ?_, by decide, rfl⟩
  cases hc : h.pipe_client_create <;> simp [Worker.init_pipe_client, hc]

/-- C17, counterexample: with `-flushlog 0` the value is 30, where clamping 0
to [1, 100] gives 1. -/
theorem flush_log_lines_zero_not_clamped :
    atoi "0" = 0 ∧
    getLtFlushLogLines (setFlushLogLines [("-flushlog", "0")]) = 30 ∧
    getLtFlushLogLines (setFlushLogLines [("-flushlog", "0")]) ≠ max 1 (min 100 (atoi "0")) := by
  decide

/-- C17, amended. After `setFlushLogLines(options)`, `getLtFlushLogLines()`
returns 30 when `-flushlog` is absent or its integer value N is not positive,
and otherwise N clamped to [1, 100], that is `max 1 (min 100 N)`: N itself up
to 100 and 100 above. This holds for every N that fits the 32-bit `int` the code
stores it in (beyond that C leaves `atoi` undefined), in particular for every
such N written in decimal; and whatever the option holds the value returned
lies in [1, 100]. -/
theorem flush_log_lines_spec (options : Options) :
    (1 ≤ getLtFlushLogLines (setFlushLogLines options) ∧
      getLtFlushLogLines (setFlushLogLines options) ≤ 100) ∧
    (match options.lookup "-flushlog" with
      | none => getLtFlushLogLines (setFlushLogLines options) = 30
      | some value =>
        INT_MIN ≤ atoi_value value → atoi_value value ≤ INT_MAX →
          getLtFlushLogLines (setFlushLogLines options) =
            if atoi_value value ≤ 0 then 30 else max 1 (min 100 (atoi_value value))) ∧
    (∀ N : Int, INT_MIN ≤ N → N ≤ INT_MAX →
      options.lookup "-flushlog" = some (toString N) →
        getLtFlushLogLines (setFlushLogLines options) =
          if N ≤ 0 then 30 else max 1 (min 100 N)) := by
  have key : ∀ value, options.lookup "-flushlog" = some value →
      INT_MIN ≤ atoi_value value → atoi_value value ≤ INT_MAX →
        getLtFlushLogLines (setFlushLogLines options) =
          if atoi_value value ≤ 0 then 30 else max 1 (min 100 (atoi_value value)) := by
    intro value hv h1 h2
    have e := atoi_eq_value value h1 h2
    unfold setFlushLogLines getLtFlushLogLines
    rw [hv]
    simp only [e]
    by_cases h0 : atoi_value value ≤ 0
    · simp [h0]
    · by_cases h100 : atoi_value value > 100
      · simp only [h0, h100, if_false, if_true, Option.getD_some]
        rw [min_eq_left (by omega), max_eq_right (by omega)]
      · simp only [h0, h100, if_false, Option.getD_some]
        rw [min_eq_right (by omega), max_eq_right (by omega)]
  refine ⟨?_, ?_, ?_⟩
  · unfold setFlushLogLines getLtFlushLogLines
    cases options.lookup "-flushlog" with
    | none => simp
    | some value =>
      simp only []
      by_cases h0 : atoi value ≤ 0
      · simp [h0]
      · by_cases h100 : atoi value > 100
        · simp [h0, h100]
        · simp only [h0, h100, if_false, Option.getD_some]
          omega
  · cases hv : options.lookup "-flushlog" with
    | none => simp [setFlushLogLines, getLtFlushLogLines, hv]
    | some value =>
      simp only []
      intro h1 h2
      exact key value hv h1 h2
  · intro N h1 h2 hv
    have e := atoi_value_toString N
    have := key (toString N) hv (by rw [e]; exact h1) (by rw [e]; exact h2)
    rw [e] at this
    exact this

/-- C17, amended, on `-flushlog 250`, `-flushlog 42` and `-flushlog -5`: the
values returned are 100, 42 and 30. -/
theorem flush_log_lines_spec_witness :
    (INT_MIN ≤ (250 : Int) ∧ (250 : Int) ≤ INT_MAX) ∧
    getLtFlushLogLines (setFlushLogLines [("-flushlog", "250")]) = 100 ∧
    getLtFlushLogLines (setFlushLogLines [("-flushlog", "42")]) = 42 ∧
    getLtFlushLogLines (setFlushLogLines [("-flushlog", "-5")]) = 30 :=
  ⟨by decide,
    ((flush_log_lines_spec [("-flushlog", "250")]).2.2 250 (by decide) (by decide)
      (by decide)).trans (by decide),
    ((flush_log_lines_spec [("-flushlog", "42")]).2.2 42 (by decide) (by decide)
      (by decide)).trans (by decide),
    ((flush_log_lines_spec [("-flushlog", "-5")]).2.2 (-5) (by decide) (by decide)
      (by decide)).trans (by decide)⟩

/-- The values for `-flushlog 250`, `-flushlog 42`, `-flushlog abc` and no
option. -/
theorem flush_log_lines_samples :
    getLtFlushLogLines (setFlushLogLines [("-flushlog", "250")]) = 100 ∧
    getLtFlushLogLines (setFlushLogLines [("-flushlog", "42")]) = 42 ∧
    getLtFlushLogLines (setFlushLogLines [("-flushlog", "abc")]) = 30 ∧
    getLtFlushLogLines (setFlushLogLines []) = 30 ∧
    getLtFlushLogLines none = 30 := by
  decide

/-! ## Exit codes: theorems -/

/-- C18, counterexample: when `App::create` fails `main` returns -1, not 1; and
the service role on a platform other than Windows returns 1, not a negative
code. -/
theorem main_exit_code_not_uniform :
    (main ⟨true, false, false⟩ sample_launch ["lanthing"]).2 = some (-1) ∧
    (main ⟨true, false, false⟩ sample_launch ["lanthing", "-type", "app"]).2 = some (-1) ∧
    (main ⟨false, true, false⟩ sample_launch ["lanthing", "-type", "service"]).2 = some 1 ∧
    (main ⟨true, false, false⟩ sample_launch ["lanthing", "-type", "worker"]).2 = some 7 := by
  decide

/-- C18, amended. The exit code of `main` is 1 when `Client::create` fails and
when `Service::init` fails (Windows build that does not run as a service); when
`Worker::create` fails it is the exit code `Worker::create` reports; it is -1
when the worker role is unavailable on the platform. -/
theorem main_exit_codes (pf : Platform) (l : Launch) (argv : List String) :
    ((parseOptions argv).lookup "-type" = some "client" → l.Client_create = false →
      (main pf l argv).2 = some 1) ∧
    ((parseOptions argv).lookup "-type" = some "service" → pf.LT_WINDOWS = true →
      pf.LT_RUN_AS_SERVICE = false → l.makeSingletonProcess "lanthing" = true →
      l.Service_init = false → (main pf l argv).2 = some 1) ∧
    ((parseOptions argv).lookup "-type" = some "worker" →
      (pf.LT_WINDOWS = true ∨ pf.LT_LINUX = true) → l.Worker_create.1 = false →
      (main pf l argv).2 = some l.Worker_create.2) ∧
    ((parseOptions argv).lookup "-type" = some "worker" → pf.LT_WINDOWS = false →
      pf.LT_LINUX = false → (main pf l argv).2 = some (-1)) := by
  refine ⟨?_, ?_, ?_, ?_⟩
  · intro ht hc
    simp [main, ht, runAsClient, hc]
  · intro ht hw hs hsingle hinit
    simp [main, ht, runAsService, hw, hs, hsingle, hinit]
  · intro ht hp hc
    rcases hp with hp | hp <;> simp [main, ht, runAsWorker, hp, hc]
  · intro ht hw hl
    simp [main, ht, runAsWorker, hw, hl]

/-- C18, amended, on a start in which nothing can be created: client and
service end with 1, the worker with the code `Worker::create` reported, the
worker on a platform without it with -1. -/
theorem main_exit_codes_witness :
    (main ⟨true, false, false⟩ sample_launch ["lanthing", "-type", "client"]).2 = some 1 ∧
    (main ⟨true, false, false⟩ sample_launch ["lanthing", "-type", "service"]).2 = some 1 ∧
    (main ⟨false, true, false⟩ sample_launch ["lanthing", "-type", "worker"]).2 = some 7 ∧
    (main ⟨false, false, false⟩ sample_launch ["lanthing", "-type", "worker"]).2 = some (-1) :=
  ⟨(main_exit_codes ⟨true, false, false⟩ sample_launch
      ["lanthing", "-type", "client"]).1 (by decide) rfl,
    (main_exit_codes ⟨true, false, false⟩ sample_launch
      ["lanthing", "-type", "service"]).2.1 (by decide) rfl rfl rfl rfl,
    (main_exit_codes ⟨false, true, false⟩ sample_launch
      ["lanthing", "-type", "worker"]).2.2.1 (by decide) (Or.inr rfl) rfl,
    (main_exit_codes ⟨false, false, false⟩ sample_launch
      ["lanthing", "-type", "worker"]).2.2.2 (by decide) rfl rfl⟩

/-! ## Display fallback and frame counter: theorems -/

/-- C19, the code at the failing input: when the display negotiator answers
0x0@0, `Worker::init` logs the fallback to 1920x1080 at refresh rate 60, sets
width 1920 and height 1080 and leaves the refresh rate at 0; the negotiated
parameters carry refresh rate 0. -/
theorem init_fallback_keeps_refresh_rate :
    ((sample_worker [.H264]).init (sample_host_no_display [⟨.NvEnc, .H264⟩])).1 = true ∧
    ((sample_worker [.H264]).init
        (sample_host_no_display [⟨.NvEnc, .H264⟩])).2.negotiated_display_setting_ =
      ⟨1920, 1080, 0⟩ ∧
    (LogLevel.WARNING,
        "Negotiate display setting failed, fallback to default(width:1920, height:1080, refresh_rate:60)")
      ∈ ((sample_worker [.H264]).init (sample_host_no_display [⟨.NvEnc, .H264⟩])).2.log ∧
    ((sample_worker [.H264]).init
        (sample_host_no_display [⟨.NvEnc, .H264⟩])).2.negotiated_params_.map
        (fun p => (p.video_width, p.video_height, p.screen_refresh_rate)) =
      some (1920, 1080, 0) := by
  decide

theorem main_loop_rounds_frame_state (range : Nat) (tick : Tick) (rest : List Tick)
    (v : VideoCapturer) (frame : CaptureVideoFrame)
    (hs : v.stoped_ = false) (hf : tick.frame = some frame) :
    ∃ u : VideoCapturer, u.frame_no_ = (v.frame_no_ + 1) % range ∧
      main_loop_rounds range (tick :: rest) v =
        ((main_loop_rounds range rest u).1,
          { frame with picture_id := v.frame_no_ } :: (main_loop_rounds range rest u).2) := by
  refine ⟨VideoCapturer.mk tick.stop_requested ((v.frame_no_ + 1) % range)
    v.stop_promise_set v.stop_promise_waits (v.alive_calls + 1) (v.vblank_waits + 1), rfl, ?_⟩
  cases hreq : tick.stop_requested <;> simp [main_loop_rounds, hs, hf, hreq]

theorem main_loop_rounds_no_frame_state (range : Nat) (tick : Tick) (rest : List Tick)
    (v : VideoCapturer) (hs : v.stoped_ = false) (hf : tick.frame = none) :
    ∃ u : VideoCapturer, u.frame_no_ = v.frame_no_ ∧
      main_loop_rounds range (tick :: rest) v = main_loop_rounds range rest u := by
  refine ⟨VideoCapturer.mk tick.stop_requested v.frame_no_
    v.stop_promise_set v.stop_promise_waits (v.alive_calls + 1) (v.vblank_waits + 1), rfl, ?_⟩
  cases hreq : tick.stop_requested <;> simp [main_loop_rounds, hs, hf, hreq]

theorem main_loop_rounds_counter (range : Nat) (ticks : List Tick) (v : VideoCapturer)
    (hk : v.frame_no_ + (main_loop_rounds range ticks v).2.length < range) :
    (main_loop_rounds range ticks v).1.frame_no_ =
      v.frame_no_ + (main_loop_rounds range ticks v).2.length := by
  induction ticks generalizing v with
  | nil =>
    by_cases hs : v.stoped_ = true <;> simp [main_loop_rounds, hs]
  | cons tick rest ih =>
    by_cases hs : v.stoped_ = true
    · cases rest <;> simp [main_loop_rounds, hs]
    · have hs2 : v.stoped_ = false := by simpa using hs
      cases hf : tick.frame with
      | none =>
        obtain ⟨u, hu, heq⟩ := main_loop_rounds_no_frame_state range tick rest v hs2 hf
        rw [heq] at hk ⊢
        rw [← hu] at hk ⊢
        exact ih u hk
      | some frame =>
        obtain ⟨u, hu, heq⟩ := main_loop_rounds_frame_state range tick rest v frame hs2 hf
        rw [heq] at hk ⊢
        simp only [List.length_cons] at hk ⊢
        have hmod : (v.frame_no_ + 1) % range = v.frame_no_ + 1 :=
          Nat.mod_eq_of_lt (by omega)
        rw [hmod] at hu
        have := ih u (by omega)
        omega

/-- C20, counterexample: the first frame emitted from counter 0 carries
`picture_id` 0, the value before the increment, not 1; the counter is left
at 1. -/
theorem main_loop_first_picture_id_zero :
    (({ stoped_ := true, frame_no_ := 0 } : VideoCapturer).main_loop (2 ^ 32)
        [⟨some {}, false⟩]).2.map (fun f => f.picture_id) = [0] ∧
    (({ stoped_ := true, frame_no_ := 0 } : VideoCapturer).main_loop (2 ^ 32)
        [⟨some {}, false⟩]).2.map (fun f => f.picture_id) ≠ [0 + 1] ∧
    (({ stoped_ := true, frame_no_ := 0 } : VideoCapturer).main_loop (2 ^ 32)
        [⟨some {}, false⟩]).1.frame_no_ = 1 := by
  decide

/-- C20, amended. Each frame emitted by `VideoCapturer::main_loop` carries
`picture_id` equal to the frame counter's value before it is incremented for
that frame (`picture_id = counter++`): in a run that stays below the counter's
range, the frames emitted from counter value c carry c, c + 1, c + 2, ... and
the counter is left at c plus the number of frames emitted; a single frame
emitted when the counter holds c carries `picture_id` c and leaves the counter
at c + 1, reduced modulo the range. -/
theorem main_loop_picture_id_is_counter (range : Nat) (ticks : List Tick) (v : VideoCapturer)
    (hk : v.frame_no_ + (v.main_loop range ticks).2.length < range) :
    (v.main_loop range ticks).2.map (fun f => f.picture_id) =
      List.range' v.frame_no_ (v.main_loop range ticks).2.length ∧
    (v.main_loop range ticks).1.frame_no_ =
      v.frame_no_ + (v.main_loop range ticks).2.length ∧
    ∀ (frame : CaptureVideoFrame) (stop_requested : Bool),
      (v.main_loop range [⟨some frame, stop_requested⟩]).2 =
          [{ frame with picture_id := v.frame_no_ }] ∧
        (v.main_loop range [⟨some frame, stop_requested⟩]).1.frame_no_ =
          (v.frame_no_ + 1) % range := by
  refine ⟨?_, ?_, ?_⟩
  · exact main_loop_rounds_ids range ticks { v with stoped_ := false } (Nat.le_of_lt hk)
  · exact main_loop_rounds_counter range ticks { v with stoped_ := false } hk
  · intro frame stop_requested
    cases stop_requested <;> simp [VideoCapturer.main_loop, main_loop_rounds]

/-- C20, amended, on a run from counter 5: captures succeed, fail, succeed; the
frames carry 5 and 6 and the counter is left at 7. -/
theorem main_loop_picture_id_is_counter_witness :
    (({ stoped_ := true, frame_no_ := 5 } : VideoCapturer).main_loop (2 ^ 32)
        [⟨some {}, false⟩, ⟨none, false⟩, ⟨some {}, true⟩]).2.map (fun f => f.picture_id)
      = [5, 6] ∧
    (({ stoped_ := true, frame_no_ := 5 } : VideoCapturer).main_loop (2 ^ 32)
        [⟨some {}, false⟩, ⟨none, false⟩, ⟨some {}, true⟩]).1.frame_no_ = 7 :=
  ⟨(main_loop_picture_id_is_counter (2 ^ 32)
      [⟨some {}, false⟩, ⟨none, false⟩, ⟨some {}, true⟩]
      { stoped_ := true, frame_no_ := 5 } (by decide)).1.trans (by decide),
    (main_loop_picture_id_is_counter (2 ^ 32)
      [⟨some {}, false⟩, ⟨none, false⟩, ⟨some {}, true⟩]
      { stoped_ := true, frame_no_ := 5 } (by decide)).2.1.trans (by decide)⟩

end lt

/-! ## The DXGI capture loop: theorems -/

namespace lt

theorem isEmpty_false_of_ne (s : String) (hs : s ≠ "") : s.isEmpty = false := by
  cases he : s.isEmpty
  · rfl
  · exact absurd ((String.isEmpty_iff s).1 he) hs

theorem captureOneFrame_none_iff (gpu : Gpu) (c : DxgiVideoCapturer) :
    (c.captureOneFrame gpu).1 = none ↔
      (gpu.GetFrame ≠ DUPL_RETURN.DUPL_RETURN_SUCCESS ∨ gpu.timeout = true ∨
        (c.shareTexture gpu).1 = "") := by
  unfold DxgiVideoCapturer.captureOneFrame
  by_cases hg : gpu.GetFrame = DUPL_RETURN.DUPL_RETURN_SUCCESS
  · cases ht : gpu.timeout
    · by_cases hn : (c.shareTexture gpu).1 = ""
      · have he : "".isEmpty = true := rfl
        simp [hg, ht, he, hn]
      · have hne := isEmpty_false_of_ne _ hn
        simp [hg, ht, hn, hne]
    · simp [hg, ht]
  · simp [hg]

theorem captureOneFrame_some (gpu : Gpu) (c : DxgiVideoCapturer)
    (hg : gpu.GetFrame = DUPL_RETURN.DUPL_RETURN_SUCCESS) (ht : gpu.timeout = false)
    (hn : (c.shareTexture gpu).1 ≠ "") :
    (c.captureOneFrame gpu).1 =
      some { name := (c.shareTexture gpu).1, capture_timestamp_us := gpu.steady_now_us } := by
  have hne := isEmpty_false_of_ne _ hn
  simp [DxgiVideoCapturer.captureOneFrame, hg, ht, hne]

/-- C21. One iteration of the capture loop on the DXGI capturer: when the poll
reports a time-out or does not return success, or the copy into a pool slot
yields the empty name, `captureOneFrame` returns no frame, `on_frame` is not
called and the frame counter keeps its value; when the poll succeeds without
time-out and a slot name is obtained, `on_frame` is called, once, with the frame
of that name. So `on_frame` is called exactly in the second case. -/
theorem capture_round_spec (range : Nat) (gpu : Gpu) (stop_requested : Bool)
    (v : VideoCapturer) (c : DxgiVideoCapturer) :
    ((c.captureOneFrame gpu).1 = none ↔
      (gpu.GetFrame ≠ DUPL_RETURN.DUPL_RETURN_SUCCESS ∨ gpu.timeout = true ∨
        (c.shareTexture gpu).1 = "")) ∧
    (if gpu.GetFrame = DUPL_RETURN.DUPL_RETURN_SUCCESS ∧ gpu.timeout = false ∧
        (c.shareTexture gpu).1 ≠ "" then
      (c.main_loop range [⟨gpu, stop_requested⟩] v).frames =
          [{ name := (c.shareTexture gpu).1
             capture_timestamp_us := gpu.steady_now_us
             picture_id := v.frame_no_ }] ∧
        (c.main_loop range [⟨gpu, stop_requested⟩] v).capturer.frame_no_ =
          (v.frame_no_ + 1) % range
    else
      (c.main_loop range [⟨gpu, stop_requested⟩] v).frames = [] ∧
        (c.main_loop range [⟨gpu, stop_requested⟩] v).capturer.frame_no_ = v.frame_no_) ∧
    (c.main_loop range [⟨gpu, stop_requested⟩] v).polls = 1 := by
  refine ⟨captureOneFrame_none_iff gpu c, ?_, ?_⟩
  · split
    · rename_i hok
      have hf := captureOneFrame_some gpu c hok.1 hok.2.1 hok.2.2
      cases stop_requested <;>
        simp [DxgiVideoCapturer.main_loop, dxgi_capture_rounds, VideoCapturer.main_loop,
          main_loop_rounds, hf]
    · rename_i hbad
      have hf : (c.captureOneFrame gpu).1 = none := by
        rw [captureOneFrame_none_iff]
        by_contra hcon
        simp only [not_or] at hcon
        exact hbad ⟨by simpa using hcon.1, by simpa using hcon.2.1, hcon.2.2⟩
      cases stop_requested <;>
        simp [DxgiVideoCapturer.main_loop, dxgi_capture_rounds, VideoCapturer.main_loop,
          main_loop_rounds, hf]
  · simp [DxgiVideoCapturer.main_loop, dxgi_capture_rounds]

/-- The rounds of a DXGI run on a fresh capturer: a time-out, an error, a
success, an exhausted `AcquireSync`, a success. -/
theorem capture_round_samples :
    (({} : DxgiVideoCapturer).main_loop (2 ^ 32)
        [⟨{ sample_gpu true true with timeout := true }, false⟩,
          ⟨sample_gpu_error, false⟩, ⟨sample_gpu true true, false⟩,
          ⟨sample_gpu true false, false⟩, ⟨sample_gpu true true, true⟩,
          ⟨sample_gpu true true, false⟩] { stoped_ := true }).frames.map
      (fun f => (f.name, f.picture_id)) =
      [("Global\\lanthing_dxgi_sharedTexture_0", 0),
        ("Global\\lanthing_dxgi_sharedTexture_2", 1)] ∧
    (({} : DxgiVideoCapturer).main_loop (2 ^ 32)
        [⟨{ sample_gpu true true with timeout := true }, false⟩,
          ⟨sample_gpu_error, false⟩, ⟨sample_gpu true true, false⟩,
          ⟨sample_gpu true false, false⟩, ⟨sample_gpu true true, true⟩,
          ⟨sample_gpu true true, false⟩] { stoped_ := true }).polls = 5 := by
  decide

/-- C22, counterexample: after a round whose poll ends with an unexpected
error the stop flag is clear, and the round that follows polls again and emits
a frame. -/
theorem capture_loop_survives_error :
    sample_gpu_error.GetFrame = DUPL_RETURN.DUPL_RETURN_ERROR_UNEXPECTED ∧
    (({} : DxgiVideoCapturer).main_loop (2 ^ 32) [⟨sample_gpu_error, false⟩]
        { stoped_ := true }).capturer.stoped_ = false ∧
    (({} : DxgiVideoCapturer).main_loop (2 ^ 32)
        [⟨sample_gpu_error, false⟩, ⟨sample_gpu true true, false⟩]
        { stoped_ := true }).polls = 2 ∧
    (({} : DxgiVideoCapturer).main_loop (2 ^ 32)
        [⟨sample_gpu_error, false⟩, ⟨sample_gpu true true, false⟩]
        { stoped_ := true }).frames.length = 1 := by
  decide

/-- C22, amended. When the poll returns an error code rather than success,
`captureOneFrame` returns no frame and leaves the capturer as it was, and the
capture loop does not stop: after that iteration the stop flag is set only if
another thread called `stop()` meanwhile, no frame is emitted, the counter
keeps its value, and when the flag is clear the next iteration polls again. -/
theorem capture_round_on_error (range : Nat) (gpu next : Gpu) (stop_requested later : Bool)
    (v : VideoCapturer) (c : DxgiVideoCapturer)
    (herr : gpu.GetFrame ≠ DUPL_RETURN.DUPL_RETURN_SUCCESS) :
    c.captureOneFrame gpu = (none, c) ∧
    (c.main_loop range [⟨gpu, stop_requested⟩] v).capturer.stoped_ = stop_requested ∧
    (c.main_loop range [⟨gpu, stop_requested⟩] v).frames = [] ∧
    (c.main_loop range [⟨gpu, stop_requested⟩] v).capturer.frame_no_ = v.frame_no_ ∧
    (c.main_loop range [⟨gpu, stop_requested⟩] v).dxgi = c ∧
    (c.main_loop range [⟨gpu, false⟩, ⟨next, later⟩] v).polls = 2 ∧
    (c.main_loop range [⟨gpu, true⟩, ⟨next, later⟩] v).polls = 1 := by
  have hc : c.captureOneFrame gpu = (none, c) := by
    simp [DxgiVideoCapturer.captureOneFrame, herr]
  refine ⟨hc, ?_, ?_, ?_, ?_, ?_, ?_⟩
  · cases stop_requested <;>
      simp [DxgiVideoCapturer.main_loop, dxgi_capture_rounds, VideoCapturer.main_loop,
        main_loop_rounds, hc]
  · cases stop_requested <;>
      simp [DxgiVideoCapturer.main_loop, dxgi_capture_rounds, VideoCapturer.main_loop,
        main_loop_rounds, hc]
  · cases stop_requested <;>
      simp [DxgiVideoCapturer.main_loop, dxgi_capture_rounds, VideoCapturer.main_loop,
        main_loop_rounds, hc]
  · simp [DxgiVideoCapturer.main_loop, dxgi_capture_rounds, hc]
  · simp [DxgiVideoCapturer.main_loop, dxgi_capture_rounds, hc]
  · simp [DxgiVideoCapturer.main_loop, dxgi_capture_rounds, hc]

/-- C22, amended, on the sample error round followed by a successful one. -/
theorem capture_round_on_error_witness :
    (({} : DxgiVideoCapturer).main_loop (2 ^ 32) [⟨sample_gpu_error, false⟩]
        { stoped_ := true }).capturer.stoped_ = false ∧
    (({} : DxgiVideoCapturer).main_loop (2 ^ 32)
        [⟨sample_gpu_error, false⟩, ⟨sample_gpu true true, false⟩]
        { stoped_ := true }).polls = 2 :=
  ⟨(capture_round_on_error (2 ^ 32) sample_gpu_error (sample_gpu true true) false false
      { stoped_ := true } {} (by decide)).2.1,
    (capture_round_on_error (2 ^ 32) sample_gpu_error (sample_gpu true true) false false
      { stoped_ := true } {} (by decide)).2.2.2.2.2.1⟩

end lt

/-! ## Unknown messages, connection state, registration: theorems -/

namespace lt

theorem dispatch_unregistered (h : Host) (now : Int) (type : Nat) (msg : Message)
    (w : Worker) (hnone : map_find type w.msg_handlers_ = none) :
    w.dispatch_service_message h now type msg =
      { w with log := w.log ++ [(LogLevel.WARNING, "Unknown message type")] } := by
  simp [Worker.dispatch_service_message, hnone]

theorem on_events_unregistered (h : Host) (msgs : List (Nat × Message × Int)) (w : Worker)
    (hnone : ∀ m ∈ msgs, map_find m.1 w.msg_handlers_ = none) :
    w.on_events h (msgs.map fun m => PipeEvent.message m.1 m.2.1 m.2.2) =
      { w with log := w.log ++
          List.replicate msgs.length (LogLevel.WARNING, "Unknown message type") } := by
  induction msgs generalizing w with
  | nil => simp [Worker.on_events]
  | cons m rest ih =>
    have h1 := dispatch_unregistered h m.2.2 m.1 m.2.1 w (hnone m (List.mem_cons_self _ _))
    have h2 := ih { w with log := w.log ++ [(LogLevel.WARNING, "Unknown message type")] }
      (fun m' hm' => hnone m' (List.mem_cons_of_mem _ hm'))
    simp only [Worker.on_events, List.map_cons, List.foldl_cons, Worker.on_event,
      Worker.on_pipe_message] at h2 ⊢
    rw [h1, h2]
    simp [List.replicate_succ, List.append_assoc]

/-- C23, counterexample: on the initialised sample worker, no number of
messages of the unregistered type 99 makes the worker call `stop()`. -/
theorem unknown_messages_never_stop :
    map_find 99 ((sample_worker [.H264]).init (sample_host [⟨.NvEnc, .H264⟩])).2.msg_handlers_
      = none ∧
    ¬ ∃ n : Nat,
      ((((sample_worker [.H264]).init (sample_host [⟨.NvEnc, .H264⟩])).2.on_events
          (sample_host [⟨.NvEnc, .H264⟩])
          ((List.replicate n ((99 : Nat), Message.other 0, (0 : Int))).map
            fun m => PipeEvent.message m.1 m.2.1 m.2.2)).stop_calls ≠ 0) := by
  refine ⟨by decide, ?_⟩
  rintro ⟨n, hn⟩
  apply hn
  rw [on_events_unregistered]
  · exact (by decide :
      ((sample_worker [.H264]).init (sample_host [⟨.NvEnc, .H264⟩])).2.stop_calls = 0)
  · intro m hm
    rw [List.eq_of_mem_replicate hm]
    decide

/-- C23, amended. Messages of unregistered type never close the session: for
every number of such messages delivered to `Worker::on_pipe_message`, each is
logged and discarded, the worker does not call `stop()`, and nothing of the
worker but its log changes. -/
theorem unknown_messages_discarded (h : Host) (msgs : List (Nat × Message × Int))
    (w : Worker) (hnone : ∀ m ∈ msgs, map_find m.1 w.msg_handlers_ = none) :
    (w.on_events h (msgs.map fun m => PipeEvent.message m.1 m.2.1 m.2.2)).stop_calls =
      w.stop_calls ∧
    { w.on_events h (msgs.map fun m => PipeEvent.message m.1 m.2.1 m.2.2) with
        log := w.log } = w ∧
    (w.on_events h (msgs.map fun m => PipeEvent.message m.1 m.2.1 m.2.2)).log =
      w.log ++ List.replicate msgs.length (LogLevel.WARNING, "Unknown message type") := by
  rw [on_events_unregistered h msgs w hnone]
  exact ⟨rfl, rfl, rfl⟩

/-- C23, amended, on three messages of unregistered types to the initialised
sample worker. -/
theorem unknown_messages_discarded_witness :
    ((((sample_worker [.H264]).init (sample_host [⟨.NvEnc, .H264⟩])).2.on_events
        (sample_host [⟨.NvEnc, .H264⟩])
        [.message 99 (.other 0) 0, .message 98 .KeepAlive 1, .message 99 (.other 2) 2]
      ).stop_calls = 0) :=
  (unknown_messages_discarded (sample_host [⟨.NvEnc, .H264⟩])
    [(99, .other 0, 0), (98, .KeepAlive, 1), (99, .other 2, 2)]
    ((sample_worker [.H264]).init (sample_host [⟨.NvEnc, .H264⟩])).2
    (by decide)).1.trans (by decide)

theorem on_event_connection_state (h : Host) (w : Worker) (e : PipeEvent) :
    (w.on_event h e).connected_to_service_ = connection_state w.connected_to_service_ [e] := by
  cases e with
  | connected =>
    simp only [Worker.on_event, Worker.on_pipe_connected, connection_state]
    cases hp : w.negotiated_params_ <;> cases hc : w.connected_to_service_ <;>
      simp [hp, hc, Worker.send_pipe_message]
  | disconnected => rfl
  | reconnecting => rfl
  | message type msg now =>
    exact (dispatch_service_message_frame h now type msg w).1
  | captured_video_frame frame => exact (send_pipe_message_frame h _ _ w).1
  | captured_audio_data audio_data => exact (send_pipe_message_frame h _ _ w).1
  | check_timeout now =>
    simp only [Worker.on_event, Worker.check_timeout, Worker.stop, connection_state]
    split <;> rfl
  | send_message type msg => exact (send_pipe_message_frame h _ _ w).1

theorem connection_state_cons (connected : Bool) (e : PipeEvent) (rest : List PipeEvent) :
    connection_state connected (e :: rest) =
      connection_state (connection_state connected [e]) rest := by
  cases e <;> rfl

theorem on_events_connection_state (h : Host) (events : List PipeEvent) (w : Worker) :
    (w.on_events h events).connected_to_service_ =
      connection_state w.connected_to_service_ events := by
  induction events generalizing w with
  | nil => rfl
  | cons e rest ih =>
    have h1 := ih (w.on_event h e)
    simp only [Worker.on_events, List.foldl_cons] at h1 ⊢
    rw [h1, on_event_connection_state, ← connection_state_cons]

/-- C26. `Worker::send_pipe_message` sends nothing and returns `false` whenever
`connected_to_service_` is `false`; after any sequence of events the flag is
`true` exactly when the last connect, disconnect or reconnecting event was a
connect; and an event other than the connect itself that runs while the worker
is disconnected (a captured frame, audio data, a message and its
acknowledgement, a send by the input executor) writes nothing to the pipe. -/
theorem disconnected_sends_nothing (h : Host) (w : Worker) :
    (∀ (type : Nat) (msg : Message), w.connected_to_service_ = false →
      w.send_pipe_message h type msg = (false, w)) ∧
    (∀ events : List PipeEvent,
      (w.on_events h events).connected_to_service_ =
        connection_state w.connected_to_service_ events) ∧
    (∀ (pre : List PipeEvent) (e : PipeEvent), e ≠ PipeEvent.connected →
      connection_state w.connected_to_service_ pre = false →
      (w.on_events h (pre ++ [e])).sent = (w.on_events h pre).sent ∧
        (w.on_events h (pre ++ [e])).connected_to_service_ = false) := by
  refine ⟨?_, fun events => on_events_connection_state h events w, ?_⟩
  · intro type msg hd
    simp [Worker.send_pipe_message, hd]
  · intro pre e he hd
    have hpre : (w.on_events h pre).connected_to_service_ = false :=
      (on_events_connection_state h pre w).trans hd
    have hstep := on_event_while_disconnected h (w.on_events h pre) e he hpre
    have hsplit : w.on_events h (pre ++ [e]) = (w.on_events h pre).on_event h e := by
      simp [Worker.on_events, List.foldl_append]
    rw [hsplit]
    exact ⟨hstep.2, hstep.1⟩

/-- A run of the initialised sample worker: a frame before the connect, the
connect, a frame, a disconnect, a frame and audio data, a reconnect attempt, a
`StartWorking`: only the parameters and the one frame are written. -/
theorem disconnected_sends_nothing_sample :
    (((sample_worker [.H264]).init (sample_host [⟨.NvEnc, .H264⟩])).2.on_events
        (sample_host [⟨.NvEnc, .H264⟩])
        [.captured_video_frame (.CaptureVideoFrame {}), .connected,
          .captured_video_frame (.CaptureVideoFrame {}), .disconnected,
          .captured_video_frame (.CaptureVideoFrame {}), .captured_audio_data (.AudioData 1),
          .reconnecting, .message 1 .StartWorking 5]).sent.map Prod.fst = [4, 6] := by
  decide

theorem map_insert_find_other {β : Type} (k : Nat) (v : β) (l : List (Nat × β)) (t : Nat)
    (ht : t ≠ k) : map_find t (map_insert k v l).1 = map_find t l := by
  induction l with
  | nil =>
    have : ¬ k = t := fun hk => ht hk.symm
    simp [map_insert, map_find, this]
  | cons p rest ih =>
    obtain ⟨k0, v0⟩ := p
    by_cases h1 : k < k0
    · have : ¬ k = t := fun hk => ht hk.symm
      simp [map_insert, h1, map_find, this]
    · by_cases h2 : k = k0
      · simp [map_insert, h2]
      · simp only [map_insert, h1, h2, if_false, map_find, ih]

theorem map_insert_absent {β : Type} (k : Nat) (v : β) (l : List (Nat × β))
    (hnone : map_find k l = none) :
    (map_insert k v l).2 = true ∧ map_find k (map_insert k v l).1 = some v := by
  induction l with
  | nil => simp [map_insert, map_find]
  | cons p rest ih =>
    obtain ⟨k0, v0⟩ := p
    by_cases h0 : k0 = k
    · simp [map_find, h0] at hnone
    · have h2 : ¬ k = k0 := fun hk => h0 hk.symm
      simp only [map_find, h0, if_false] at hnone
      by_cases h1 : k < k0
      · simp [map_insert, h1, map_find]
      · simp only [map_insert, h1, h2, if_false, map_find, h0]
        exact ih hnone

theorem map_find_none_of_lt {β : Type} (k : Nat) (l : List (Nat × β))
    (hlt : ∀ t ∈ l.map Prod.fst, k < t) : map_find k l = none := by
  induction l with
  | nil => rfl
  | cons p rest ih =>
    obtain ⟨k0, v0⟩ := p
    have h0 : k < k0 := hlt k0 (by simp)
    have : ¬ k0 = k := by omega
    simp only [map_find, this, if_false]
    exact ih (fun t ht => hlt t (by simp only [List.map_cons, List.mem_cons]; exact Or.inr ht))

theorem map_insert_present {β : Type} (k : Nat) (v v0 : β) (l : List (Nat × β))
    (hs : (l.map Prod.fst).Pairwise (· < ·)) (hsome : map_find k l = some v0) :
    (map_insert k v l).2 = false := by
  induction l with
  | nil => simp [map_find] at hsome
  | cons p rest ih =>
    obtain ⟨k1, v1⟩ := p
    simp only [List.map_cons, List.pairwise_cons] at hs
    by_cases h1 : k < k1
    · have hnone : map_find k ((k1, v1) :: rest) = none := by
        apply map_find_none_of_lt
        intro t ht
        simp only [List.map_cons, List.mem_cons] at ht
        rcases ht with rfl | ht
        · exact h1
        · exact lt_trans h1 (hs.1 t ht)
      rw [hnone] at hsome
      cases hsome
    · by_cases h2 : k = k1
      · simp [map_insert, h2]
      · have h0 : ¬ k1 = k := fun hk => h2 hk.symm
        simp only [map_find, h0, if_false] at hsome
        simp only [map_insert, h1, h2, if_false]
        exact ih hs.2 hsome

/-- C27. `Worker::register_message_handler(type, handler)` on a handler map:
when no handler is registered for `type` it returns `true` and the map holds
`handler` for `type` afterwards; when one is registered it returns `false` and
the map, the existing handler included, is unchanged; in both cases the
handlers of all other types are as before and the map stays ordered by type. -/
theorem register_message_handler_spec (type : Nat) (handler : MessageHandler) (w : Worker)
    (hsorted : (w.msg_handlers_.map Prod.fst).Pairwise (· < ·)) :
    (match map_find type w.msg_handlers_ with
      | none =>
        (w.register_message_handler type handler).1 = true ∧
          map_find type (w.register_message_handler type handler).2.msg_handlers_ =
            some handler
      | some existing =>
        (w.register_message_handler type handler).1 = false ∧
          (w.register_message_handler type handler).2.msg_handlers_ = w.msg_handlers_ ∧
          map_find type (w.register_message_handler type handler).2.msg_handlers_ =
            some existing) ∧
    (∀ other : Nat, other ≠ type →
      map_find other (w.register_message_handler type handler).2.msg_handlers_ =
        map_find other w.msg_handlers_) ∧
    (((w.register_message_handler type handler).2.msg_handlers_.map Prod.fst).Pairwise
      (· < ·)) := by
  have hh := register_message_handler_handlers type handler w
  refine ⟨?_, ?_, ?_⟩
  · cases hf : map_find type w.msg_handlers_ with
    | none =>
      obtain ⟨a1, a2⟩ := map_insert_absent type handler w.msg_handlers_ hf
      refine ⟨?_, ?_⟩
      · simp [Worker.register_message_handler, a1]
      · rw [hh]; exact a2
    | some existing =>
      have a1 := map_insert_present type handler existing w.msg_handlers_ hsorted hf
      have a2 := map_insert_unchanged type handler w.msg_handlers_ a1
      refine ⟨?_, ?_, ?_⟩
      · simp [Worker.register_message_handler, a1]
      · rw [hh, a2]
      · rw [hh, a2, hf]
  · intro other hother
    rw [hh]
    exact map_insert_find_other type handler w.msg_handlers_ other hother
  · rw [hh]
    exact map_insert_keys_sorted type handler w.msg_handlers_ hsorted

/-- C27 on the initialised sample worker, whose map holds the types 1, 2 and 3:
type 2 is refused, type 7 is added. -/
theorem register_message_handler_spec_witness :
    ((((sample_worker [.H264]).init (sample_host [⟨.NvEnc, .H264⟩])).2.msg_handlers_.map
        Prod.fst).Pairwise (· < ·)) ∧
    (((sample_worker [.H264]).init (sample_host [⟨.NvEnc, .H264⟩])).2.register_message_handler
        2 (.external 5)).1 = false ∧
    (((sample_worker [.H264]).init (sample_host [⟨.NvEnc, .H264⟩])).2.register_message_handler
        7 (.external 5)).2.msg_handlers_.map Prod.fst = [1, 2, 3, 7] ∧
    (((((sample_worker [.H264]).init (sample_host [⟨.NvEnc, .H264⟩])).2.register_message_handler
        7 (.external 5)).2.msg_handlers_.map Prod.fst).Pairwise (· < ·)) :=
  ⟨by decide, by decide, by decide,
    (register_message_handler_spec 7 (.external 5)
      ((sample_worker [.H264]).init (sample_host [⟨.NvEnc, .H264⟩])).2 (by decide)).2.2⟩

end lt

/-! ## Log sink, adapter selection, cursor: theorems -/

namespace lt

/-- C24, counterexample: with no `-flushlog` option `getLtFlushLogLines()` is
30, and the log sink is constructed with 1; with `-flushlog 50` it is 50, and
the sink is again constructed with 1. -/
theorem log_sink_ignores_flush_lines :
    getLtFlushLogLines (setFlushLogLines []) = 30 ∧
    (initLogAndMinidump Role.Worker "appdata" "bin" (setFlushLogLines [])).flush_every_x_lines
      = 1 ∧
    (initLogAndMinidump Role.Worker "appdata" "bin" (setFlushLogLines [])).flush_every_x_lines
      ≠ getLtFlushLogLines (setFlushLogLines []) ∧
    getLtFlushLogLines (setFlushLogLines [("-flushlog", "50")]) = 50 ∧
    (initLogAndMinidump Role.Client "" "bin"
        (setFlushLogLines [("-flushlog", "50")])).flush_every_x_lines = 1 := by
  decide

/-- C24, amended. The `-flushlog` value does not reach the log sink: for every
option map, role and directory, `initLogAndMinidump` constructs the log sink
with flush-every-N-lines equal to 1, whatever `getLtFlushLogLines()` returns. -/
theorem log_sink_flush_every_line (role : Role) (appdata_dir bin_dir : String)
    (options : Options) (gFlushLogLines : Option Int) :
    (initLogAndMinidump role appdata_dir bin_dir (setFlushLogLines options)).flush_every_x_lines
      = 1 ∧
    (initLogAndMinidump role appdata_dir bin_dir gFlushLogLines).flush_every_x_lines = 1 :=
  ⟨rfl, rfl⟩

theorem initD3D11_loop_spec (d : Dxgi) (n : Nat)
    (hn : d.EnumAdapters n = EnumAdaptersResult.DXGI_ERROR_NOT_FOUND)
    (fuel k : Nat) (c : DxgiVideoCapturer) (hk : k ≤ n) (hfuel : n - k < fuel)
    (hfirst : ∀ j, k ≤ j → j < n →
      d.EnumAdapters j ≠ EnumAdaptersResult.DXGI_ERROR_NOT_FOUND) :
    ∃ r, initD3D11_loop d fuel k c = some r ∧
      (r.1 = true ↔ ∃ i, k ≤ i ∧ i < n ∧ usable_adapter (d.EnumAdapters i) = true ∧
        ∀ j, k ≤ j → j < i →
          d.EnumAdapters j ≠ EnumAdaptersResult.DXGI_ERROR_INVALID_CALL) ∧
      (r.1 = true → ∃ (i : Nat) (adapter : Adapter) (desc : DXGI_ADAPTER_DESC),
        k ≤ i ∧ i < n ∧ d.EnumAdapters i = EnumAdaptersResult.S_OK adapter ∧
        adapter.GetDesc = some desc ∧ adapter.D3D11CreateDevice = true ∧
        (∀ j, k ≤ j → j < i → usable_adapter (d.EnumAdapters j) = false) ∧
        r.2.d3d11_dev_ = some i ∧ r.2.luid_ = adapter_luid desc) ∧
      (r.1 = false → r.2.d3d11_dev_ = c.d3d11_dev_ ∧ r.2.luid_ = c.luid_) := by
  induction fuel generalizing k c with
  | zero => omega
  | succ fuel ih =>
    have hkn : k < n ∨ k = n := by omega
    cases he : d.EnumAdapters k with
    | DXGI_ERROR_NOT_FOUND =>
      have hkeq : k = n := by
        rcases hkn with hlt | heq
        · exact absurd he (hfirst k (le_refl k) hlt)
        · exact heq
      refine ⟨_, by simp only [initD3D11_loop, he]; rfl, ?_, ?_, ?_⟩
      · constructor
        · intro hf; simp at hf
        · rintro ⟨i, h1, h2, _⟩; omega
      · intro hf; simp at hf
      · intro _; exact ⟨rfl, rfl⟩
    | DXGI_ERROR_INVALID_CALL =>
      refine ⟨_, by simp only [initD3D11_loop, he]; rfl, ?_, ?_, ?_⟩
      · constructor
        · intro hf; simp at hf
        · rintro ⟨i, h1, h2, h3, h4⟩
          rcases Nat.eq_or_lt_of_le h1 with heq | hlt
          · subst heq
            rw [he] at h3
            simp [usable_adapter] at h3
          · exact absurd he (h4 k (le_refl k) hlt)
      · intro hf; simp at hf
      · intro _; exact ⟨rfl, rfl⟩
    | S_OK adapter =>
      have hklt : k < n := by
        rcases hkn with hlt | heq
        · exact hlt
        · subst heq; rw [hn] at he; cases he
      have hstep : ∀ c1 : DxgiVideoCapturer, c1.d3d11_dev_ = c.d3d11_dev_ →
          c1.luid_ = c.luid_ → usable_adapter (d.EnumAdapters k) = false →
          ∃ r, initD3D11_loop d fuel (k + 1) c1 = some r ∧
            (r.1 = true ↔ ∃ i, k ≤ i ∧ i < n ∧ usable_adapter (d.EnumAdapters i) = true ∧
              ∀ j, k ≤ j → j < i →
                d.EnumAdapters j ≠ EnumAdaptersResult.DXGI_ERROR_INVALID_CALL) ∧
            (r.1 = true → ∃ (i : Nat) (adapter : Adapter) (desc : DXGI_ADAPTER_DESC),
              k ≤ i ∧ i < n ∧ d.EnumAdapters i = EnumAdaptersResult.S_OK adapter ∧
              adapter.GetDesc = some desc ∧ adapter.D3D11CreateDevice = true ∧
              (∀ j, k ≤ j → j < i → usable_adapter (d.EnumAdapters j) = false) ∧
              r.2.d3d11_dev_ = some i ∧ r.2.luid_ = adapter_luid desc) ∧
            (r.1 = false → r.2.d3d11_dev_ = c.d3d11_dev_ ∧ r.2.luid_ = c.luid_) := by
        intro c1 hd hl hnot
        obtain ⟨r, hr, h1, h2, h3⟩ := ih (k + 1) c1 (by omega) (by omega)
          (fun j hj1 hj2 => hfirst j (by omega) hj2)
        refine ⟨r, hr, ?_, ?_, ?_⟩
        · rw [h1]
          constructor
          · rintro ⟨i, a1, a2, a3, a4⟩
            refine ⟨i, by omega, a2, a3, ?_⟩
            intro j hj1 hj2
            rcases Nat.eq_or_lt_of_le hj1 with heq | hlt
            · subst heq; rw [he]; simp
            · exact a4 j hlt hj2
          · rintro ⟨i, a1, a2, a3, a4⟩
            rcases Nat.eq_or_lt_of_le a1 with heq | hlt
            · subst heq; rw [hnot] at a3; cases a3
            · exact ⟨i, hlt, a2, a3, fun j hj1 hj2 => a4 j (by omega) hj2⟩
        · intro hf
          obtain ⟨i, ad, desc, a1, a2, a3, a4, a5, a6, a7, a8⟩ := h2 hf
          refine ⟨i, ad, desc, by omega, a2, a3, a4, a5, ?_, a7, a8⟩
          intro j hj1 hj2
          rcases Nat.eq_or_lt_of_le hj1 with heq | hlt
          · subst heq; exact hnot
          · exact a6 j hlt hj2
        · intro hf
          obtain ⟨b1, b2⟩ := h3 hf
          exact ⟨b1.trans hd, b2.trans hl⟩
      cases hdesc : adapter.GetDesc with
      | none =>
        have hnot : usable_adapter (d.EnumAdapters k) = false := by
          simp [he, usable_adapter, hdesc]
        simp only [initD3D11_loop, he, hdesc]
        exact hstep _ rfl rfl hnot
      | some desc =>
        cases hdev : adapter.D3D11CreateDevice with
        | false =>
          have hnot : usable_adapter (d.EnumAdapters k) = false := by
            simp [he, usable_adapter, hdev]
          simp only [initD3D11_loop, he, hdesc, hdev]
          exact hstep _ rfl rfl hnot
        | true =>
          refine ⟨_, by simp only [initD3D11_loop, he, hdesc, hdev]; rfl, ?_, ?_, ?_⟩
          · constructor
            · intro _
              refine ⟨k, le_refl k, hklt, by simp [he, usable_adapter, hdesc, hdev], ?_⟩
              intro j hj1 hj2; omega
            · intro _; rfl
          · intro _
            exact ⟨k, adapter, desc, le_refl k, hklt, he, hdesc, hdev,
              fun j hj1 hj2 => by omega, rfl, rfl⟩
          · intro hf; simp at hf

/-- The value `initD3D11` stores for an adapter description: the 64-bit signed
integer congruent to `HighPart * 2^32 + LowPart` modulo `2^64`; for a
`HighPart` that is a 32-bit signed integer and a `LowPart` that is a 32-bit
unsigned integer it is `HighPart * 2^32 + LowPart` itself, from which both
parts are read back. -/
theorem adapter_luid_spec (desc : DXGI_ADAPTER_DESC) :
    -(2 ^ 63) ≤ adapter_luid desc ∧ adapter_luid desc < 2 ^ 63 ∧
    (adapter_luid desc -
      (desc.AdapterLuid.HighPart * 2 ^ 32 + desc.AdapterLuid.LowPart)) % 2 ^ 64 = 0 ∧
    (-(2 ^ 31) ≤ desc.AdapterLuid.HighPart → desc.AdapterLuid.HighPart < 2 ^ 31 →
      desc.AdapterLuid.LowPart < 2 ^ 32 →
        adapter_luid desc = desc.AdapterLuid.HighPart * 2 ^ 32 + desc.AdapterLuid.LowPart ∧
        adapter_luid desc / 2 ^ 32 = desc.AdapterLuid.HighPart ∧
        adapter_luid desc % 2 ^ 32 = desc.AdapterLuid.LowPart) := by
  unfold adapter_luid
  generalize desc.AdapterLuid.HighPart = hi
  generalize desc.AdapterLuid.LowPart = lo
  norm_num only
  refine ⟨?_, ?_, ?_, ?_⟩
  · split <;> omega
  · split <;> omega
  · split <;> omega
  · intro h1 h2 h3
    split <;> omega

/-- C25. Given a created factory and an adapter enumeration whose first
not-found result is at index `n`, `initD3D11` terminates (any allowance of more
than `n` loop rounds suffices) and returns `true` exactly when some index
`i < n` has both `GetDesc` and the device creation succeed with no invalid-call
result at an earlier index; it then selects the lowest index at which both
succeed and stores that adapter's LUID: the 64-bit signed integer congruent to
`HighPart * 2^32 + LowPart` modulo `2^64`, which for the 32-bit signed
`HighPart` and the 32-bit unsigned `LowPart` of a `LUID` is
`HighPart * 2^32 + LowPart` itself, with `HighPart` in its high 32 bits and
`LowPart` in its low 32 bits. When the enumeration is exhausted without such an
adapter it returns `false` and stores nothing. -/
theorem initD3D11_spec (d : Dxgi) (n fuel : Nat) (c : DxgiVideoCapturer)
    (hfactory : d.CreateDXGIFactory1 = true)
    (hn : d.EnumAdapters n = EnumAdaptersResult.DXGI_ERROR_NOT_FOUND)
    (hfirst : ∀ j, j < n → d.EnumAdapters j ≠ EnumAdaptersResult.DXGI_ERROR_NOT_FOUND)
    (hfuel : n < fuel) :
    ∃ r, c.initD3D11 d fuel = some r ∧
      (r.1 = true ↔ ∃ i, i < n ∧ usable_adapter (d.EnumAdapters i) = true ∧
        ∀ j, j < i → d.EnumAdapters j ≠ EnumAdaptersResult.DXGI_ERROR_INVALID_CALL) ∧
      (r.1 = true → ∃ (i : Nat) (adapter : Adapter) (desc : DXGI_ADAPTER_DESC),
        i < n ∧ d.EnumAdapters i = EnumAdaptersResult.S_OK adapter ∧
        adapter.GetDesc = some desc ∧ adapter.D3D11CreateDevice = true ∧
        (∀ j, j < i → usable_adapter (d.EnumAdapters j) = false) ∧
        r.2.d3d11_dev_ = some i ∧ r.2.luid_ = adapter_luid desc ∧
        -(2 ^ 63) ≤ r.2.luid_ ∧ r.2.luid_ < 2 ^ 63 ∧
        (r.2.luid_ -
          (desc.AdapterLuid.HighPart * 2 ^ 32 + desc.AdapterLuid.LowPart)) % 2 ^ 64 = 0 ∧
        (-(2 ^ 31) ≤ desc.AdapterLuid.HighPart → desc.AdapterLuid.HighPart < 2 ^ 31 →
          desc.AdapterLuid.LowPart < 2 ^ 32 →
            r.2.luid_ = desc.AdapterLuid.HighPart * 2 ^ 32 + desc.AdapterLuid.LowPart ∧
            r.2.luid_ / 2 ^ 32 = desc.AdapterLuid.HighPart ∧
            r.2.luid_ % 2 ^ 32 = desc.AdapterLuid.LowPart)) ∧
      (r.1 = false → r.2.d3d11_dev_ = c.d3d11_dev_ ∧ r.2.luid_ = c.luid_) := by
  obtain ⟨r, hr, h1, h2, h3⟩ := initD3D11_loop_spec d n hn fuel 0 c (Nat.zero_le n)
    (by omega) (fun j _ hj => hfirst j hj)
  refine ⟨r, by simp [DxgiVideoCapturer.initD3D11, hfactory, hr], ?_, ?_, h3⟩
  · rw [h1]
    constructor
    · rintro ⟨i, _, a2, a3, a4⟩
      exact ⟨i, a2, a3, fun j hj => a4 j (Nat.zero_le j) hj⟩
    · rintro ⟨i, a2, a3, a4⟩
      exact ⟨i, Nat.zero_le i, a2, a3, fun j _ hj => a4 j hj⟩
  · intro hf
    obtain ⟨i, ad, desc, _, a2, a3, a4, a5, a6, a7, a8⟩ := h2 hf
    obtain ⟨b1, b2, b3, b4⟩ := adapter_luid_spec desc
    rw [← a8] at b1 b2 b3 b4
    exact ⟨i, ad, desc, a2, a3, a4, a5, fun j hj => a6 j (Nat.zero_le j) hj, a7, a8,
      b1, b2, b3, b4⟩

/-- C25 on the sample machine, whose third adapter is the first usable one and
has the LUID of high part 3 and low part 4660: `initD3D11` returns `true`,
selects index 2 and stores `3 * 2^32 + 4660 = 12884906548`. A LUID of high part
-1 and low part 5 is stored as `-(2^32) + 5`. -/
theorem initD3D11_spec_witness :
    sample_dxgi.EnumAdapters 3 = EnumAdaptersResult.DXGI_ERROR_NOT_FOUND ∧
    (({} : DxgiVideoCapturer).initD3D11 sample_dxgi 4).map
        (fun r => (r.1, r.2.d3d11_dev_, r.2.luid_)) = some (true, some 2, 12884906548) ∧
    adapter_luid ⟨2, 2, ⟨3, 4660⟩⟩ = 3 * 4294967296 + 4660 ∧
    adapter_luid ⟨2, 2, ⟨-1, 5⟩⟩ = -4294967291 ∧
    ∃ r, ({} : DxgiVideoCapturer).initD3D11 sample_dxgi 4 = some r :=
  ⟨rfl, by decide, by decide, by decide,
    (initD3D11_spec sample_dxgi 3 4 {} rfl rfl
      (fun j hj => by
        have : j = 0 ∨ j = 1 ∨ j = 2 := by omega
        rcases this with rfl | rfl | rfl <;> simp [sample_dxgi])
      (by decide)).imp (fun _ hr => hr.1)⟩

/-- C28. `Renderer::updateCursor`: an absent update leaves the stored cursor
unchanged; an update with pixel data replaces the stored cursor; an update
without pixel data keeps the stored pixel data and hotspot (those of a default
cursor when none is stored) and takes `screen_w`, `screen_h`, `x`, `y` and
`visible` from the update. Applying the same update twice gives what applying
it once gives. -/
theorem updateCursor_spec (r : Renderer) (update : Option CursorInfo) :
    (match update with
      | none => r.updateCursor none = r
      | some u =>
        if u.data = [] then
          (r.updateCursor (some u)).cursor_info_ =
            some { (r.cursor_info_.getD {}) with
              screen_w := u.screen_w
              screen_h := u.screen_h
              x := u.x
              y := u.y
              visible := u.visible } ∧
          ((r.updateCursor (some u)).cursor_info_.map fun s => (s.data, s.hotspot, s.other)) =
            some ((r.cursor_info_.getD {}).data, (r.cursor_info_.getD {}).hotspot,
              (r.cursor_info_.getD {}).other)
        else (r.updateCursor (some u)).cursor_info_ = some u) ∧
    (r.updateCursor update).updateCursor update = r.updateCursor update ∧
    (r.updateCursor update).absolute_mouse_ = r.absolute_mouse_ := by
  cases update with
  | none => exact ⟨rfl, rfl, rfl⟩
  | some u =>
    by_cases hd : u.data = []
    · cases hs : r.cursor_info_ <;> simp [Renderer.updateCursor, hd, hs]
    · have he : u.data.isEmpty = false := by
        cases hu : u.data with
        | nil => exact absurd hu hd
        | cons a b => rfl
      cases hs : r.cursor_info_ <;> simp [Renderer.updateCursor, hd, he, hs]

/-- The stored cursor after a pixel-less update of an empty renderer, after a
full update, and after both. -/
theorem updateCursor_samples :
    (Renderer.updateCursor (some sample_cursor_move) { absolute_mouse_ := true }).cursor_info_
      = some sample_cursor_move ∧
    (Renderer.updateCursor (some sample_cursor) { absolute_mouse_ := true }).cursor_info_
      = some sample_cursor ∧
    ((Renderer.updateCursor (some sample_cursor_move)
        (Renderer.updateCursor (some sample_cursor) { absolute_mouse_ := true })).cursor_info_.map
      fun s => (s.screen_w, s.x, s.visible, s.data, s.hotspot)) =
      some (1280, 5, true, [1, 2, 3], (4, 4)) := by
  decide

end lt

/-! ## Option parsing: theorems -/

namespace lt

theorem lookup_options_insert (key k v : String) (options : Options) :
    (options_insert k v options).lookup key =
      match options.lookup key with
      | some x => some x
      | none => if key = k then some v else none := by
  unfold options_insert
  cases hk : options.lookup k with
  | some x =>
    simp only
    cases hkey : options.lookup key with
    | some y => rfl
    | none =>
      by_cases heq : key = k
      · subst heq; rw [hk] at hkey; cases hkey
      · simp [heq]
  | none =>
    simp only
    clear hk
    induction options with
    | nil =>
      by_cases heq : key = k
      · simp [List.lookup, heq]
      · have : (key == k) = false := by simpa using heq
        simp [List.lookup, heq, this]
    | cons p rest ih =>
      obtain ⟨k0, v0⟩ := p
      by_cases h0 : key = k0
      · simp [List.lookup, h0]
      · have : (key == k0) = false := by simpa using h0
        simp only [List.cons_append, List.lookup, this]
        exact ih

theorem parseOptions_loop_pairs (pairs : List (String × String)) (acc : Options)
    (hpairs : ∀ p ∈ pairs, starts_with_dash p.1 = true ∧ starts_with_dash p.2 = false)
    (key : String) :
    (parseOptions_loop (flatten_pairs pairs) acc).lookup key =
      match acc.lookup key with
      | some x => some x
      | none => pairs.lookup key := by
  induction pairs generalizing acc with
  | nil =>
    simp only [flatten_pairs, parseOptions_loop, List.lookup]
    cases acc.lookup key <;> rfl
  | cons p rest ih =>
    obtain ⟨flag, value⟩ := p
    obtain ⟨hf, hv⟩ := hpairs (flag, value) (List.mem_cons_self _ _)
    have hrest : ∀ q ∈ rest, starts_with_dash q.1 = true ∧ starts_with_dash q.2 = false :=
      fun q hq => hpairs q (List.mem_cons_of_mem _ hq)
    simp only at hf hv
    simp only [flatten_pairs, parseOptions_loop, hf, hv, Bool.not_true, Bool.not_false,
      Bool.false_eq_true, if_false, if_true]
    rw [ih (options_insert flag value acc) hrest, lookup_options_insert]
    cases hacc : acc.lookup key with
    | some x => rfl
    | none =>
      by_cases heq : key = flag
      · simp [List.lookup, heq]
      · have : (key == flag) = false := by simpa using heq
        simp [List.lookup, heq, this]

theorem lookup_first_occurrence (pre post : List (String × String)) (flag value : String)
    (hpre : ∀ q ∈ pre, q.1 ≠ flag) :
    (pre ++ (flag, value) :: post).lookup flag = some value := by
  induction pre with
  | nil => simp [List.lookup]
  | cons q rest ih =>
    obtain ⟨k0, v0⟩ := q
    have hne : flag ≠ k0 := fun h => hpre (k0, v0) (List.mem_cons_self _ _) h.symm
    have : (flag == k0) = false := by simpa using hne
    simp only [List.cons_append, List.lookup, this]
    exact ih (fun q hq => hpre q (List.mem_cons_of_mem _ hq))

/-- C29. For an argument list made of a program name that does not begin with
a dash followed by flag/value pairs, every flag beginning with a dash and no
value doing so, `parseOptions` returns the map that sends each flag to the
value that follows its first occurrence: a key is found in the result exactly
as it is found, first match first, in the list of pairs, so a pair whose flag
does not occur earlier decides the value of that flag whatever pairs follow,
and a later duplicate does not replace it. -/
theorem parseOptions_pairs (prog : String) (pairs : List (String × String))
    (hprog : starts_with_dash prog = false)
    (hpairs : ∀ p ∈ pairs, starts_with_dash p.1 = true ∧ starts_with_dash p.2 = false) :
    (∀ key : String,
      (parseOptions (prog :: flatten_pairs pairs)).lookup key = pairs.lookup key) ∧
    (∀ (pre post : List (String × String)) (flag value : String),
      pairs = pre ++ (flag, value) :: post → (∀ q ∈ pre, q.1 ≠ flag) →
      (parseOptions (prog :: flatten_pairs pairs)).lookup flag = some value) ∧
    (∀ key : String, (∀ q ∈ pairs, q.1 ≠ key) →
      (parseOptions (prog :: flatten_pairs pairs)).lookup key = none) := by
  have hskip : ∀ args : List String,
      parseOptions (prog :: args) = parseOptions_loop args [] := by
    intro args
    cases args with
    | nil => simp [parseOptions, parseOptions_loop, hprog]
    | cons a rest => simp [parseOptions, parseOptions_loop, hprog]
  have hkey : ∀ key : String,
      (parseOptions (prog :: flatten_pairs pairs)).lookup key = pairs.lookup key := by
    intro key
    rw [hskip, parseOptions_loop_pairs pairs [] hpairs key]
    rfl
  refine ⟨hkey, ?_, ?_⟩
  · intro pre post flag value hp hpre
    rw [hkey, hp]
    exact lookup_first_occurrence pre post flag value hpre
  · intro key hno
    rw [hkey]
    clear hkey hskip hpairs
    induction pairs with
    | nil => rfl
    | cons q rest ih =>
      obtain ⟨k0, v0⟩ := q
      have hne : key ≠ k0 := fun h => hno (k0, v0) (List.mem_cons_self _ _) h.symm
      have : (key == k0) = false := by simpa using hne
      simp only [List.lookup, this]
      exact ih (fun q hq => hno q (List.mem_cons_of_mem _ hq))

/-- C29 on `lanthing -type worker -name a -type client`: `-type` stays
`worker`. -/
theorem parseOptions_pairs_witness :
    starts_with_dash "lanthing" = false ∧
    (parseOptions ["lanthing", "-type", "worker", "-name", "a", "-type", "client"]).lookup
      "-type" = some "worker" ∧
    (parseOptions ["lanthing", "-type", "worker", "-name", "a", "-type", "client"]).lookup
      "-name" = some "a" :=
  ⟨by decide,
    ((parseOptions_pairs "lanthing"
      [("-type", "worker"), ("-name", "a"), ("-type", "client")] (by decide)
      (by decide)).1 "-type").trans (by decide),
    ((parseOptions_pairs "lanthing"
      [("-type", "worker"), ("-name", "a"), ("-type", "client")] (by decide)
      (by decide)).1 "-name").trans (by decide)⟩

theorem mem_options_insert (e : String × String) (k v : String) (options : Options)
    (he : e ∈ options_insert k v options) : e ∈ options ∨ e = (k, v) := by
  unfold options_insert at he
  cases hk : options.lookup k with
  | some x => rw [hk] at he; exact Or.inl he
  | none =>
    rw [hk] at he
    simp only [List.mem_append, List.mem_singleton] at he
    exact he

theorem parseOptions_loop_entries (argv : List String) (args : List String)
    (options : Options) :
    ∀ pre : List String, argv = pre ++ args →
      (∀ e ∈ options, starts_with_dash e.1 = true ∧ starts_with_dash e.2 = false ∧
        ∃ a b, argv = a ++ e.1 :: e.2 :: b) →
      ∀ e ∈ parseOptions_loop args options,
        starts_with_dash e.1 = true ∧ starts_with_dash e.2 = false ∧
          ∃ a b, argv = a ++ e.1 :: e.2 :: b := by
  induction args, options using parseOptions_loop.induct with
  | case1 options =>
    intro pre _ hacc e he
    simp only [parseOptions_loop] at he
    exact hacc e he
  | case2 arg options hna ih =>
    intro pre hpre hacc e he
    simp only [parseOptions_loop, hna, if_true] at he
    exact hacc e he
  | case3 arg options ha =>
    intro pre hpre hacc e he
    simp only [parseOptions_loop, ha, if_false] at he
    exact hacc e he
  | case4 arg next rest options hna ih =>
    intro pre hpre hacc e he
    simp only [parseOptions_loop, hna, if_true] at he
    exact ih (pre ++ [arg]) (by simp [hpre]) hacc e he
  | case5 arg next rest options ha hnn ih =>
    intro pre hpre hacc e he
    simp only [parseOptions_loop, ha, hnn, if_false, if_true] at he
    refine ih (pre ++ [arg, next]) (by simp [hpre]) ?_ e he
    intro e' he'
    rcases mem_options_insert e' arg next options he' with hold | hnew
    · exact hacc e' hold
    · subst hnew
      refine ⟨by simpa using ha, by simpa using hnn, pre, rest, hpre⟩
  | case6 arg next rest options ha hnn ih =>
    intro pre hpre hacc e he
    simp only [parseOptions_loop, ha, hnn, if_false] at he
    exact ih (pre ++ [arg]) (by simp [hpre]) hacc e he

theorem parseOptions_loop_last_flag (args : List String) (options : Options) (flag : String)
    (hflag : starts_with_dash flag = true) :
    parseOptions_loop (args ++ [flag]) options = parseOptions_loop args options := by
  induction args, options using parseOptions_loop.induct with
  | case1 options => simp [parseOptions_loop, hflag]
  | case2 arg options hna ih =>
    simp only [List.cons_append, List.nil_append, parseOptions_loop, hna, if_true, hflag,
      Bool.not_true, Bool.false_eq_true, if_false]
  | case3 arg options ha =>
    simp only [List.cons_append, List.nil_append, parseOptions_loop, ha, if_false, hflag,
      Bool.not_true, Bool.false_eq_true]
  | case4 arg next rest options hna ih =>
    have := ih
    simp only [List.cons_append] at this ⊢
    have e1 : parseOptions_loop (arg :: next :: (rest ++ [flag])) options =
        parseOptions_loop (next :: (rest ++ [flag])) options := by
      rw [parseOptions_loop.eq_3]
      simp only [hna, if_true]
    have e2 : parseOptions_loop (arg :: next :: rest) options =
        parseOptions_loop (next :: rest) options := by
      rw [parseOptions_loop.eq_3]
      simp only [hna, if_true]
    rw [e1, e2]
    exact this
  | case5 arg next rest options ha hnn ih =>
    simp only [List.cons_append, parseOptions_loop, ha, hnn, if_false, if_true]
    exact ih
  | case6 arg next rest options ha hnn ih =>
    have := ih
    simp only [List.cons_append] at this ⊢
    simp only [parseOptions_loop, ha, hnn, if_false]
    exact this

/-- C30. `parseOptions` is defined on every argument list, the empty one and
lists with empty strings included (the loop passes over at least one argument
per round). Every entry (k, v) of its result has k beginning with a dash, v not
beginning with a dash, and v standing right after an occurrence of k in the
argument list; so a value that begins with a dash is never stored, and a flag
in last position contributes nothing. -/
theorem parseOptions_entries (argv : List String) :
    (∀ e ∈ parseOptions argv,
      starts_with_dash e.1 = true ∧ starts_with_dash e.2 = false ∧
        ∃ a b, argv = a ++ e.1 :: e.2 :: b) ∧
    (∀ flag : String, starts_with_dash flag = true →
      parseOptions (argv ++ [flag]) = parseOptions argv) ∧
    (∀ (flag value : String), starts_with_dash value = true →
      (flag, value) ∉ parseOptions argv) ∧
    parseOptions [] = [] ∧ parseOptions [""] = [] ∧ parseOptions ["", ""] = [] := by
  have hent := parseOptions_loop_entries argv argv [] [] (by simp)
    (fun e he => by cases he)
  refine ⟨hent, ?_, ?_, by decide, by decide, by decide⟩
  · intro flag hflag
    exact parseOptions_loop_last_flag argv [] flag hflag
  · intro flag value hv hmem
    have := (hent (flag, value) hmem).2.1
    simp only at this
    rw [hv] at this
    cases this

/-- The result for a command line with a negative number as a value, a flag in
last position and an empty argument. -/
theorem parseOptions_samples :
    parseOptions ["lanthing", "-offset", "-5", "-width", "1920", "", "-name"] =
      [("-width", "1920")] ∧
    parseOptions ["lanthing", "-name", "", "-name", "x"] = [("-name", "")] ∧
    parseOptions ["-a", "b", "c", "-d"] = [("-a", "b")] := by
  decide

end lt
